import Mathlib

/-!
# Worker handle lifecycle and privilege delegation

A shallow embedding of `src/core/slave.cpp` (class `Slave`, the worker handle,
its liveness supervision and its launch strategy) and of parts of
`src/ioslaves/file/file_unix.cpp`: the privilege delegation entry point, the
file operations that call it, and `isNtfsHidden`.

Conventions of the embedding

* A method of `Slave` is a function from the handle before the call to the
  handle after it.  Everything the method does to a collaborating object
  (the connection, the timer queue, the launcher, the signals it emits) is
  appended, in source order, to the `trace` field of the handle.
* Slots connected to the signals belong to other components (scheduler, job);
  an emission is recorded in the trace and the slots are not run.
* Answers of the operating system or of other components (is the process
  alive, did `dispatch()` succeed, the current time) are arguments.
* Compile-time switches and constants declared in headers that are not part
  of the sources at hand are fields of `Build`.
-/

/-! ## Compile-time context -/

/-- Compile-time switches read by `slave.cpp` and the constants it takes from
headers outside the sources at hand (`commands_p.h`, `global.h`). -/
structure Build where
  /-- `NDEBUG` is defined. -/
  NDEBUG : Bool
  /-- `KIO_ANDROID_STUB` is defined. -/
  KIO_ANDROID_STUB : Bool
  /-- `KIO_FORK_SLAVES` is true. -/
  KIO_FORK_SLAVES : Bool
  /-- `Q_OS_UNIX` is defined. -/
  Q_OS_UNIX : Bool
  CMD_SLAVE_HOLD : Int
  CMD_HOST : Int
  CMD_CONFIG : Int
  ERR_SLAVE_DIED : Int
  ERR_CANNOT_CREATE_SLAVE : Int
  deriving DecidableEq, Repr

/-- `static constexpr int s_slaveConnectionTimeoutMin = 2;` -/
def s_slaveConnectionTimeoutMin : Int := 2

/-- `s_slaveConnectionTimeoutMax`: 10 under `NDEBUG`, 3600 otherwise. -/
def s_slaveConnectionTimeoutMax (b : Build) : Int :=
  if b.NDEBUG then 10 else 3600

/-- Conversion of a 64-bit quantity to `int` (two's complement, 32 bits). -/
def toInt32 (n : Int) : Int :=
  (n + 2147483648) % 4294967296 - 2147483648

/-! ## Data model -/

/-- One item written to a `QDataStream`, or a raw byte handed over by a caller. -/
inductive StreamItem where
  | str (s : String)
  | u16 (n : Nat)
  | url (u : String)
  | metaData (m : List (String × String))
  | byte (n : Nat)
  deriving DecidableEq, Repr

/-- Contents of a `QByteArray`. -/
abbrev QByteArray := List StreamItem

/-- What a method of `Slave` does to its collaborators, in source order. -/
inductive Event where
  /-- `ref()` was entered. -/
  | ref
  /-- `deref()` was entered. -/
  | deref
  /-- `d->connection->disconnect(this)` in `aboutToDelete()`. -/
  | connectionDisconnect
  /-- `this->disconnect()` in `aboutToDelete()`. -/
  | disconnectAll
  /-- `delete this` in `deref()`. -/
  | deleteThis
  /-- `d->connection->close()`. -/
  | connectionClose
  /-- `d->connection->send(cmd, data)`. -/
  | connectionSend (cmd : Int) (data : QByteArray)
  /-- `d->connection->suspend()`. -/
  | connectionSuspend
  /-- `d->connection->resume()`. -/
  | connectionResume
  /-- `d->dead = true`. -/
  | setDead
  /-- `Q_EMIT error(code, arg)`. -/
  | emitError (code : Int) (arg : String)
  /-- `Q_EMIT slaveDied(this)`. -/
  | emitSlaveDied
  /-- `Q_EMIT metaData(d->sslMetaData)`. -/
  | emitMetaData (m : List (String × String))
  /-- `dispatch()` was called and returned `ok`. -/
  | dispatch (ok : Bool)
  /-- `QTimer::singleShot(ms, this, &Slave::timeout)`. -/
  | singleShot (ms : Int)
  /-- `KIOPrivate::sendTerminateSignal(pid)`. -/
  | sendTerminateSignal (pid : Int)
  /-- `klauncher()->waitForSlave(pid)`. -/
  | waitForSlave (pid : Int)
  /-- `slaveconnserver->setNextPendingConnection(connection)`. -/
  | setNextPendingConnection
  /-- `slaveconnserver->deleteLater()`. -/
  | listenerDeleteLater
  /-- `connect(connection, readyRead, this, gotInput)`. -/
  | connectReadyRead
  /-- A member call through `d->slaveconnserver` while that pointer is null:
  C++ defines no behaviour for the rest of such a run. -/
  | nullPointerCall
  deriving DecidableEq, Repr

/-- Modelled from the spec: the class `Connection` (`connection_p.h`) is not
among the sources.  The transport is connection-oriented, its flow can be
suspended and resumed without affecting whether it is open, and it can be
closed. -/
structure Connection where
  /-- `isConnected()`. -/
  connected : Bool
  /-- `suspended()`. -/
  suspended : Bool
  deriving DecidableEq, Repr

/-- The fields of `SlavePrivate` (with `sslMetaData` and `connection` of its
base `SlaveInterfacePrivate`), the pending one-shot timers aimed at the handle,
and the trace of what its methods did. -/
structure Slave where
  m_protocol : String
  m_slaveProtocol : String
  m_host : String
  m_user : String
  m_passwd : String
  /-- `slaveconnserver != nullptr`. -/
  slaveconnserver : Bool
  /-- `slaveconnserver->isListening()`. -/
  listening : Bool
  m_job : Option Nat
  m_pid : Int
  m_port : Nat
  contacted : Bool
  dead : Bool
  /-- Clock reading, in milliseconds, at `contact_started.start()`. -/
  contact_started : Nat
  /-- Clock reading at `m_idleSince.start()`; `none` while invalid. -/
  m_idleSince : Option Nat
  m_refCount : Int
  sslMetaData : List (String × String)
  connection : Connection
  /-- Due times, in milliseconds, of the pending `QTimer::singleShot` calls
  whose receiver is this handle. -/
  timers : List Nat
  /-- `delete this` has run. -/
  deleted : Bool
  trace : List Event
  deriving DecidableEq, Repr

namespace Slave

/-- Append one event to the trace. -/
def log (e : Event) (s : Slave) : Slave :=
  { s with trace := s.trace ++ [e] }

/-- `SlavePrivate::SlavePrivate(protocol)` followed by `Slave::Slave`: the
state of a handle constructed at clock reading `now`; `listens` is whether
`listenForRemote()` obtained an address. -/
def new (protocol : String) (now : Nat) (listens : Bool) : Slave :=
  { m_protocol := protocol
    m_slaveProtocol := protocol
    m_host := ""
    m_user := ""
    m_passwd := ""
    slaveconnserver := true
    listening := listens
    m_job := none
    m_pid := 0
    m_port := 0
    contacted := false
    dead := false
    contact_started := now
    m_idleSince := none
    m_refCount := 1
    sslMetaData := []
    connection := { connected := false, suspended := false }
    timers := []
    deleted := false
    trace := [] }

/-- `Slave::ref()`. -/
def ref (s : Slave) : Slave :=
  let s := log Event.ref s
  { s with m_refCount := s.m_refCount + 1 }

/-- `Slave::aboutToDelete()`. -/
def aboutToDelete (s : Slave) : Slave :=
  let s := log Event.connectionDisconnect s
  log Event.disconnectAll s

/-- The destructor: the object is gone, and with it its listener (deleted by
`~SlavePrivate`) and the pending timers that had the object as receiver. -/
def destroy (s : Slave) : Slave :=
  { s with deleted := true, timers := [], slaveconnserver := false, listening := false }

/-- The statement `delete this;` of `deref()`. -/
def deleteThis (s : Slave) : Slave :=
  destroy (log Event.deleteThis s)

/-- `Slave::deref()`. -/
def deref (s : Slave) : Slave :=
  let s := log Event.deref s
  let s := { s with m_refCount := s.m_refCount - 1 }
  if s.m_refCount = 0 then
    deleteThis (aboutToDelete s)
  else
    s

/-- `d->connection->close()`. -/
def connectionClose (s : Slave) : Slave :=
  let s := log Event.connectionClose s
  { s with connection := { s.connection with connected := false } }

/-- The assignment `d->dead = true;`. -/
def setDead (s : Slave) : Slave :=
  let s := log Event.setDead s
  { s with dead := true }

/-- `QTimer::singleShot(ms, this, &Slave::timeout)` issued at clock reading
`now`: the timer becomes due `ms` milliseconds later. -/
def singleShot (now : Nat) (ms : Int) (s : Slave) : Slave :=
  let s := log (Event.singleShot ms) s
  { s with timers := s.timers ++ [now + ms.toNat] }

/-- The argument of `error(ERR_SLAVE_DIED, arg)`: the protocol, followed by
`://` and the host when the host is not empty. -/
def diedArg (s : Slave) : String :=
  if s.m_host ≠ "" then s.m_protocol ++ ("://" ++ s.m_host) else s.m_protocol

/-- `int delta_t = d->contact_started.elapsed() / 1000;` at clock reading `now`. -/
def delta_t (now : Nat) (s : Slave) : Int :=
  toInt32 (((now - s.contact_started) / 1000 : Nat) : Int)

/-- `Slave::accept()`.  Its first statement calls
`setNextPendingConnection` through `d->slaveconnserver`.  On a handle whose
pointer is null (an earlier `accept()` cleared it) that is a call through a
null pointer: no listener is there to hand over a peer, nothing is attached,
and the run is marked with `Event.nullPointerCall`. -/
def accept (s : Slave) : Slave :=
  if s.slaveconnserver then
    let s := log Event.setNextPendingConnection s
    let s := { s with connection := { s.connection with connected := true } }
    let s := log Event.listenerDeleteLater s
    let s := { s with slaveconnserver := false, listening := false }
    log Event.connectReadyRead s
  else
    log Event.nullPointerCall s

/-- The last statements of `Slave::timeout()`, from `d->connection->close()`
to `deref()`: the handle gives up on its worker. -/
def timeoutGiveUp (b : Build) (s : Slave) : Slave :=
  let s := connectionClose s
  let s := setDead s
  let arg := diedArg s
  let s := ref s
  let s := log (Event.emitError b.ERR_SLAVE_DIED arg) s
  let s := log Event.emitSlaveDied s
  deref s

/-- `Slave::timeout()`, run at clock reading `now`; `isProcessAlive` is
`KIOPrivate::isProcessAlive`. -/
def timeout (b : Build) (now : Nat) (isProcessAlive : Int → Bool) (s : Slave) : Slave :=
  if s.dead then
    s
  else if s.connection.connected then
    s
  else if s.m_pid ≠ 0 ∧ isProcessAlive s.m_pid = true then
    if delta_t now s < s_slaveConnectionTimeoutMax b then
      singleShot now (1000 * s_slaveConnectionTimeoutMin) s
    else
      timeoutGiveUp b s
  else
    timeoutGiveUp b s

/-- `Slave::protocol()`. -/
def protocol (s : Slave) : String := s.m_protocol

/-- `Slave::setProtocol(protocol)`. -/
def setProtocol (p : String) (s : Slave) : Slave :=
  { s with m_protocol := p }

/-- `Slave::slaveProtocol()`. -/
def slaveProtocol (s : Slave) : String := s.m_slaveProtocol

/-- `Slave::host()`. -/
def host (s : Slave) : String := s.m_host

/-- `Slave::port()`. -/
def port (s : Slave) : Nat := s.m_port

/-- `Slave::user()`. -/
def user (s : Slave) : String := s.m_user

/-- `Slave::passwd()`. -/
def passwd (s : Slave) : String := s.m_passwd

/-- `Slave::setIdle()` at clock reading `now`. -/
def setIdle (now : Nat) (s : Slave) : Slave :=
  { s with m_idleSince := some now }

/-- `Slave::isConnected()`. -/
def isConnected (s : Slave) : Bool := s.contacted

/-- `Slave::setConnected(c)`. -/
def setConnected (c : Bool) (s : Slave) : Slave :=
  { s with contacted := c }

/-- `Slave::idleTime()` at clock reading `now`. -/
def idleTime (now : Nat) (s : Slave) : Int :=
  match s.m_idleSince with
  | none => 0
  | some t => toInt32 (((now - t) / 1000 : Nat) : Int)

/-- `Slave::setPID(pid)`. -/
def setPID (pid : Int) (s : Slave) : Slave :=
  { s with m_pid := pid }

/-- `Slave::slave_pid()`. -/
def slave_pid (s : Slave) : Int := s.m_pid

/-- `Slave::setJob(job)`. -/
def setJob (job : Option Nat) (s : Slave) : Slave :=
  let s := if s.sslMetaData ≠ [] then log (Event.emitMetaData s.sslMetaData) s else s
  { s with m_job := job }

/-- `Slave::job()`. -/
def job (s : Slave) : Option Nat := s.m_job

/-- `Slave::isAlive()`. -/
def isAlive (s : Slave) : Bool := !s.dead

/-- `Slave::hold(url)`. -/
def hold (b : Build) (url : String) (s : Slave) : Slave :=
  let s := ref s
  let data : QByteArray := [StreamItem.url url]
  let s := log (Event.connectionSend b.CMD_SLAVE_HOLD data) s
  let s := connectionClose s
  let s := setDead s
  let s := log Event.emitSlaveDied s
  let s := deref s
  if b.KIO_ANDROID_STUB then s else log (Event.waitForSlave s.m_pid) s

/-- `Slave::suspend()`. -/
def suspend (s : Slave) : Slave :=
  let s := log Event.connectionSuspend s
  { s with connection := { s.connection with suspended := true } }

/-- `Slave::resume()`. -/
def resume (s : Slave) : Slave :=
  let s := log Event.connectionResume s
  { s with connection := { s.connection with suspended := false } }

/-- `Slave::suspended()`. -/
def suspended (s : Slave) : Bool := s.connection.suspended

/-- `Slave::send(cmd, arr)`. -/
def send (cmd : Int) (arr : QByteArray) (s : Slave) : Slave :=
  log (Event.connectionSend cmd arr) s

/-- `Slave::gotInput()`; `dispatchOk` is what `dispatch()` returns when it is
called. -/
def gotInput (b : Build) (dispatchOk : Bool) (s : Slave) : Slave :=
  if s.dead then
    s
  else
    let s := ref s
    let s := log (Event.dispatch dispatchOk) s
    let s :=
      if !dispatchOk then
        let s := connectionClose s
        let s := setDead s
        let arg := diedArg s
        let s := log (Event.emitError b.ERR_SLAVE_DIED arg) s
        log Event.emitSlaveDied s
      else
        s
    deref s

/-- `Slave::kill()`. -/
def kill (s : Slave) : Slave :=
  let s := setDead s
  if s.m_pid ≠ 0 then
    let s := log (Event.sendTerminateSignal s.m_pid) s
    { s with m_pid := 0 }
  else
    s

/-- `Slave::setHost(host, port, user, passwd)`. -/
def setHost (b : Build) (host : String) (port : Nat) (user passwd : String) (s : Slave) : Slave :=
  let s := { s with m_host := host, m_port := port, m_user := user, m_passwd := passwd,
                    sslMetaData := [] }
  let data : QByteArray :=
    [StreamItem.str s.m_host, StreamItem.u16 s.m_port, StreamItem.str s.m_user,
     StreamItem.str s.m_passwd]
  log (Event.connectionSend b.CMD_HOST data) s

/-- `Slave::resetHost()`. -/
def resetHost (s : Slave) : Slave :=
  { s with sslMetaData := [], m_host := "<reset>" }

/-- `Slave::setConfig(config)`. -/
def setConfig (b : Build) (config : List (String × String)) (s : Slave) : Slave :=
  let data : QByteArray := [StreamItem.metaData config]
  log (Event.connectionSend b.CMD_CONFIG data) s

end Slave

/-! ## Sequences of calls on one handle -/

/-- One call on a handle, with the answers of its environment. -/
inductive Op where
  | timeout (now : Nat) (isProcessAlive : Int → Bool)
  | gotInput (dispatchOk : Bool)
  | hold (url : String)
  | kill
  | accept
  | setProtocol (p : String)
  | setConnected (c : Bool)
  | setHost (host : String) (port : Nat) (user passwd : String)
  | resetHost
  | setConfig (config : List (String × String))
  | setJob (job : Option Nat)
  | setPID (pid : Int)
  | setIdle (now : Nat)
  | suspend
  | resume
  | send (cmd : Int) (arr : QByteArray)
  | ref
  | deref

/-- Run one call. -/
def Op.run (b : Build) : Op → Slave → Slave
  | Op.timeout now alive, s => Slave.timeout b now alive s
  | Op.gotInput ok, s => Slave.gotInput b ok s
  | Op.hold url, s => Slave.hold b url s
  | Op.kill, s => Slave.kill s
  | Op.accept, s => Slave.accept s
  | Op.setProtocol p, s => Slave.setProtocol p s
  | Op.setConnected c, s => Slave.setConnected c s
  | Op.setHost h p u pw, s => Slave.setHost b h p u pw s
  | Op.resetHost, s => Slave.resetHost s
  | Op.setConfig c, s => Slave.setConfig b c s
  | Op.setJob j, s => Slave.setJob j s
  | Op.setPID pid, s => Slave.setPID pid s
  | Op.setIdle now, s => Slave.setIdle now s
  | Op.suspend, s => Slave.suspend s
  | Op.resume, s => Slave.resume s
  | Op.send cmd arr, s => Slave.send cmd arr s
  | Op.ref, s => Slave.ref s
  | Op.deref, s => Slave.deref s

/-- Run a sequence of calls, first to last. -/
def runOps (b : Build) (ops : List Op) (s : Slave) : Slave :=
  ops.foldl (fun acc op => op.run b acc) s

/-- Number of `slaveDied` emissions recorded in a trace. -/
def slaveDiedCount (tr : List Event) : Nat :=
  tr.count Event.emitSlaveDied

/-- The notification was emitted at most once, and if it was, the handle is dead. -/
def diedOnce (s : Slave) : Prop :=
  slaveDiedCount s.trace = 0 ∨ (slaveDiedCount s.trace = 1 ∧ s.dead = true)

/-- The call is `hold`. -/
def Op.isHold : Op → Bool
  | Op.hold _ => true
  | _ => false

/-- The events `deref()` adds after `Event.deref` when the count it leaves is
`c`: those of `aboutToDelete()` and `delete this` when `c` is zero, none
otherwise. -/
def teardownEvents (c : Int) : List Event :=
  if c = 0 then [Event.connectionDisconnect, Event.disconnectAll, Event.deleteThis] else []

/-! ## Reference counting -/

/-- A call of the reference-counting interface. -/
inductive RefOp where
  | ref
  | deref
  deriving DecidableEq, Repr

/-- Run one reference-counting call on the handle. -/
def RefOp.run : RefOp → Slave → Slave
  | RefOp.ref, s => Slave.ref s
  | RefOp.deref, s => Slave.deref s

/-- Run the calls on the handle one after the other, stopping at the call
during which the handle is destroyed: the result is the position of that call
(counted from `i`), or `none` when the handle survives the whole sequence. -/
def teardownAt : List RefOp → Nat → Slave → Option Nat
  | [], _, _ => none
  | op :: ops, i, s =>
    let s1 := op.run s
    if s1.deleted then some i else teardownAt ops (i + 1) s1

/-- The net count after some calls: `start`, plus the number of `ref`, minus
the number of `deref` among them. -/
def netCount (start : Int) (ops : List RefOp) : Int :=
  start + (ops.count RefOp.ref : Int) - (ops.count RefOp.deref : Int)

/-- Call number `j` (from 0) is a `deref`, and after it the count started at
`start` is zero. -/
def dropsToZero (start : Int) (ops : List RefOp) (j : Nat) : Prop :=
  ops[j]? = some RefOp.deref ∧ netCount start (ops.take (j + 1)) = 0

/-- The first call number at which the count drops to zero. -/
def firstDrop (c : Int) (ops : List RefOp) (i : Nat) : Prop :=
  dropsToZero c ops i ∧ ∀ j, j < i → ¬ dropsToZero c ops j

/-! ## Launch strategy -/

/-- A probe made by `forkSlaves()` while the launch mode is undecided. -/
inductive Probe where
  /-- `qEnvironmentVariableIsSet("KDE_FORK_SLAVES")`. -/
  | envForkSlaves
  /-- `QDBusConnection::sessionBus().interface()`. -/
  | sessionBusInterface
  /-- `serviceUid(klauncher()->service())`. -/
  | launcherServiceUid
  deriving DecidableEq, Repr

/-- The `QDBusReply<int>` of `requestSlave`, with the `errorStr` it filled in. -/
inductive RequestReply where
  | invalid
  | valid (pid : Int) (errorStr : String)
  deriving DecidableEq, Repr

/-- The parts of a `QUrl` the launch code reads. -/
structure Url where
  /-- `url.toString()`. -/
  text : String
  /-- `url.host()`. -/
  host : String
  deriving DecidableEq, Repr

/-- Answers of the environment to the questions of `forkSlaves()`,
`createSlave`, `holdSlave` and `checkForHeldSlave`. -/
structure LaunchEnv where
  /-- Clock reading, in milliseconds. -/
  now : Nat
  /-- `qEnvironmentVariableIsSet("KDE_FORK_SLAVES")`. -/
  envForkSlaves : Bool
  /-- `QDBusConnection::sessionBus().interface()` is not null. -/
  sessionBusInterface : Bool
  /-- The reply to `serviceUid(klauncher()->service())`; `none` when not valid. -/
  launcherUid : Option Nat
  /-- `getuid()`. -/
  getuid : Nat
  /-- `slaveconnserver->address().toString()` of a fresh handle; empty when
  the address is empty. -/
  address : String
  /-- `KProtocolInfo::exec(protocol)`. -/
  exec : String → String
  /-- `QPluginLoader(name).fileName()`. -/
  pluginFileName : String → String
  /-- The `searchPaths` list, joined with a comma and a blank. -/
  searchPathsJoined : String
  /-- `QStandardPaths::findExecutable("kioslave5", searchPaths)`. -/
  findInSearchPaths : String
  /-- `QStandardPaths::findExecutable("kioslave5")`. -/
  findInPath : String
  /-- `QProcess::startDetached(program, args, QString(), &pid)`: the process
  id written to `pid`, or `none` when nothing was started and `pid` is left
  as it was. -/
  startDetached : String → List String → Option Int
  /-- `klauncher()->requestSlave(protocol, host, address, errorStr)`. -/
  requestSlave : String → String → String → RequestReply
  /-- `klauncher()->lastError().message()`. -/
  lastError : String
  /-- `klauncher()->requestHoldSlave(url, address)`; `none` when not valid. -/
  requestHoldSlave : String → String → Option Int
  /-- `klauncher()->checkForHeldSlave(url)`. -/
  checkForHeldSlave : String → Bool

/-- Initial value of the static `bForkSlaves`. -/
def bForkSlavesInit (b : Build) : Int :=
  if b.KIO_FORK_SLAVES then 1 else -1

/-- The outcome of one call of `forkSlaves()`. -/
structure ForkDecision where
  /-- The value returned. -/
  fork : Bool
  /-- The value of `bForkSlaves` after the call. -/
  bForkSlaves : Int
  /-- The probes made during the call, in order. -/
  probes : List Probe
  deriving DecidableEq, Repr

/-- `static bool forkSlaves()`, called with `bForkSlaves` holding `memo`. -/
def forkSlaves (b : Build) (env : LaunchEnv) (memo : Int) : ForkDecision :=
  if memo = -1 then
    let fork := env.envForkSlaves
    let probes := [Probe.envForkSlaves]
    let step1 : Bool × List Probe :=
      if b.KIO_ANDROID_STUB then (fork, probes)
      else
        let r : Bool × List Probe :=
          if !fork then (!env.sessionBusInterface, probes ++ [Probe.sessionBusInterface])
          else (fork, probes)
        if b.Q_OS_UNIX then
          if !r.1 then
            let reply := env.launcherUid
            match reply with
            | none => (true, r.2 ++ [Probe.launcherServiceUid])
            | some uid =>
              if env.getuid ≠ uid then (true, r.2 ++ [Probe.launcherServiceUid])
              else (r.1, r.2 ++ [Probe.launcherServiceUid])
          else r
        else r
    let memo1 : Int := if step1.1 then 1 else 0
    { fork := decide (memo1 = 1), bForkSlaves := memo1, probes := step1.2 }
  else
    { fork := decide (memo = 1), bForkSlaves := memo, probes := [] }

/-- What `createSlave` hands back: nothing, the special `DataProtocol` worker,
or a `Slave`. -/
inductive Handle where
  | dataProtocol
  | slave (s : Slave)
  deriving DecidableEq, Repr

/-- Everything a call of `createSlave` or `holdSlave` leaves behind. -/
structure Created where
  /-- The pointer returned; `none` is `nullptr`. -/
  result : Option Handle
  /-- The value assigned to the `error` out-parameter, if any. -/
  error : Option Int
  /-- The value assigned to the `error_text` out-parameter, if any. -/
  error_text : Option String
  /-- The handle destroyed by `delete slave` before returning, if any. -/
  deletedSlave : Option Slave
  /-- The program and argument list passed to `QProcess::startDetached`, if
  it was called. -/
  spawned : Option (String × List String)
  /-- The protocol, host and address passed to the launcher, if it was asked. -/
  launcherRequest : Option (String × String × String)
  /-- The outcome of the `forkSlaves()` call, if it was made. -/
  decision : Option ForkDecision
  deriving DecidableEq, Repr

/-- The failing exits of `createSlave`: `error_text` and `error` are set, the
handle is deleted, `nullptr` is returned. -/
def createFailed (b : Build) (text : String) (slave : Slave) (d : Option ForkDecision)
    (req : Option (String × String × String)) : Created :=
  { result := none
    error := some b.ERR_CANNOT_CREATE_SLAVE
    error_text := some text
    deletedSlave := some (Slave.destroy slave)
    spawned := none
    launcherRequest := req
    decision := d }

/-- `Slave::createSlave(protocol, url, error, error_text)`, called with
`bForkSlaves` holding `memo`. -/
def createSlave (b : Build) (env : LaunchEnv) (memo : Int) (protocol : String) (url : Url) :
    Created :=
  if protocol = "data" then
    { result := some Handle.dataProtocol, error := none, error_text := none,
      deletedSlave := none, spawned := none, launcherRequest := none, decision := none }
  else
    let slave := Slave.new protocol env.now (env.address ≠ "")
    let slaveAddress := env.address
    if slaveAddress = "" then
      createFailed b
        ("Can not create socket for launching io-slave for protocol '" ++ protocol ++ "'.")
        slave none none
    else
      let d := forkSlaves b env memo
      if d.fork then
        let _name := env.exec protocol
        if _name = "" then
          createFailed b ("Unknown protocol '" ++ protocol ++ "'.") slave (some d) none
        else
          let lib_path := env.pluginFileName _name
          if lib_path = "" then
            createFailed b ("Can not find io-slave for protocol '" ++ protocol ++ "'.")
              slave (some d) none
          else
            let args : List String := [lib_path, protocol, "", slaveAddress]
            let found := env.findInSearchPaths
            let kioslaveExecutable := if found = "" then env.findInPath else found
            if kioslaveExecutable = "" then
              createFailed b
                ("Can not find 'kioslave5' executable at '" ++ env.searchPathsJoined ++ "'")
                slave (some d) none
            else
              let pid : Int := (env.startDetached kioslaveExecutable args).getD 0
              let slave := Slave.setPID pid slave
              { result := some (Handle.slave slave), error := none, error_text := none,
                deletedSlave := none, spawned := some (kioslaveExecutable, args),
                launcherRequest := none, decision := some d }
      else if b.KIO_ANDROID_STUB then
        let slave := Slave.singleShot env.now (1000 * s_slaveConnectionTimeoutMin) slave
        { result := some (Handle.slave slave), error := none, error_text := none,
          deletedSlave := none, spawned := none, launcherRequest := none, decision := some d }
      else
        let req := (protocol, url.host, slaveAddress)
        match env.requestSlave protocol url.host slaveAddress with
        | RequestReply.invalid =>
          createFailed b ("Cannot talk to klauncher: " ++ env.lastError) slave (some d) (some req)
        | RequestReply.valid pid errorStr =>
          if pid = 0 then
            createFailed b ("klauncher said: " ++ errorStr) slave (some d) (some req)
          else
            let slave := Slave.setPID pid slave
            let slave := Slave.singleShot env.now (1000 * s_slaveConnectionTimeoutMin) slave
            { result := some (Handle.slave slave), error := none, error_text := none,
              deletedSlave := none, spawned := none, launcherRequest := some req,
              decision := some d }

/-! ## Timer delivery -/

/-- The event loop delivers the oldest pending one-shot timer of the handle at
clock reading `now`: possible only when that timer is due, and then
`Slave::timeout()` runs.  `none` when no timer is pending or the oldest is not
yet due. -/
def fireTimer (b : Build) (now : Nat) (isProcessAlive : Int → Bool) (s : Slave) :
    Option Slave :=
  match s.timers with
  | [] => none
  | due :: rest =>
    if due ≤ now then some (Slave.timeout b now isProcessAlive { s with timers := rest })
    else none

/-- Liveness supervision over a run of the event loop: at each of the given
clock readings, in order, the oldest pending timer is delivered if it is due. -/
def supervise (b : Build) (isProcessAlive : Int → Bool) : List Nat → Slave → Slave
  | [], s => s
  | now :: ticks, s =>
    match fireTimer b now isProcessAlive s with
    | some s1 => supervise b isProcessAlive ticks s1
    | none => supervise b isProcessAlive ticks s

/-- A release build for Unix, used where a concrete build is needed; the
numbers given to the command and error constants only keep them apart. -/
def exampleBuild : Build :=
  { NDEBUG := true, KIO_ANDROID_STUB := false, KIO_FORK_SLAVES := false, Q_OS_UNIX := true,
    CMD_SLAVE_HOLD := 1, CMD_HOST := 2, CMD_CONFIG := 3,
    ERR_SLAVE_DIED := 4, ERR_CANNOT_CREATE_SLAVE := 5 }

/-! ## Privilege delegation (`file_unix.cpp`) -/

/-- `EACCES` of `errno.h`. -/
def EACCES : Int := 13

/-- `EPERM` of `errno.h`. -/
def EPERM : Int := 1

/-- Modelled from the spec: the enumeration `ActionType` is declared in
`file.h`, which is not among the sources.  The action kinds are change-mode,
change-owner, delete, remove-directory, make-directory, open, open-directory,
rename, create-symlink and change-timestamps, under the names the switch of
`actionDetails` gives them. -/
inductive ActionType where
  | CHMOD | CHOWN | DEL | MKDIR | OPEN | OPENDIR | RENAME | RMDIR | SYMLINK | UTIME
  deriving DecidableEq, Repr

/-- The values a `QVariant` of an argument list holds. -/
inductive QVariant where
  | str (s : String)
  | int (n : Int)
  | invalid
  deriving DecidableEq, Repr

/-- `QVariant::toString()`. -/
def QVariant.toString : QVariant → String
  | QVariant.str s => s
  | QVariant.int n => ToString.toString n
  | QVariant.invalid => ""

/-- `QVariant::toInt()`. -/
def QVariant.toInt : QVariant → Int
  | QVariant.str s => s.toInt?.getD 0
  | QVariant.int n => n
  | QVariant.invalid => 0

/-- `KIO::PrivilegeOperationStatus`. -/
inductive PrivilegeOperationStatus where
  | OperationAllowed
  | OperationCanceled
  | OperationNotAllowed
  deriving DecidableEq, Repr

/-- Modelled from the spec: the class `PrivilegeOperationReturnValue` is
declared in `file.h`, which is not among the sources.  A privileged operation
request produces a tri-state result: success, failure (with an error code), or
user-canceled. -/
inductive PrivilegeOperationReturnValue where
  | success
  | failure (error : Int)
  | canceled
  deriving DecidableEq, Repr

/-- `PrivilegeOperationReturnValue::wasCanceled()`. -/
def PrivilegeOperationReturnValue.wasCanceled : PrivilegeOperationReturnValue → Bool
  | PrivilegeOperationReturnValue.canceled => true
  | _ => false

/-- Error codes of `KIO::Error` (`global.h`) used by the privilege delegation. -/
structure ErrorCodes where
  ERR_USER_CANCELED : Int
  ERR_PRIVILEGE_NOT_REQUIRED : Int
  ERR_ACCESS_DENIED : Int
  deriving DecidableEq, Repr

/-- What `execWithElevatedPrivilege` does to the outside, in source order. -/
inductive FileEvent where
  /-- `requestPrivilegeOperation(details)`. -/
  | requestPrivilegeOperation (details : String)
  /-- `QFileInfo(path).ownerId()` compared with `getuid()`. -/
  | ownerId (path : String)
  /-- `error(code, text)`. -/
  | error (code : Int) (text : String)
  /-- `execAction.execute()` with the serialised action and arguments, and
  `reply->exec()`. -/
  | helperExecute (action : ActionType) (args : List QVariant)
  /-- `addTemporaryAuthorization(actionId)`. -/
  | addTemporaryAuthorization (actionId : String)
  deriving DecidableEq, Repr

/-- The event is a confirmation request. -/
def FileEvent.isPrompt : FileEvent → Bool
  | FileEvent.requestPrivilegeOperation _ => true
  | _ => false

/-- The event is an ownership check. -/
def FileEvent.isOwnerCheck : FileEvent → Bool
  | FileEvent.ownerId _ => true
  | _ => false

/-- Answers of the environment to the questions of the privilege delegation. -/
structure FileEnv where
  /-- `metaData(key)`. -/
  metaData : String → String
  /-- The answer to `requestPrivilegeOperation(details)`. -/
  requestPrivilegeOperation : String → PrivilegeOperationStatus
  /-- `QFileInfo(path).ownerId()`. -/
  ownerId : String → Int
  /-- `getuid()`. -/
  getuid : Int
  /-- `QUrl::fromLocalFile(path).adjusted(QUrl::RemoveFilename).toLocalFile()`. -/
  parentPath : String → String
  /-- `QUrl(text).toLocalFile()`. -/
  urlToLocalFile : String → String
  /-- Whether `reply->exec()` of the helper action succeeds. -/
  helperExec : ActionType → List QVariant → Bool

/-- `static QString actionDetails(actionType, args)`, untranslated. -/
def actionDetails (actionType : ActionType) (args : List QVariant) : String :=
  let arg (i : Nat) : QVariant := args.getD i QVariant.invalid
  let ad : String × String :=
    match actionType with
    | ActionType.CHMOD =>
      ("Change File Permissions", "New Permissions: " ++ ToString.toString (arg 1).toInt)
    | ActionType.CHOWN =>
      ("Change File Owner",
        "New Owner: UID=" ++ ToString.toString (arg 1).toInt ++ ", GID="
          ++ ToString.toString (arg 2).toInt)
    | ActionType.DEL => ("Remove File", "")
    | ActionType.RMDIR => ("Remove Directory", "")
    | ActionType.MKDIR =>
      ("Create Directory", "Directory Permissions: " ++ ToString.toString (arg 1).toInt)
    | ActionType.OPEN => ("Open File", "")
    | ActionType.OPENDIR => ("Open Directory", "")
    | ActionType.RENAME => ("Rename", "New Filename: " ++ (arg 1).toString)
    | ActionType.SYMLINK => ("Create Symlink", "Target: " ++ (arg 1).toString)
    | ActionType.UTIME => ("Change Timestamp", "")
  "Action: " ++ (ad.1 ++ ("\nSource: " ++ ((arg 0).toString ++ ("\n" ++ ad.2))))

/-- The value and the effects of a call. -/
structure PrivResult where
  value : PrivilegeOperationReturnValue
  trace : List FileEvent
  deriving DecidableEq, Repr

/-- `FileProtocol::privilegeOperationUnitTestMode()`: the value, and the
confirmation request it makes when the `UnitTesting` metadata is `true`. -/
def privilegeOperationUnitTestMode (env : FileEnv) : Bool × List FileEvent :=
  if env.metaData "UnitTesting" = "true" then
    (decide (env.requestPrivilegeOperation "Test Call"
        = PrivilegeOperationStatus.OperationAllowed),
     [FileEvent.requestPrivilegeOperation "Test Call"])
  else
    (false, [])

/-- The local `targetPath` of `execWithElevatedPrivilege`: the first argument
itself for `CHOWN`, `CHMOD` and `UTIME`, its containing directory otherwise. -/
def targetPath (env : FileEnv) (action : ActionType) (args : List QVariant) : String :=
  let target := (args.headD QVariant.invalid).toString
  let useParent :=
    action ≠ ActionType.CHOWN ∧ action ≠ ActionType.CHMOD ∧ action ≠ ActionType.UTIME
  if useParent then env.parentPath target else target

/-- The local `dest` of `execWithElevatedPrivilege` (read for `RENAME`). -/
def renameDest (env : FileEnv) (args : List QVariant) : String :=
  env.urlToLocalFile (args.getD 1 QVariant.invalid).toString

/-- The final value of the local `userIsOwner` of `execWithElevatedPrivilege`. -/
def userIsOwner (env : FileEnv) (action : ActionType) (args : List QVariant) : Bool :=
  let own := decide (env.ownerId (targetPath env action args) = env.getuid)
  if action = ActionType.RENAME then
    own && decide (env.ownerId (renameDest env args) = env.getuid)
  else
    own

/-- The ownership checks made while `userIsOwner` is computed, in order. -/
def ownerChecks (env : FileEnv) (action : ActionType) (args : List QVariant) :
    List FileEvent :=
  let own := decide (env.ownerId (targetPath env action args) = env.getuid)
  if action = ActionType.RENAME ∧ own = true then
    [FileEvent.ownerId (targetPath env action args), FileEvent.ownerId (renameDest env args)]
  else
    [FileEvent.ownerId (targetPath env action args)]

/-- The statements of `execWithElevatedPrivilege` that follow the block
`if (true) { return failure(errcode); }`; `tr` is what was done before. -/
def execWithElevatedPrivilegeRest (k : ErrorCodes) (env : FileEnv) (action : ActionType)
    (args : List QVariant) (errcode : Int) (tr : List FileEvent) : PrivResult :=
  if ¬ (errcode = EACCES ∨ errcode = EPERM) then
    { value := PrivilegeOperationReturnValue.failure errcode, trace := tr }
  else
    let operationDetails := actionDetails action args
    let opStatus := env.requestPrivilegeOperation operationDetails
    let tr := tr ++ [FileEvent.requestPrivilegeOperation operationDetails]
    if opStatus ≠ PrivilegeOperationStatus.OperationAllowed then
      if opStatus = PrivilegeOperationStatus.OperationCanceled then
        { value := PrivilegeOperationReturnValue.canceled,
          trace := tr ++ [FileEvent.error k.ERR_USER_CANCELED ""] }
      else
        { value := PrivilegeOperationReturnValue.failure errcode, trace := tr }
    else
      let tr := tr ++ ownerChecks env action args
      if userIsOwner env action args then
        { value := PrivilegeOperationReturnValue.canceled,
          trace := tr ++ [FileEvent.error k.ERR_PRIVILEGE_NOT_REQUIRED
                            (targetPath env action args)] }
      else
        let tr := tr ++ [FileEvent.helperExecute action args]
        if env.helperExec action args then
          { value := PrivilegeOperationReturnValue.success,
            trace := tr ++ [FileEvent.addTemporaryAuthorization "org.kde.kio.file.exec"] }
        else
          { value := PrivilegeOperationReturnValue.failure k.ERR_ACCESS_DENIED, trace := tr }

/-- `FileProtocol::execWithElevatedPrivilege(action, args, errcode)`. -/
def execWithElevatedPrivilege (k : ErrorCodes) (env : FileEnv) (action : ActionType)
    (args : List QVariant) (errcode : Int) : PrivResult :=
  let t := privilegeOperationUnitTestMode env
  if t.1 then
    { value := PrivilegeOperationReturnValue.success, trace := t.2 }
  else if true then
    -- temporarily disable privilege execution
    { value := PrivilegeOperationReturnValue.failure errcode, trace := t.2 }
  else
    execWithElevatedPrivilegeRest k env action args errcode t.2

/-- Scan of a trace from its start: `true` when an ownership check is met
before any confirmation request, `false` when a confirmation request comes
first or the trace holds no ownership check. -/
def ownerCheckFirst : List FileEvent → Bool
  | [] => false
  | e :: es =>
    if e.isOwnerCheck then true
    else if e.isPrompt then false
    else ownerCheckFirst es

/-- Sample error codes, used where concrete ones are needed; the numbers only
keep the codes apart. -/
def exampleCodes : ErrorCodes :=
  { ERR_USER_CANCELED := 1001, ERR_PRIVILEGE_NOT_REQUIRED := 1002, ERR_ACCESS_DENIED := 1003 }

/-- A worker outside unit-test mode whose user, uid 1000, owns every path and
whose confirmation requests would be allowed. -/
def ownerEnv : FileEnv :=
  { metaData := fun _ => ""
    requestPrivilegeOperation := fun _ => PrivilegeOperationStatus.OperationAllowed
    ownerId := fun _ => 1000
    getuid := 1000
    parentPath := fun p => p
    urlToLocalFile := fun p => p
    helperExec := fun _ _ => true }

/-- The same worker in unit-test mode. -/
def unitTestEnv : FileEnv :=
  { ownerEnv with metaData := fun key => if key = "UnitTesting" then "true" else "" }

/-! ## File operations that delegate (`file_unix.cpp`) -/

/-- `EXDEV` of `errno.h`. -/
def EXDEV : Int := 18

/-- `EROFS` of `errno.h`. -/
def EROFS : Int := 30

/-- `EISDIR` of `errno.h`. -/
def EISDIR : Int := 21

/-- `ENOSPC` of `errno.h`. -/
def ENOSPC : Int := 28

/-- `ECANCELED` of `errno.h`. -/
def ECANCELED : Int := 125

/-- `O_RDONLY` of `fcntl.h`. -/
def O_RDONLY : Nat := 0

/-- `O_WRONLY` of `fcntl.h`. -/
def O_WRONLY : Nat := 1

/-- `O_RDWR` of `fcntl.h`. -/
def O_RDWR : Nat := 2

/-- `O_CREAT` of `fcntl.h`. -/
def O_CREAT : Nat := 64

/-- `O_TRUNC` of `fcntl.h`. -/
def O_TRUNC : Nat := 512

/-- `O_APPEND` of `fcntl.h`. -/
def O_APPEND : Nat := 1024

/-- `QIODevice::ReadOnly`. -/
def QIODevice.ReadOnly : Nat := 1

/-- `QIODevice::WriteOnly`. -/
def QIODevice.WriteOnly : Nat := 2

/-- `QIODevice::ReadWrite`. -/
def QIODevice.ReadWrite : Nat := 3

/-- `QIODevice::Append`. -/
def QIODevice.Append : Nat := 4

/-- `QIODevice::Truncate`. -/
def QIODevice.Truncate : Nat := 8

/-- Modelled from the spec: the error code a `PrivilegeOperationReturnValue`
(`file.h`, not among the sources) carries, read by `err == code` and by
`switch (err)`: none (0) for success, the given code for a failure; a canceled
result reads as `ECANCELED`. -/
def PrivilegeOperationReturnValue.code : PrivilegeOperationReturnValue → Int
  | PrivilegeOperationReturnValue.success => 0
  | PrivilegeOperationReturnValue.failure e => e
  | PrivilegeOperationReturnValue.canceled => ECANCELED

/-- Modelled from the spec: the test of `if (auto err = ...)`: the result
carries an error code, that is, it is not success (a failure carrying the code
0 carries none). -/
def PrivilegeOperationReturnValue.isError (r : PrivilegeOperationReturnValue) : Bool :=
  decide (r.code ≠ 0)

/-- Error codes of `KIO::Error` (`global.h`) used by the file operations. -/
structure FileErrorCodes extends ErrorCodes where
  ERR_DOES_NOT_EXIST : Int
  ERR_IDENTICAL_FILES : Int
  ERR_DIR_ALREADY_EXIST : Int
  ERR_FILE_ALREADY_EXIST : Int
  ERR_WRITE_ACCESS_DENIED : Int
  ERR_UNSUPPORTED_ACTION : Int
  ERR_CANNOT_DELETE : Int
  ERR_CANNOT_RENAME : Int
  ERR_IS_DIRECTORY : Int
  ERR_CANNOT_RMDIR : Int
  ERR_SLAVE_DEFINED : Int
  ERR_DISK_FULL : Int
  ERR_CANNOT_CHOWN : Int
  deriving DecidableEq, Repr

/-- What a file operation does to the outside, in source order. -/
inductive OpEvent where
  /-- `finished()`. -/
  | finished
  /-- `error(code, text)` called by the operation itself. -/
  | error (code : Int) (text : String)
  /-- The call `execWithElevatedPrivilege(action, args, errcode)`. -/
  | elevate (action : ActionType) (args : List QVariant) (errcode : Int)
  /-- Something `execWithElevatedPrivilege` did during that call. -/
  | delegated (e : FileEvent)
  /-- `FdReceiver fdRecv(path)`: the descriptor receiver was set up on the
  socket path. -/
  | fdReceiver (path : String)
  /-- `f.open(fd, openMode, QFileDevice::AutoCloseHandle)`. -/
  | fileOpen (fd : Int) (openMode : Nat)
  /-- `deleteRecursive(path)`. -/
  | deleteRecursive (path : String)
  deriving DecidableEq, Repr

/-- The event is a terminal signal of the operation: `finished()`, or
`error(...)` called by the operation or by `execWithElevatedPrivilege`. -/
def OpEvent.isTerminal : OpEvent → Bool
  | OpEvent.finished => true
  | OpEvent.error _ _ => true
  | OpEvent.delegated (FileEvent.error _ _) => true
  | _ => false

/-- Number of terminal signals in a trace. -/
def terminalSignals (tr : List OpEvent) : Nat :=
  tr.countP OpEvent.isTerminal

/-- The event is `finished()`. -/
def OpEvent.isFinished : OpEvent → Bool
  | OpEvent.finished => true
  | _ => false

/-- A stand-in for `execWithElevatedPrivilege` as its callers see it. -/
abbrev Elevation := ActionType → List QVariant → Int → PrivResult

/-- The call `execWithElevatedPrivilege(action, args, errcode)` made by an
operation: the value returned, and the events of the call. -/
def callElevation (elevation : Elevation) (action : ActionType) (args : List QVariant)
    (errcode : Int) : PrivilegeOperationReturnValue × List OpEvent :=
  let r := elevation action args errcode
  (r.value, OpEvent.elevate action args errcode :: r.trace.map OpEvent.delegated)

/-- What `rename` reads from `buff_dest` when the destination exists. -/
structure DestStat where
  /-- `same_inode(buff_dest, buff_src)`. -/
  sameInode : Bool
  /-- `(buff_dest.st_mode & QT_STAT_MASK) == QT_STAT_DIR`. -/
  isDir : Bool
  deriving DecidableEq, Repr

/-- Results of the system calls of `rename`. -/
structure RenameSys where
  /-- `errno` when `QT_LSTAT` of the source returns -1. -/
  lstatSrc : Option Int
  /-- The destination as `QT_LSTAT` found it; `none` when it returned -1. -/
  lstatDest : Option DestStat
  /-- `errno` when `::rename` fails. -/
  rename : Option Int
  deriving DecidableEq, Repr

/-- Results of the system calls of `del`. -/
structure DelSys where
  /-- `errno` when `unlink` returns -1. -/
  unlink : Option Int
  /-- `deleteRecursive(path)` (`file.cpp`, not among the sources): its value
  and the signals it emitted. -/
  deleteRecursive : Bool × List OpEvent
  /-- `errno` when `QT_RMDIR` returns -1. -/
  rmdir : Option Int
  deriving DecidableEq, Repr

/-- Results of the library and system calls of `chown`. -/
structure ChownSys where
  /-- `pw_uid` of `getpwnam(owner)`; `none` when it returned null. -/
  getpwnam : Option Int
  /-- `gr_gid` of `getgrnam(group)`; `none` when it returned null. -/
  getgrnam : Option Int
  /-- `errno` when `::chown` returns -1. -/
  chown : Option Int
  deriving DecidableEq, Repr

/-- What `tryOpen` learns from its descriptor receiver and its file. -/
structure OpenSys where
  /-- `socketPath()`: the freshly generated socket path. -/
  sockPath : String
  /-- `fdRecv.isListening()`. -/
  listening : Bool
  /-- `fdRecv.fileDescriptor()` after the delegated call. -/
  fileDescriptor : Int
  /-- `f.open(fd, openMode, QFileDevice::AutoCloseHandle)`. -/
  fileOpen : Int → Nat → Bool

namespace FileProtocol

/-- The local `openMode` of `tryOpen`, computed from the `open` flags. -/
def openMode (flags : Nat) : Nat :=
  let m : Nat := 0
  let m := if flags &&& O_RDONLY ≠ 0 then m ||| QIODevice.ReadOnly else m
  let m := if flags &&& O_WRONLY ≠ 0 ∨ flags &&& O_CREAT ≠ 0 then m ||| QIODevice.WriteOnly else m
  let m := if flags &&& O_RDWR ≠ 0 then m ||| QIODevice.ReadWrite else m
  let m := if flags &&& O_TRUNC ≠ 0 then m ||| QIODevice.Truncate else m
  if flags &&& O_APPEND ≠ 0 then m ||| QIODevice.Append else m

/-- `FileProtocol::tryOpen(f, path, flags, mode, errcode)`, with the call of
`execWithElevatedPrivilege` going to `elevation`. -/
def tryOpenWith (elevation : Elevation) (sys : OpenSys) (path : String) (flags : Nat)
    (mode : Int) (errcode : Int) : PrivilegeOperationReturnValue × List OpEvent :=
  let sockPath := sys.sockPath
  let tr := [OpEvent.fdReceiver sockPath]
  if !sys.listening then
    (PrivilegeOperationReturnValue.failure errcode, tr)
  else
    let openMode := openMode flags
    let r := callElevation elevation ActionType.OPEN
      [QVariant.str path, QVariant.int flags, QVariant.int mode, QVariant.str sockPath] errcode
    let tr := tr ++ r.2
    if r.1.isError then
      (r.1, tr)
    else
      let fd := sys.fileDescriptor
      if fd < 3 then
        (PrivilegeOperationReturnValue.failure errcode, tr)
      else if !sys.fileOpen fd openMode then
        (PrivilegeOperationReturnValue.failure errcode, tr ++ [OpEvent.fileOpen fd openMode])
      else
        (PrivilegeOperationReturnValue.success, tr ++ [OpEvent.fileOpen fd openMode])

/-- `FileProtocol::tryOpen(f, path, flags, mode, errcode)`. -/
def tryOpen (k : ErrorCodes) (env : FileEnv) (sys : OpenSys) (path : String) (flags : Nat)
    (mode : Int) (errcode : Int) : PrivilegeOperationReturnValue × List OpEvent :=
  tryOpenWith (execWithElevatedPrivilege k env) sys path flags mode errcode

/-- The statements of `rename` from `::rename(...)` on, reached when the
checks of source and destination have passed. -/
def renameCall (k : FileErrorCodes) (elevation : Elevation) (sys : RenameSys)
    (src dest : String) : List OpEvent :=
  match sys.rename with
  | some errno =>
    let r := callElevation elevation ActionType.RENAME [QVariant.str src, QVariant.str dest] errno
    if r.1.isError then
      if !r.1.wasCanceled then
        if r.1.code = EACCES ∨ r.1.code = EPERM then
          r.2 ++ [OpEvent.error k.ERR_WRITE_ACCESS_DENIED dest]
        else if r.1.code = EXDEV then
          r.2 ++ [OpEvent.error k.ERR_UNSUPPORTED_ACTION "rename"]
        else if r.1.code = EROFS then
          r.2 ++ [OpEvent.error k.ERR_CANNOT_DELETE src]
        else
          r.2 ++ [OpEvent.error k.ERR_CANNOT_RENAME src]
      else
        r.2
    else
      r.2 ++ [OpEvent.finished]
  | none => [OpEvent.finished]

/-- `FileProtocol::rename(srcUrl, destUrl, flags)`, with the call of
`execWithElevatedPrivilege` going to `elevation`; `overwrite` is
`flags & KIO::Overwrite`. -/
def renameWith (k : FileErrorCodes) (elevation : Elevation) (sys : RenameSys)
    (src dest : String) (overwrite : Bool) : List OpEvent :=
  match sys.lstatSrc with
  | some errno =>
    if errno = EACCES then [OpEvent.error k.ERR_ACCESS_DENIED src]
    else [OpEvent.error k.ERR_DOES_NOT_EXIST src]
  | none =>
    match sys.lstatDest with
    | some buff_dest =>
      if buff_dest.sameInode then [OpEvent.error k.ERR_IDENTICAL_FILES dest]
      else if buff_dest.isDir then [OpEvent.error k.ERR_DIR_ALREADY_EXIST dest]
      else if !overwrite then [OpEvent.error k.ERR_FILE_ALREADY_EXIST dest]
      else renameCall k elevation sys src dest
    | none => renameCall k elevation sys src dest

/-- `FileProtocol::rename(srcUrl, destUrl, flags)`. -/
def rename (k : FileErrorCodes) (env : FileEnv) (sys : RenameSys) (src dest : String)
    (overwrite : Bool) : List OpEvent :=
  renameWith k (execWithElevatedPrivilege k.toErrorCodes env) sys src dest overwrite

/-- `FileProtocol::del(url, isfile)`, with the call of
`execWithElevatedPrivilege` going to `elevation`; `recurse` is
`metaData("recurse") == "true"`. -/
def delWith (k : FileErrorCodes) (elevation : Elevation) (sys : DelSys) (recurse : Bool)
    (path : String) (isfile : Bool) : List OpEvent :=
  if isfile then
    match sys.unlink with
    | some errno =>
      let r := callElevation elevation ActionType.DEL [QVariant.str path] errno
      if r.1.isError then
        if !r.1.wasCanceled then
          if r.1.code = EACCES ∨ r.1.code = EPERM then
            r.2 ++ [OpEvent.error k.ERR_ACCESS_DENIED path]
          else if r.1.code = EISDIR then
            r.2 ++ [OpEvent.error k.ERR_IS_DIRECTORY path]
          else
            r.2 ++ [OpEvent.error k.ERR_CANNOT_DELETE path]
        else
          r.2
      else
        r.2 ++ [OpEvent.finished]
    | none => [OpEvent.finished]
  else
    let pre : List OpEvent :=
      if recurse then OpEvent.deleteRecursive path :: sys.deleteRecursive.2 else []
    if recurse ∧ sys.deleteRecursive.1 = false then
      pre
    else
      match sys.rmdir with
      | some errno =>
        let r := callElevation elevation ActionType.RMDIR [QVariant.str path] errno
        if r.1.isError then
          if !r.1.wasCanceled then
            if r.1.code = EACCES ∨ r.1.code = EPERM then
              pre ++ r.2 ++ [OpEvent.error k.ERR_ACCESS_DENIED path]
            else
              pre ++ r.2 ++ [OpEvent.error k.ERR_CANNOT_RMDIR path]
          else
            pre ++ r.2
        else
          pre ++ r.2 ++ [OpEvent.finished]
      | none => pre ++ [OpEvent.finished]

/-- `FileProtocol::del(url, isfile)`. -/
def del (k : FileErrorCodes) (env : FileEnv) (sys : DelSys) (path : String) (isfile : Bool) :
    List OpEvent :=
  delWith k (execWithElevatedPrivilege k.toErrorCodes env) sys
    (decide (env.metaData "recurse" = "true")) path isfile

/-- `FileProtocol::chown(url, owner, group)`, with the call of
`execWithElevatedPrivilege` going to `elevation`. -/
def chownWith (k : FileErrorCodes) (elevation : Elevation) (sys : ChownSys)
    (path owner group : String) : List OpEvent :=
  match sys.getpwnam with
  | none =>
    [OpEvent.error k.ERR_SLAVE_DEFINED ("Could not get user id for given user name " ++ owner)]
  | some uid =>
    match sys.getgrnam with
    | none =>
      [OpEvent.error k.ERR_SLAVE_DEFINED
        ("Could not get group id for given group name " ++ group)]
    | some gid =>
      match sys.chown with
      | some errno =>
        let r := callElevation elevation ActionType.CHOWN
          [QVariant.str path, QVariant.int uid, QVariant.int gid] errno
        if r.1.isError then
          if !r.1.wasCanceled then
            if r.1.code = EPERM ∨ r.1.code = EACCES then
              r.2 ++ [OpEvent.error k.ERR_ACCESS_DENIED path]
            else if r.1.code = ENOSPC then
              r.2 ++ [OpEvent.error k.ERR_DISK_FULL path]
            else
              r.2 ++ [OpEvent.error k.ERR_CANNOT_CHOWN path]
          else
            r.2
        else
          r.2
      | none => [OpEvent.finished]

/-- `FileProtocol::chown(url, owner, group)`. -/
def chown (k : FileErrorCodes) (env : FileEnv) (sys : ChownSys) (path owner group : String) :
    List OpEvent :=
  chownWith k (execWithElevatedPrivilege k.toErrorCodes env) sys path owner group

end FileProtocol

/-! ## Sample inputs -/

/-- A handle whose worker connected and which was then killed. -/
def killedHandle : Slave :=
  Slave.kill (Slave.accept (Slave.setPID 4242 (Slave.new "file" 0 true)))

/-- A handle created at clock reading 0 for a worker with process id 4242 that
has not connected. -/
def waitingHandle : Slave :=
  Slave.setPID 4242 (Slave.new "file" 0 true)

/-- A debug build for Unix (no `NDEBUG`). -/
def debugBuild : Build :=
  { exampleBuild with NDEBUG := false }

/-- An environment in which workers are spawned directly (`KDE_FORK_SLAVES` is
set), every lookup succeeds and the spawned process gets id 4242. -/
def forkEnv : LaunchEnv :=
  { now := 0
    envForkSlaves := true
    sessionBusInterface := true
    launcherUid := some 1000
    getuid := 1000
    address := "local:/run/user/1000/kio.socket"
    exec := fun _ => "kf5/kio/file"
    pluginFileName := fun _ => "/usr/lib/qt/plugins/kf5/kio/file.so"
    searchPathsJoined := "/usr/bin, /usr/libexec, /usr/libexec/kf5"
    findInSearchPaths := "/usr/libexec/kf5/kioslave5"
    findInPath := ""
    startDetached := fun _ _ => some 4242
    requestSlave := fun _ _ _ => RequestReply.valid 4243 ""
    lastError := ""
    requestHoldSlave := fun _ _ => none
    checkForHeldSlave := fun _ => false }

/-- The same environment when starting the process fails. -/
def failedSpawnEnv : LaunchEnv :=
  { forkEnv with startDetached := fun _ _ => none }

/-- The same environment when the session launcher is used (`KDE_FORK_SLAVES`
is not set, the bus is there and the launcher runs as the caller). -/
def launcherEnv : LaunchEnv :=
  { forkEnv with envForkSlaves := false }

/-- The handle as the session-launcher path of `createSlave` and `holdSlave`
leave it: constructed at clock reading `t0` with a listening transport,
`setPID(pid)` called, and the timer for `timeout()` armed at `t0`. -/
def armedHandle (protocol : String) (t0 : Nat) (pid : Int) : Slave :=
  Slave.singleShot t0 (1000 * s_slaveConnectionTimeoutMin)
    (Slave.setPID pid (Slave.new protocol t0 true))

/-- A release build with `KIO_ANDROID_STUB` defined: no launcher is asked. -/
def stubBuild : Build :=
  { exampleBuild with KIO_ANDROID_STUB := true }

/-- The URL of the sample calls. -/
def tmpUrl : Url :=
  { text := "file:///tmp", host := "" }

/-- Successive calls of `forkSlaves()` in one process, `bForkSlaves` holding
`memo` before the first: each call meets the environment of its moment, and
`bForkSlaves` is carried from call to call. -/
def forkSlavesCalls (b : Build) : List LaunchEnv → Int → List ForkDecision
  | [], _ => []
  | env :: envs, memo =>
    let d := forkSlaves b env memo
    d :: forkSlavesCalls b envs d.bForkSlaves

/-- Number of `error(...)` calls in what `execWithElevatedPrivilege` did. -/
def delegatedErrors (tr : List FileEvent) : Nat :=
  tr.countP (fun e => match e with
    | FileEvent.error _ _ => true
    | _ => false)

/-- Sample error codes for the file operations; the numbers only keep the
codes apart. -/
def exampleFileCodes : FileErrorCodes :=
  { toErrorCodes := exampleCodes
    ERR_DOES_NOT_EXIST := 1004, ERR_IDENTICAL_FILES := 1005, ERR_DIR_ALREADY_EXIST := 1006,
    ERR_FILE_ALREADY_EXIST := 1007, ERR_WRITE_ACCESS_DENIED := 1008,
    ERR_UNSUPPORTED_ACTION := 1009, ERR_CANNOT_DELETE := 1010, ERR_CANNOT_RENAME := 1011,
    ERR_IS_DIRECTORY := 1012, ERR_CANNOT_RMDIR := 1013, ERR_SLAVE_DEFINED := 1014,
    ERR_DISK_FULL := 1015, ERR_CANNOT_CHOWN := 1016 }

/-- A worker outside unit-test mode whose user owns nothing and whose
confirmation requests would all be answered with a cancellation. -/
def cancelEnv : FileEnv :=
  { metaData := fun _ => ""
    requestPrivilegeOperation := fun _ => PrivilegeOperationStatus.OperationCanceled
    ownerId := fun _ => 0
    getuid := 1000
    parentPath := fun p => p
    urlToLocalFile := fun p => p
    helperExec := fun _ _ => true }

/-- An environment in which `KDE_FORK_SLAVES` is not set and the session bus
has no interface. -/
def noBusEnv : LaunchEnv :=
  { forkEnv with envForkSlaves := false, sessionBusInterface := false }

/-- A build that is not for Unix (`Q_OS_UNIX` not defined). -/
def nonUnixBuild : Build :=
  { exampleBuild with Q_OS_UNIX := false }

/-- An environment in which `KDE_FORK_SLAVES` is not set, the bus is there
and the launcher runs as another user. -/
def foreignLauncherEnv : LaunchEnv :=
  { forkEnv with envForkSlaves := false, launcherUid := some 0 }

/-- What the callers of `execWithElevatedPrivilege` rely on: the call itself
reports an error exactly when it returns the canceled value, and then once. -/
def ReportsOnlyWhenCanceled (elevation : Elevation) : Prop :=
  ∀ action args errcode,
    delegatedErrors (elevation action args errcode).trace =
      if (elevation action args errcode).value = PrivilegeOperationReturnValue.canceled then 1
      else 0

/-- Results of the calls of `chown` when the names resolve to uid and gid 1000
and `::chown` fails with `EPERM`. -/
def deniedChown : ChownSys :=
  { getpwnam := some 1000, getgrnam := some 1000, chown := some EPERM }

/-- The events of a call of `execWithElevatedPrivilege` during which the
events `t` took place. -/
def delegatedCall (action : ActionType) (args : List QVariant) (errcode : Int)
    (t : List FileEvent) : List OpEvent :=
  OpEvent.elevate action args errcode :: t.map OpEvent.delegated

/-- A descriptor receiver that listens on its socket and received descriptor
7, which the file adopts. -/
def listeningReceiver : OpenSys :=
  { sockPath := "/run/user/1000/filehelperAbCdEf4242", listening := true, fileDescriptor := 7,
    fileOpen := fun _ _ => true }

/-! ## Accesses around the closing `deref()` -/

/-- `Slave::hold(url)` when the slot connected to `slaveDied` (it belongs to
the scheduler, outside the sources at hand) does `slot` to the handle: the
emission is a direct call, so the slot has run when `Q_EMIT` returns. -/
def Slave.holdNotifying (b : Build) (slot : Slave → Slave) (url : String) (s : Slave) : Slave :=
  let s := Slave.ref s
  let data : QByteArray := [StreamItem.url url]
  let s := Slave.log (Event.connectionSend b.CMD_SLAVE_HOLD data) s
  let s := Slave.connectionClose s
  let s := Slave.setDead s
  let s := slot (Slave.log Event.emitSlaveDied s)
  let s := Slave.deref s
  if b.KIO_ANDROID_STUB then s else Slave.log (Event.waitForSlave s.m_pid) s

/-- The event is one of those `deref()` itself adds when it destroys the
handle. -/
def Event.isTeardown : Event → Bool
  | Event.connectionDisconnect => true
  | Event.disconnectAll => true
  | Event.deleteThis => true
  | _ => false

/-- What a trace holds after its last `deref()`, the teardown made by that
`deref()` left out: what was done with the handle once the reference was
released.  Empty when the trace holds no `deref()`. -/
def afterRelease : List Event → List Event
  | [] => []
  | e :: es =>
    if e = Event.deref ∧ Event.deref ∉ es then es.filter (fun x => !x.isTeardown)
    else afterRelease es

/-- The events a call added to the trace of the handle. -/
def addedEvents (before after : Slave) : List Event :=
  after.trace.drop before.trace.length

/-- The event is part of what a worker death shows to the outside: the
transport is closed, the dead flag set, `error` emitted, `slaveDied` emitted. -/
def Event.isDeathSignal : Event → Bool
  | Event.connectionClose => true
  | Event.setDead => true
  | Event.emitError _ _ => true
  | Event.emitSlaveDied => true
  | _ => false

/-- The part of a trace a worker death shows to the outside. -/
def deathSignals (tr : List Event) : List Event :=
  tr.filter Event.isDeathSignal

/-- The shape of a worker death as the specification words it: transport
closed, dead flag set, then `error(ERR_SLAVE_DIED, arg)` followed by
`slaveDied(handle)`, where `arg` is the protocol name alone when the host is
empty and protocol, `://`, host otherwise. -/
def workerDeath_spec (b : Build) (protocol host : String) : List Event :=
  [Event.connectionClose, Event.setDead,
   Event.emitError b.ERR_SLAVE_DIED (if host = "" then protocol else protocol ++ "://" ++ host),
   Event.emitSlaveDied]

/-- The call is `setHost`. -/
def Op.isSetHost : Op → Bool
  | Op.setHost _ _ _ _ => true
  | _ => false

/-- The call is `accept`. -/
def Op.isAccept : Op → Bool
  | Op.accept => true
  | _ => false

/-- Number of peers attached to the connection of the handle
(`setNextPendingConnection` calls) recorded in a trace. -/
def acceptedPeers (tr : List Event) : Nat :=
  tr.count Event.setNextPendingConnection

/-! ## Parked workers (`holdSlave`, `checkForHeldSlave`) -/

/-- Everything a call of `holdSlave` leaves behind. -/
structure Held where
  /-- The pointer returned; `none` is `nullptr`. -/
  result : Option Slave
  /-- The handle destroyed by `delete slave` before returning, if any. -/
  deletedSlave : Option Slave
  /-- The url and address passed to `requestHoldSlave`, if the launcher was
  asked. -/
  holdRequest : Option (String × String)
  /-- The outcome of the `forkSlaves()` call, if it was made. -/
  decision : Option ForkDecision
  deriving DecidableEq, Repr

/-- `Slave::holdSlave(protocol, url)`, called with `bForkSlaves` holding
`memo`. -/
def holdSlave (b : Build) (env : LaunchEnv) (memo : Int) (protocol : String) (url : Url) : Held :=
  if protocol = "data" then
    { result := none, deletedSlave := none, holdRequest := none, decision := none }
  else
    let d := forkSlaves b env memo
    if d.fork then
      { result := none, deletedSlave := none, holdRequest := none, decision := some d }
    else
      let slave := Slave.new protocol env.now (env.address ≠ "")
      let slaveAddress := env.address
      if b.KIO_ANDROID_STUB then
        let slave := Slave.singleShot env.now (1000 * s_slaveConnectionTimeoutMin) slave
        { result := some slave, deletedSlave := none, holdRequest := none, decision := some d }
      else
        let req := (url.text, slaveAddress)
        match env.requestHoldSlave url.text slaveAddress with
        | none =>
          { result := none, deletedSlave := some (Slave.destroy slave), holdRequest := some req,
            decision := some d }
        | some pid =>
          if pid = 0 then
            { result := none, deletedSlave := some (Slave.destroy slave),
              holdRequest := some req, decision := some d }
          else
            let slave := Slave.setPID pid slave
            let slave := Slave.singleShot env.now (1000 * s_slaveConnectionTimeoutMin) slave
            { result := some slave, deletedSlave := none, holdRequest := some req,
              decision := some d }

/-- Everything a call of `checkForHeldSlave` leaves behind. -/
structure HeldCheck where
  /-- The value returned. -/
  value : Bool
  /-- The url passed to `klauncher()->checkForHeldSlave`, if the launcher was
  asked. -/
  asked : Option String
  /-- The outcome of the `forkSlaves()` call. -/
  decision : ForkDecision
  deriving DecidableEq, Repr

/-- `Slave::checkForHeldSlave(url)`, called with `bForkSlaves` holding `memo`. -/
def checkForHeldSlave (b : Build) (env : LaunchEnv) (memo : Int) (url : Url) : HeldCheck :=
  let d := forkSlaves b env memo
  if d.fork then
    { value := false, asked := none, decision := d }
  else if b.KIO_ANDROID_STUB then
    { value := false, asked := none, decision := d }
  else
    { value := env.checkForHeldSlave url.text, asked := some url.text, decision := d }

/-- A handle for protocol `ftp` whose host was set to `ftp.example.org`; no
process was launched and no worker connected. -/
def ftpWaiting : Slave :=
  Slave.setHost exampleBuild "ftp.example.org" 21 "alice" "secret" (Slave.new "ftp" 0 true)

/-- A handle for the same protocol and host whose worker, process 4242,
connected. -/
def ftpConnected : Slave :=
  Slave.accept (Slave.setPID 4242 ftpWaiting)

/-- An environment in which workers are spawned directly (`KDE_FORK_SLAVES` is
set) while the session launcher holds a parked worker for every url. -/
def parkedForkEnv : LaunchEnv :=
  { forkEnv with requestHoldSlave := fun _ _ => some 4244, checkForHeldSlave := fun _ => true }

/-- A worker whose `UnitTesting` metadata is `true` and whose confirmation
requests are all answered with a cancellation. -/
def refusedTestEnv : FileEnv :=
  { cancelEnv with metaData := fun key => if key = "UnitTesting" then "true" else "" }

/-! ## `symlink` and its retry (`file_unix.cpp`) -/

/-- `EEXIST` of `errno.h`. -/
def EEXIST : Int := 17

/-- Error codes of `KIO::Error` (`global.h`) used by `symlink`. -/
structure SymlinkErrorCodes extends FileErrorCodes where
  ERR_CANNOT_SYMLINK : Int
  deriving DecidableEq, Repr

/-- Results of the system calls made by one execution of the body of
`symlink`. -/
structure SymlinkAttempt where
  /-- `errno` when `::symlink` returns -1. -/
  symlink : Option Int
  /-- `errno` when `unlink` of the destination does not return 0. -/
  unlink : Option Int
  /-- `QT_LSTAT` of the destination returned 0 and found a directory. -/
  destIsDir : Bool
  deriving DecidableEq, Repr

namespace FileProtocol

/-- `FileProtocol::symlink(target, destUrl, flags)`, with the calls of
`execWithElevatedPrivilege` going to `elevation`; `overwrite` is
`flags & KIO::Overwrite`.  The function calls itself; `sys n` holds what the
system calls answer in the execution at depth `n` (0 for the outermost call),
and `fuel` bounds the depth: the result is `none` when the calls nested deeper
than `fuel` allows, and otherwise the events of the call. -/
def symlinkWith (k : SymlinkErrorCodes) (elevation : Elevation) (sys : Nat → SymlinkAttempt)
    (target dest : String) (overwrite : Bool) : Nat → Nat → Option (List OpEvent)
  | 0, _ => none
  | fuel + 1, n =>
    match (sys n).symlink with
    | some errno =>
      if errno = EEXIST then
        if overwrite then
          match (sys n).unlink with
          | some errno2 =>
            let r := callElevation elevation ActionType.DEL [QVariant.str dest] errno2
            if r.1.isError then
              if !r.1.wasCanceled then
                some (r.2 ++ [OpEvent.error k.ERR_CANNOT_DELETE dest])
              else
                some r.2
            else
              (symlinkWith k elevation sys target dest overwrite fuel (n + 1)).map
                (fun t => r.2 ++ t)
          | none => symlinkWith k elevation sys target dest overwrite fuel (n + 1)
        else if (sys n).destIsDir then
          some [OpEvent.error k.ERR_DIR_ALREADY_EXIST dest]
        else
          some [OpEvent.error k.ERR_FILE_ALREADY_EXIST dest]
      else
        let r := callElevation elevation ActionType.SYMLINK
          [QVariant.str dest, QVariant.str target] errno
        if r.1.isError then
          if !r.1.wasCanceled then
            some (r.2 ++ [OpEvent.error k.ERR_CANNOT_SYMLINK dest])
          else
            some r.2
        else
          some (r.2 ++ [OpEvent.finished])
    | none => some [OpEvent.finished]

/-- `FileProtocol::symlink(target, destUrl, flags)`, the outermost call. -/
def symlink (k : SymlinkErrorCodes) (env : FileEnv) (sys : Nat → SymlinkAttempt)
    (target dest : String) (overwrite : Bool) (fuel : Nat) : Option (List OpEvent) :=
  symlinkWith k (execWithElevatedPrivilege k.toErrorCodes env) sys target dest overwrite fuel 0

/-- The execution of the body of `symlink` at depth `n` ends in the call of
`symlink` itself: `::symlink` failed with `EEXIST`, `Overwrite` is set, and
either `unlink` succeeded or the delegated delete did not return an error. -/
def symlinkRetries (elevation : Elevation) (sys : Nat → SymlinkAttempt) (dest : String)
    (overwrite : Bool) (n : Nat) : Bool :=
  match (sys n).symlink with
  | some errno =>
    decide (errno = EEXIST) && overwrite &&
      (match (sys n).unlink with
       | some errno2 =>
         !(callElevation elevation ActionType.DEL [QVariant.str dest] errno2).1.isError
       | none => true)
  | none => false

end FileProtocol

/-- Sample error codes for `symlink`. -/
def exampleSymlinkCodes : SymlinkErrorCodes :=
  { toFileErrorCodes := exampleFileCodes, ERR_CANNOT_SYMLINK := 1017 }

/-- A destination that exists in a directory the user may not write: at every
depth `::symlink` fails with `EEXIST` and `unlink` with `EACCES`. -/
def protectedDest : Nat → SymlinkAttempt :=
  fun _ => { symlink := some EEXIST, unlink := some EACCES, destIsDir := false }

/-- A destination that exists and can be replaced: the first `::symlink` fails
with `EEXIST`, `unlink` succeeds, and the second `::symlink` succeeds. -/
def replaceableDest : Nat → SymlinkAttempt :=
  fun n =>
    if n = 0 then { symlink := some EEXIST, unlink := none, destIsDir := false }
    else { symlink := none, unlink := none, destIsDir := false }

/-- A descriptor receiver that listens and received descriptor 7, with a file
that adopts a descriptor only for a mode granting some access: `QFile::open`
refuses a mode that holds neither `ReadOnly` nor `WriteOnly`. -/
def accessCheckingReceiver : OpenSys :=
  { sockPath := "/run/user/1000/filehelperAbCdEf4242", listening := true, fileDescriptor := 7,
    fileOpen := fun _ m => decide (m &&& QIODevice.ReadWrite ≠ 0) }

/-! ## The hidden attribute of NTFS (`isNtfsHidden`, `file_unix.cpp`) -/

/-- Results of the two `getxattr` calls of `isNtfsHidden` for the attribute
`system.ntfs_attrib_be`. -/
structure XattrSys where
  /-- The value returned by the first call, made with a null buffer: the size
  of the attribute, or -1. -/
  probe : Int
  /-- The value returned by the second call, made with `strAttr` and
  `xattr_size` (1024): the number of bytes stored, or -1. -/
  length : Int
  /-- The bytes the second call stored in `strAttr`, as `uchar` values. -/
  strAttr : List Nat
  deriving DecidableEq, Repr

/-- `static constexpr auto digits = "0123456789abcdef"`, as character codes. -/
def isNtfsHidden.digits : List Nat :=
  [48, 49, 50, 51, 52, 53, 54, 55, 56, 57, 97, 98, 99, 100, 101, 102]

/-- The string `hexAttr` as the loop of `isNtfsHidden` leaves it, as character
codes and without the closing NUL: `0`, `x`, then two digits for each of the
first `length` bytes of `strAttr`. -/
def isNtfsHidden.hexAttr (strAttr : List Nat) (length : Nat) : List Nat :=
  48 :: 120 ::
    (strAttr.take length).flatMap (fun c =>
      [isNtfsHidden.digits.getD ((c % 256) >>> 4) 0,
       isNtfsHidden.digits.getD ((c % 256) &&& 0x0F) 0])

/-- `LONG_MAX` where `long` has `longBits` bits. -/
def LONG_MAX (longBits : Nat) : Nat := 2 ^ (longBits - 1) - 1

/-- `isspace` of the C locale. -/
def isspace (c : Nat) : Bool :=
  decide (c = 32 ∨ (9 ≤ c ∧ c ≤ 13))

/-- The value `strtol` gives a character as a digit: 0 to 9 for the decimal
digits, 10 to 35 for the letters of either case. -/
def strtol.digitValue (c : Nat) : Option Nat :=
  if 48 ≤ c ∧ c ≤ 57 then some (c - 48)
  else if 97 ≤ c ∧ c ≤ 122 then some (c - 87)
  else if 65 ≤ c ∧ c ≤ 90 then some (c - 55)
  else none

/-- The number spelled in `base` by the longest run of digits at the start of
the string, continued from `acc`. -/
def strtol.digitsValue (base : Nat) : List Nat → Nat → Nat
  | [], acc => acc
  | c :: cs, acc =>
    match strtol.digitValue c with
    | some d => if d < base then strtol.digitsValue base cs (acc * base + d) else acc
    | none => acc

/-- `strtol(s, nullptr, base)` of the C library for a base from 2 to 36, where
`long` has `longBits` bits: leading white space is skipped, a sign is taken,
for base 16 a prefix `0x` or `0X` in front of a hexadecimal digit is skipped,
and the longest run of digits is converted; a value outside the range of `long`
gives `LONG_MAX` or `LONG_MIN`. -/
def strtol (longBits : Nat) (s : List Nat) (base : Nat) : Int :=
  let s := s.dropWhile isspace
  let signed : Bool × List Nat :=
    match s with
    | 45 :: r => (true, r)
    | 43 :: r => (false, r)
    | _ => (false, s)
  let body : List Nat :=
    match signed.2 with
    | 48 :: x :: d :: r =>
      if base = 16 ∧ (x = 120 ∨ x = 88) ∧ (strtol.digitValue d).any (fun v => decide (v < 16)) then
        d :: r
      else signed.2
    | _ => signed.2
  let v := strtol.digitsValue base body 0
  if signed.1 then
    if v > LONG_MAX longBits + 1 then -((LONG_MAX longBits + 1 : Nat) : Int) else -(v : Int)
  else
    if v > LONG_MAX longBits then (LONG_MAX longBits : Int) else (v : Int)

/-- `static_cast<uint>(n)` for a `long`: the value modulo 2^32. -/
def toUInt (n : Int) : Nat :=
  (n % 4294967296).toNat

/-- `constexpr auto FILE_ATTRIBUTE_HIDDEN = 0x2u;` -/
def FILE_ATTRIBUTE_HIDDEN : Nat := 0x2

/-- `static bool isNtfsHidden(filename)`, where `long` has `longBits` bits. -/
def isNtfsHidden (longBits : Nat) (sys : XattrSys) : Bool :=
  if sys.probe ≤ 0 then
    false
  else if sys.length ≤ 0 then
    false
  else
    let hexAttr := isNtfsHidden.hexAttr sys.strAttr sys.length.toNat
    let intAttr := toUInt (strtol longBits hexAttr 16)
    decide (intAttr &&& FILE_ATTRIBUTE_HIDDEN ≠ 0)

/-- The big-endian unsigned integer spelled by a sequence of bytes. -/
def bigEndianValue (bytes : List Nat) : Nat :=
  bytes.foldl (fun acc b => acc * 256 + b) 0

/-- `constexpr size_t xattr_size = 1024;` -/
def xattr_size : Nat := 1024

/-- What the two `getxattr` calls answer for an attribute whose value is made
of the given bytes: the first reports the size; the second stores the bytes
and reports their number when they fit the buffer of `xattr_size` bytes, and
otherwise fails with -1. -/
def xattrOf (bytes : List Nat) : XattrSys :=
  if bytes.length ≤ xattr_size then
    { probe := bytes.length, length := bytes.length, strAttr := bytes }
  else
    { probe := bytes.length, length := -1, strAttr := [] }

/-! ## Slots run during an emission -/

/-- What the slots connected to the signals `error` and `slaveDied` of a
handle (they belong to the job and to the scheduler, outside the sources at
hand) do to the handle while the signal is emitted: the slots have run when
`Q_EMIT` returns. -/
structure Slots where
  /-- The slots connected to `error`. -/
  onError : Slave → Slave
  /-- The slots connected to `slaveDied`. -/
  onSlaveDied : Slave → Slave

/-- No slot touches the handle. -/
def noSlots : Slots :=
  { onError := id, onSlaveDied := id }

/-- The last statements of `Slave::timeout()`, from `d->connection->close()`
to `deref()`, with the connected slots run at each emission. -/
def Slave.timeoutGiveUpNotifying (b : Build) (slots : Slots) (s : Slave) : Slave :=
  let s := Slave.connectionClose s
  let s := Slave.setDead s
  let arg := Slave.diedArg s
  let s := Slave.ref s
  let s := slots.onError (Slave.log (Event.emitError b.ERR_SLAVE_DIED arg) s)
  let s := slots.onSlaveDied (Slave.log Event.emitSlaveDied s)
  Slave.deref s

/-- `Slave::timeout()` with the connected slots run at each emission. -/
def Slave.timeoutNotifying (b : Build) (now : Nat) (isProcessAlive : Int → Bool) (slots : Slots)
    (s : Slave) : Slave :=
  if s.dead then
    s
  else if s.connection.connected then
    s
  else if s.m_pid ≠ 0 ∧ isProcessAlive s.m_pid = true then
    if Slave.delta_t now s < s_slaveConnectionTimeoutMax b then
      Slave.singleShot now (1000 * s_slaveConnectionTimeoutMin) s
    else
      Slave.timeoutGiveUpNotifying b slots s
  else
    Slave.timeoutGiveUpNotifying b slots s

/-- `Slave::gotInput()` with the connected slots run at each emission. -/
def Slave.gotInputNotifying (b : Build) (dispatchOk : Bool) (slots : Slots) (s : Slave) : Slave :=
  if s.dead then
    s
  else
    let s := Slave.ref s
    let s := Slave.log (Event.dispatch dispatchOk) s
    let s :=
      if !dispatchOk then
        let s := Slave.connectionClose s
        let s := Slave.setDead s
        let arg := Slave.diedArg s
        let s := slots.onError (Slave.log (Event.emitError b.ERR_SLAVE_DIED arg) s)
        slots.onSlaveDied (Slave.log Event.emitSlaveDied s)
      else
        s
    Slave.deref s

/-- Calls of the reference-counting interface, made one after the other. -/
def runRefOps (ops : List RefOp) (s : Slave) : Slave :=
  ops.foldl (fun acc op => op.run acc) s

/-- Slots that only take and release references to the handle. -/
def refSlots (onError onSlaveDied : List RefOp) : Slots :=
  { onError := runRefOps onError, onSlaveDied := runRefOps onSlaveDied }

/-! ## `copy` and `tryChangeFileAttr` (`file_unix.cpp`) -/

/-- `EINTR` of `errno.h`. -/
def EINTR : Int := 4

/-- `EINVAL` of `errno.h`. -/
def EINVAL : Int := 22

/-- `ENOSYS` of `errno.h`. -/
def ENOSYS : Int := 38

/-- `S_IRUSR` of `sys/stat.h`. -/
def S_IRUSR : Nat := 256

/-- `S_IWUSR` of `sys/stat.h`. -/
def S_IWUSR : Nat := 128

/-- Error codes of `KIO::Error` (`global.h`) used by `copy`. -/
structure CopyErrorCodes extends FileErrorCodes where
  ERR_CANNOT_DELETE_ORIGINAL : Int
  ERR_CANNOT_OPEN_FOR_READING : Int
  ERR_CANNOT_OPEN_FOR_WRITING : Int
  ERR_CANNOT_READ : Int
  ERR_CANNOT_WRITE : Int
  deriving DecidableEq, Repr

/-- The kind of file that `st_mode & QT_STAT_MASK` and the `S_IS...` tests
tell. -/
inductive FileKind where
  | dir | lnk | reg | fifo | sock | other
  deriving DecidableEq, Repr

/-- What `copy` reads from `buff_dest` when the destination exists. -/
structure CopyDestStat where
  /-- `same_inode(buff_dest, buff_src)`. -/
  sameInode : Bool
  /-- The kind `buff_dest.st_mode` tells. -/
  kind : FileKind
  deriving DecidableEq, Repr

/-- The value of a `::sendfile` or `::read` call. -/
inductive IoResult where
  /-- The call returned -1 and set `errno`. -/
  | failed (errno : Int)
  /-- The call returned `n`. -/
  | bytes (n : Nat)
  deriving DecidableEq, Repr

/-- How `dest_file.write(buffer, n)` went. -/
inductive WriteResult where
  /-- It returned `n`. -/
  | complete
  /-- It returned something else, and `dest_file.error()` is `ResourceError`. -/
  | resourceError
  /-- It returned something else, with another error. -/
  | otherError
  deriving DecidableEq, Repr

/-- What the environment answers during one pass through the transfer loop of
`copy`. -/
structure CopyIteration where
  /-- `wasKilled()` in the loop condition. -/
  wasKilled : Bool
  /-- `::sendfile(...)`, if it is called. -/
  sendfile : IoResult
  /-- `::read(...)`, if it is called. -/
  read : IoResult
  /-- `dest_file.write(buffer, n)`, if it is called. -/
  write : WriteResult
  deriving DecidableEq, Repr

/-- Results of the system and library calls of `copy`. -/
structure CopySys where
  /-- `errno` when `QT_STAT` of the source returns -1. -/
  statSrc : Option Int
  /-- The kind `buff_src.st_mode` tells. -/
  srcKind : FileKind
  /-- `buff_src.st_size`. -/
  srcSize : Nat
  /-- `buff_src.st_mode`. -/
  srcMode : Int
  /-- `buff_src.st_uid`. -/
  srcUid : Int
  /-- `buff_src.st_gid`. -/
  srcGid : Int
  /-- `buff_src.st_atime`. -/
  srcAtime : Int
  /-- `buff_src.st_mtime`. -/
  srcMtime : Int
  /-- The destination as `QT_LSTAT` found it; `none` when it returned -1. -/
  lstatDest : Option CopyDestStat
  /-- `errno` when `QFile::remove(dest)` of a symlink destination fails. -/
  removeLink : Option Int
  /-- `errno` when `src_file.open(QIODevice::ReadOnly)` fails. -/
  openSrc : Option Int
  /-- The descriptor receiver and the file of the `tryOpen` for the source. -/
  srcReceiver : OpenSys
  /-- `errno` when `dest_file.open(Truncate | WriteOnly)` fails. -/
  openDest : Option Int
  /-- The descriptor receiver and the file of the `tryOpen` for the
  destination. -/
  destReceiver : OpenSys
  /-- The answers met by the successive passes through the transfer loop. -/
  iterations : List CopyIteration
  /-- `wasKilled()` after the loop. -/
  wasKilledAtEnd : Bool
  /-- `errno` when `QFile::remove(dest)` of the partly copied file fails. -/
  removeDest : Option Int
  /-- `dest_file.error() != QFile::NoError` after the files are closed. -/
  closeError : Bool
  /-- `errno` when `::chmod` (or, with ACLs, `acl_set_file`) fails. -/
  chmod : Option Int
  /-- The mount point of the destination is known and supports `chmod`. -/
  supportsChmod : Bool
  /-- `execAction.status() == KAuth::Action::AuthorizedStatus` in
  `tryChangeFileAttr`. -/
  authorized : Bool
  /-- `errno` when `::chown(dest, -1, gid)` fails. -/
  chownGroup : Option Int
  /-- `errno` when `::utime` fails. -/
  utime : Option Int

/-- How a span of statements of `copy` ends: with a `return`, or by going
on. -/
inductive CopyStep (α : Type) where
  /-- The function returns; the events of the span. -/
  | returned (tr : List OpEvent)
  /-- Control goes on with `a`; the events of the span. -/
  | goesOn (a : α) (tr : List OpEvent)

/-- How the transfer loop of `copy` ends. -/
inductive CopyLoopEnd where
  /-- A `return` inside the loop; the events of the error and the clean-up. -/
  | returned (tr : List OpEvent)
  /-- The loop is left, by `wasKilled()` or by `n == 0`. -/
  | left
  deriving DecidableEq, Repr

namespace FileProtocol

/-- `FileProtocol::tryChangeFileAttr(action, args, errcode)`, with the call of
`execWithElevatedPrivilege` going to `elevation`; `authorized` is whether the
status of the helper action is `AuthorizedStatus`. -/
def tryChangeFileAttrWith (elevation : Elevation) (authorized : Bool) (action : ActionType)
    (args : List QVariant) (errcode : Int) : PrivilegeOperationReturnValue × List OpEvent :=
  if authorized then
    callElevation elevation action args errcode
  else
    (PrivilegeOperationReturnValue.failure errcode, [])

/-- The statements `if (!QFile::remove(dest)) { execWithElevatedPrivilege(DEL,
{_dest}, errno); }` of `copy`, which do not look at the value returned. -/
def copyCleanup (elevation : Elevation) (sys : CopySys) (dest : String) : List OpEvent :=
  match sys.removeDest with
  | some errno => (callElevation elevation ActionType.DEL [QVariant.str dest] errno).2
  | none => []

/-- The statements of `copy` that look at an existing destination: they
return, or go on with the name to write to (`dest`, with `.part` appended when
a regular file is overwritten) and whether `_dest_backup` was set. -/
def copyDestination (k : CopyErrorCodes) (elevation : Elevation) (sys : CopySys)
    (dest : String) (overwrite : Bool) : CopyStep (String × Bool) :=
  match sys.lstatDest with
  | some buff_dest =>
    if buff_dest.sameInode then
      CopyStep.returned [OpEvent.error k.ERR_IDENTICAL_FILES dest]
    else if buff_dest.kind = FileKind.dir then
      CopyStep.returned [OpEvent.error k.ERR_DIR_ALREADY_EXIST dest]
    else if overwrite then
      if buff_dest.kind = FileKind.lnk then
        match sys.removeLink with
        | some errno =>
          let r := callElevation elevation ActionType.DEL [QVariant.str dest] errno
          if r.1.isError then
            if !r.1.wasCanceled then
              CopyStep.returned (r.2 ++ [OpEvent.error k.ERR_CANNOT_DELETE_ORIGINAL dest])
            else
              CopyStep.returned r.2
          else
            CopyStep.goesOn (dest, false) r.2
        | none => CopyStep.goesOn (dest, false) []
      else if buff_dest.kind = FileKind.reg then
        CopyStep.goesOn (dest ++ ".part", true) []
      else
        CopyStep.goesOn (dest, false) []
    else
      CopyStep.returned [OpEvent.error k.ERR_FILE_ALREADY_EXIST dest]
  | none => CopyStep.goesOn (dest, false) []

/-- The statements of `copy` that open the source file, through `tryOpen`
when the plain `open` fails. -/
def copyOpenSource (k : CopyErrorCodes) (elevation : Elevation) (sys : CopySys) (src : String) :
    CopyStep Unit :=
  match sys.openSrc with
  | some errno =>
    let r := tryOpenWith elevation sys.srcReceiver src O_RDONLY (S_IRUSR : Nat) errno
    if r.1.isError then
      if !r.1.wasCanceled then
        CopyStep.returned (r.2 ++ [OpEvent.error k.ERR_CANNOT_OPEN_FOR_READING src])
      else
        CopyStep.returned r.2
    else
      CopyStep.goesOn () r.2
  | none => CopyStep.goesOn () []

/-- The statements of `copy` that open the destination file, through
`tryOpen` when the plain `open` fails. -/
def copyOpenDestination (k : CopyErrorCodes) (elevation : Elevation) (sys : CopySys)
    (dest : String) : CopyStep Unit :=
  match sys.openDest with
  | some errno =>
    let r := tryOpenWith elevation sys.destReceiver dest (O_WRONLY ||| O_TRUNC ||| O_CREAT)
      ((S_IRUSR ||| S_IWUSR : Nat) : Int) errno
    if r.1.isError then
      if !r.1.wasCanceled then
        if r.1.code = EACCES then
          CopyStep.returned (r.2 ++ [OpEvent.error k.ERR_WRITE_ACCESS_DENIED dest])
        else
          CopyStep.returned (r.2 ++ [OpEvent.error k.ERR_CANNOT_OPEN_FOR_WRITING dest])
      else
        CopyStep.returned r.2
    else
      CopyStep.goesOn () r.2
  | none => CopyStep.goesOn () []

/-- The transfer loop of `copy`: `use_sendfile` and
`existing_dest_delete_attempted` are the local variables of these names
(`use_sendfile` is false throughout when `USE_SENDFILE` is not defined), and
`backup` is whether `_dest_backup` is set.  The result is `none` when the loop
is still running after the answers given. -/
def copyLoop (k : CopyErrorCodes) (elevation : Elevation) (sys : CopySys) (src dest : String)
    (backup : Bool) : List CopyIteration → Bool → Bool → Option CopyLoopEnd
  | [], _, _ => none
  | it :: rest, use_sendfile, existing_dest_delete_attempted =>
    if it.wasKilled then
      some CopyLoopEnd.left
    else
      let transferred : Bool × IoResult :=
        if use_sendfile then
          match it.sendfile with
          | IoResult.failed errno =>
            if errno = EINVAL ∨ errno = ENOSYS then (false, it.read)
            else (true, IoResult.failed errno)
          | IoResult.bytes n => (true, IoResult.bytes n)
        else
          (false, it.read)
      match transferred.2 with
      | IoResult.failed errno =>
        if errno = EINTR then
          copyLoop k elevation sys src dest backup rest transferred.1
            existing_dest_delete_attempted
        else if transferred.1 then
          if errno = ENOSPC then
            if backup ∧ existing_dest_delete_attempted = false then
              copyLoop k elevation sys src dest backup rest transferred.1 true
            else
              some (CopyLoopEnd.returned
                ([OpEvent.error k.ERR_DISK_FULL dest] ++ copyCleanup elevation sys dest))
          else
            some (CopyLoopEnd.returned
              ([OpEvent.error k.ERR_SLAVE_DEFINED
                  ("Cannot copy file from " ++ src ++ " to " ++ dest ++ ". (Errno: "
                    ++ ToString.toString errno ++ ")")]
                ++ copyCleanup elevation sys dest))
        else
          some (CopyLoopEnd.returned
            ([OpEvent.error k.ERR_CANNOT_READ src] ++ copyCleanup elevation sys dest))
      | IoResult.bytes n =>
        if n = 0 then
          some CopyLoopEnd.left
        else if transferred.1 = false then
          match it.write with
          | WriteResult.complete =>
            copyLoop k elevation sys src dest backup rest transferred.1
              existing_dest_delete_attempted
          | WriteResult.resourceError =>
            if backup ∧ existing_dest_delete_attempted = false then
              copyLoop k elevation sys src dest backup rest transferred.1 true
            else
              some (CopyLoopEnd.returned
                ([OpEvent.error k.ERR_DISK_FULL dest] ++ copyCleanup elevation sys dest))
          | WriteResult.otherError =>
            some (CopyLoopEnd.returned
              ([OpEvent.error k.ERR_CANNOT_WRITE dest] ++ copyCleanup elevation sys dest))
        else
          copyLoop k elevation sys src dest backup rest transferred.1
            existing_dest_delete_attempted

/-- The statements of `copy` that follow the transfer loop. -/
def copyFinish (k : CopyErrorCodes) (elevation : Elevation) (sys : CopySys) (dest : String)
    (_mode : Int) : List OpEvent :=
  if sys.wasKilledAtEnd then
    copyCleanup elevation sys dest ++ [OpEvent.error k.ERR_USER_CANCELED dest]
  else if sys.closeError then
    [OpEvent.error k.ERR_CANNOT_WRITE dest] ++ copyCleanup elevation sys dest
  else
    let mode := if _mode = -1 then sys.srcMode else _mode
    let chmodEvents : List OpEvent :=
      match sys.chmod with
      | some errCode =>
        if sys.supportsChmod then
          (tryChangeFileAttrWith elevation sys.authorized ActionType.CHMOD
            [QVariant.str dest, QVariant.int mode] errCode).2
        else []
      | none => []
    let chownEvents : List OpEvent :=
      match sys.chownGroup with
      | some errno =>
        (tryChangeFileAttrWith elevation sys.authorized ActionType.CHOWN
          [QVariant.str dest, QVariant.int sys.srcUid, QVariant.int sys.srcGid] errno).2
      | none => []
    let utimeEvents : List OpEvent :=
      match sys.utime with
      | some errno =>
        (tryChangeFileAttrWith elevation sys.authorized ActionType.UTIME
          [QVariant.str dest, QVariant.int sys.srcAtime, QVariant.int sys.srcMtime] errno).2
      | none => []
    chmodEvents ++ chownEvents ++ utimeEvents ++ [OpEvent.finished]

/-- `FileProtocol::copy(srcUrl, destUrl, _mode, _flags)`, with the calls of
`execWithElevatedPrivilege` going to `elevation`.  `unitTestMode` is the value
of `privilegeOperationUnitTestMode()` at the start and the request it made,
`haveSendfile` whether `USE_SENDFILE` is defined, `overwrite` is
`_flags & KIO::Overwrite`.  Recorded are `finished()`, `error(...)`, the
delegated calls and the requests; the progress signals (`totalSize`,
`processedSize`) and the warnings written to the log are not.  The result is
`none` when the transfer loop is still running after the answers given. -/
def copyWith (k : CopyErrorCodes) (unitTestMode : Bool × List FileEvent) (elevation : Elevation)
    (haveSendfile : Bool) (sys : CopySys) (src dest : String) (_mode : Int) (overwrite : Bool) :
    Option (List OpEvent) :=
  let probe := unitTestMode.2.map OpEvent.delegated
  if unitTestMode.1 then
    some (probe ++ [OpEvent.finished])
  else
    match sys.statSrc with
    | some errno =>
      if errno = EACCES then some (probe ++ [OpEvent.error k.ERR_ACCESS_DENIED src])
      else some (probe ++ [OpEvent.error k.ERR_DOES_NOT_EXIST src])
    | none =>
      if sys.srcKind = FileKind.dir then
        some (probe ++ [OpEvent.error k.ERR_IS_DIRECTORY src])
      else if sys.srcKind = FileKind.fifo ∨ sys.srcKind = FileKind.sock then
        some (probe ++ [OpEvent.error k.ERR_CANNOT_OPEN_FOR_READING src])
      else
        match copyDestination k elevation sys dest overwrite with
        | CopyStep.returned tr => some (probe ++ tr)
        | CopyStep.goesOn target tr1 =>
          match copyOpenSource k elevation sys src with
          | CopyStep.returned tr => some (probe ++ tr1 ++ tr)
          | CopyStep.goesOn _ tr2 =>
            match copyOpenDestination k elevation sys target.1 with
            | CopyStep.returned tr => some (probe ++ tr1 ++ tr2 ++ tr)
            | CopyStep.goesOn _ tr3 =>
              let use_sendfile := haveSendfile && decide (sys.srcSize < 0x7FFFFFFF)
              match copyLoop k elevation sys src target.1 target.2 sys.iterations use_sendfile
                  false with
              | none => none
              | some (CopyLoopEnd.returned tr) => some (probe ++ tr1 ++ tr2 ++ tr3 ++ tr)
              | some CopyLoopEnd.left =>
                some (probe ++ tr1 ++ tr2 ++ tr3 ++ copyFinish k elevation sys target.1 _mode)

/-- `FileProtocol::copy(srcUrl, destUrl, _mode, _flags)`. -/
def copy (k : CopyErrorCodes) (env : FileEnv) (haveSendfile : Bool) (sys : CopySys)
    (src dest : String) (_mode : Int) (overwrite : Bool) : Option (List OpEvent) :=
  copyWith k (privilegeOperationUnitTestMode env)
    (execWithElevatedPrivilege k.toErrorCodes env) haveSendfile sys src dest _mode overwrite

end FileProtocol

/-- The event is an `error(...)` raised by the operation itself. -/
def OpEvent.isOwnError : OpEvent → Bool
  | OpEvent.error _ _ => true
  | _ => false

/-- The event is a call of `execWithElevatedPrivilege`. -/
def OpEvent.isCall : OpEvent → Bool
  | OpEvent.elevate _ _ _ => true
  | _ => false

/-- The errors the operation itself raised after its first delegated call. -/
def errorsAfterCall : List OpEvent → List OpEvent
  | [] => []
  | e :: es => if e.isCall then es.filter OpEvent.isOwnError else errorsAfterCall es

/-! # Theorems -/

/-! ## Reference counting (C1) -/

theorem Slave.ref_deleted (s : Slave) : (Slave.ref s).deleted = s.deleted := rfl

theorem Slave.ref_refCount (s : Slave) : (Slave.ref s).m_refCount = s.m_refCount + 1 := rfl

theorem Slave.deref_refCount (s : Slave) :
    (Slave.deref s).m_refCount = s.m_refCount - 1 := by
  unfold Slave.deref
  simp only []
  split <;> rfl

theorem Slave.deref_deleted (s : Slave) (h : s.deleted = false) :
    ((Slave.deref s).deleted = true ↔ s.m_refCount - 1 = 0) := by
  unfold Slave.deref
  simp only []
  split
  · rename_i h0
    simp [Slave.log] at h0
    simp [Slave.deleteThis, Slave.destroy, h0]
  · rename_i h0
    simp [Slave.log] at h0 ⊢
    simp [h, h0]

theorem Slave.deref_trace_of_deleted (s : Slave) (h : s.deleted = false)
    (hd : (Slave.deref s).deleted = true) :
    (Slave.deref s).trace =
      s.trace ++ [Event.deref, Event.connectionDisconnect, Event.disconnectAll,
                  Event.deleteThis] := by
  have h0 := (Slave.deref_deleted s h).mp hd
  unfold Slave.deref
  simp [Slave.log, h0, Slave.deleteThis, Slave.destroy, Slave.aboutToDelete]

theorem netCount_cons_ref (c : Int) (ops : List RefOp) :
    netCount c (RefOp.ref :: ops) = netCount (c + 1) ops := by
  simp [netCount]; ring

theorem netCount_cons_deref (c : Int) (ops : List RefOp) :
    netCount c (RefOp.deref :: ops) = netCount (c - 1) ops := by
  simp [netCount]; ring

theorem dropsToZero_ref_zero (c : Int) (ops : List RefOp) :
    ¬ dropsToZero c (RefOp.ref :: ops) 0 := by
  simp [dropsToZero]

theorem dropsToZero_ref_succ (c : Int) (ops : List RefOp) (j : Nat) :
    dropsToZero c (RefOp.ref :: ops) (j + 1) ↔ dropsToZero (c + 1) ops j := by
  simp [dropsToZero, netCount_cons_ref]

theorem dropsToZero_deref_zero (c : Int) (ops : List RefOp) :
    dropsToZero c (RefOp.deref :: ops) 0 ↔ c - 1 = 0 := by
  simp [dropsToZero, netCount]

theorem dropsToZero_deref_succ (c : Int) (ops : List RefOp) (j : Nat) :
    dropsToZero c (RefOp.deref :: ops) (j + 1) ↔ dropsToZero (c - 1) ops j := by
  simp [dropsToZero, netCount_cons_deref]

theorem firstDrop_ref_succ (c : Int) (ops : List RefOp) (i : Nat) :
    firstDrop c (RefOp.ref :: ops) (i + 1) ↔ firstDrop (c + 1) ops i := by
  unfold firstDrop
  rw [dropsToZero_ref_succ]
  constructor
  · rintro ⟨h1, h2⟩
    refine ⟨h1, fun j hj hd => h2 (j + 1) (by omega) ?_⟩
    exact (dropsToZero_ref_succ c ops j).mpr hd
  · rintro ⟨h1, h2⟩
    refine ⟨h1, fun j hj hd => ?_⟩
    cases j with
    | zero => exact dropsToZero_ref_zero c ops hd
    | succ j => exact h2 j (by omega) ((dropsToZero_ref_succ c ops j).mp hd)

theorem firstDrop_deref_succ (c : Int) (ops : List RefOp) (i : Nat) (hc : c - 1 ≠ 0) :
    firstDrop c (RefOp.deref :: ops) (i + 1) ↔ firstDrop (c - 1) ops i := by
  unfold firstDrop
  rw [dropsToZero_deref_succ]
  constructor
  · rintro ⟨h1, h2⟩
    refine ⟨h1, fun j hj hd => h2 (j + 1) (by omega) ?_⟩
    exact (dropsToZero_deref_succ c ops j).mpr hd
  · rintro ⟨h1, h2⟩
    refine ⟨h1, fun j hj hd => ?_⟩
    cases j with
    | zero => exact hc ((dropsToZero_deref_zero c ops).mp hd)
    | succ j => exact h2 j (by omega) ((dropsToZero_deref_succ c ops j).mp hd)

theorem teardownAt_ge (ops : List RefOp) :
    ∀ (k : Nat) (s : Slave) (m : Nat), teardownAt ops k s = some m → k ≤ m := by
  induction ops with
  | nil => intro k s m h; simp [teardownAt] at h
  | cons op ops ih =>
    intro k s m h
    simp only [teardownAt] at h
    split at h
    · simp at h; omega
    · have := ih _ _ _ h; omega

theorem teardownAt_iff (ops : List RefOp) :
    ∀ (k : Nat) (s : Slave) (i : Nat), s.deleted = false →
      (teardownAt ops k s = some (k + i) ↔ firstDrop s.m_refCount ops i) := by
  induction ops with
  | nil =>
    intro k s i _
    simp [teardownAt, firstDrop, dropsToZero]
  | cons op ops ih =>
    intro k s i hs
    cases op with
    | ref =>
      have hdel : (Slave.ref s).deleted = false := by rw [Slave.ref_deleted]; exact hs
      simp only [teardownAt, RefOp.run, hdel]
      cases i with
      | zero =>
        constructor
        · intro h
          have := teardownAt_ge _ _ _ _ h
          omega
        · intro h
          exact absurd h.1 (dropsToZero_ref_zero _ _)
      | succ i =>
        rw [firstDrop_ref_succ, ← Slave.ref_refCount, ← ih (k + 1) (Slave.ref s) i hdel]
        have : k + (i + 1) = k + 1 + i := by omega
        simp [this]
    | deref =>
      by_cases hc : s.m_refCount - 1 = 0
      · have hdel : (Slave.deref s).deleted = true := (Slave.deref_deleted s hs).mpr hc
        simp only [teardownAt, RefOp.run, hdel]
        cases i with
        | zero =>
          simp [firstDrop, dropsToZero_deref_zero, hc]
        | succ i =>
          constructor
          · intro h
            simp at h
          · intro h
            exact absurd ((dropsToZero_deref_zero _ _).mpr hc) (h.2 0 (by omega))
      · have hdel : (Slave.deref s).deleted = false := by
          cases hd : (Slave.deref s).deleted
          · rfl
          · exact absurd ((Slave.deref_deleted s hs).mp hd) hc
        simp only [teardownAt, RefOp.run, hdel]
        cases i with
        | zero =>
          constructor
          · intro h
            have := teardownAt_ge _ _ _ _ h
            omega
          · intro h
            exact absurd ((dropsToZero_deref_zero _ _).mp h.1) hc
        | succ i =>
          rw [firstDrop_deref_succ _ _ _ hc, ← Slave.deref_refCount,
            ← ih (k + 1) (Slave.deref s) i hdel]
          have : k + (i + 1) = k + 1 + i := by omega
          simp [this]

/-- C1: a newly constructed handle has reference count 1, and for every finite
sequence of `ref()`/`deref()` calls applied to it the handle is destroyed
during call number `i` exactly when call `i` is the first `deref()` after which
1 + (number of refs) - (number of derefs) is zero; the destroying `deref()` runs
`aboutToDelete()` and then `delete this`. -/
theorem C1_teardown_at_first_zero_count (protocol : String) (now : Nat) (listens : Bool)
    (ops : List RefOp) (i : Nat) :
    (Slave.new protocol now listens).m_refCount = 1 ∧
    (teardownAt ops 0 (Slave.new protocol now listens) = some i ↔
      (dropsToZero 1 ops i ∧ ∀ j, j < i → ¬ dropsToZero 1 ops j)) ∧
    (∀ s : Slave, s.deleted = false → (Slave.deref s).deleted = true →
      (Slave.deref s).trace =
        s.trace ++ [Event.deref, Event.connectionDisconnect, Event.disconnectAll,
                    Event.deleteThis]) := by
  refine ⟨rfl, ?_, fun s h hd => Slave.deref_trace_of_deleted s h hd⟩
  have h := teardownAt_iff ops 0 (Slave.new protocol now listens) i rfl
  simpa [firstDrop, Slave.new] using h

/-- C1 at a concrete sequence: `ref, deref, ref, deref, deref, ref` destroys the
handle during call number 4. -/
theorem C1_teardown_witness :
    teardownAt [RefOp.ref, RefOp.deref, RefOp.ref, RefOp.deref, RefOp.deref, RefOp.ref] 0
        (Slave.new "file" 0 true) = some 4 ∧
    dropsToZero 1 [RefOp.ref, RefOp.deref, RefOp.ref, RefOp.deref, RefOp.deref, RefOp.ref] 4 :=
  have h := (C1_teardown_at_first_zero_count "file" 0 true
    [RefOp.ref, RefOp.deref, RefOp.ref, RefOp.deref, RefOp.deref, RefOp.ref] 4).2.1
  ⟨by decide, (h.mp (by decide)).1⟩

/-! ## The branches of `timeout()` and `gotInput()` -/

theorem Slave.timeout_of_dead (b : Build) (now : Nat) (alive : Int → Bool) (s : Slave)
    (h : s.dead = true) : Slave.timeout b now alive s = s := by
  simp [Slave.timeout, h]

theorem Slave.timeout_of_connected (b : Build) (now : Nat) (alive : Int → Bool) (s : Slave)
    (h : s.connection.connected = true) : Slave.timeout b now alive s = s := by
  unfold Slave.timeout
  split
  · rfl
  · simp [h]

theorem Slave.timeout_rearm (b : Build) (now : Nat) (alive : Int → Bool) (s : Slave)
    (hd : s.dead = false) (hc : s.connection.connected = false) (hp : s.m_pid ≠ 0)
    (ha : alive s.m_pid = true) (ht : Slave.delta_t now s < s_slaveConnectionTimeoutMax b) :
    Slave.timeout b now alive s =
      Slave.singleShot now (1000 * s_slaveConnectionTimeoutMin) s := by
  simp [Slave.timeout, hd, hc, hp, ha, ht]

theorem Slave.timeout_over_limit (b : Build) (now : Nat) (alive : Int → Bool) (s : Slave)
    (hd : s.dead = false) (hc : s.connection.connected = false)
    (ht : ¬ Slave.delta_t now s < s_slaveConnectionTimeoutMax b) :
    Slave.timeout b now alive s = Slave.timeoutGiveUp b s := by
  simp [Slave.timeout, hd, hc, ht]

theorem Slave.timeout_process_gone (b : Build) (now : Nat) (alive : Int → Bool) (s : Slave)
    (hd : s.dead = false) (hc : s.connection.connected = false)
    (hp : s.m_pid = 0 ∨ alive s.m_pid = false) :
    Slave.timeout b now alive s = Slave.timeoutGiveUp b s := by
  rcases hp with hp | hp <;> simp [Slave.timeout, hd, hc, hp]

theorem Slave.timeout_cases (b : Build) (now : Nat) (alive : Int → Bool) (s : Slave) :
    Slave.timeout b now alive s = s ∨
    Slave.timeout b now alive s =
      Slave.singleShot now (1000 * s_slaveConnectionTimeoutMin) s ∨
    Slave.timeout b now alive s = Slave.timeoutGiveUp b s := by
  unfold Slave.timeout
  split
  · exact Or.inl rfl
  · split
    · exact Or.inl rfl
    · split
      · split
        · exact Or.inr (Or.inl rfl)
        · exact Or.inr (Or.inr rfl)
      · exact Or.inr (Or.inr rfl)

theorem Slave.gotInput_of_dead (b : Build) (ok : Bool) (s : Slave) (h : s.dead = true) :
    Slave.gotInput b ok s = s := by
  simp [Slave.gotInput, h]

/-! ## The dead flag (C2) -/

theorem Slave.deref_dead (s : Slave) : (Slave.deref s).dead = s.dead := by
  unfold Slave.deref
  simp only []
  split <;> rfl

theorem Slave.timeout_dead (b : Build) (now : Nat) (alive : Int → Bool) (s : Slave)
    (h : s.dead = true) : (Slave.timeout b now alive s).dead = true := by
  simp [Slave.timeout, h]

theorem Slave.gotInput_dead (b : Build) (ok : Bool) (s : Slave)
    (h : s.dead = true) : (Slave.gotInput b ok s).dead = true := by
  simp [Slave.gotInput, h]

theorem Slave.hold_dead (b : Build) (url : String) (s : Slave) :
    (Slave.hold b url s).dead = true := by
  unfold Slave.hold
  simp only []
  split
  · rw [Slave.deref_dead]; rfl
  · show (Slave.deref _).dead = true
    rw [Slave.deref_dead]; rfl

theorem Slave.kill_dead (s : Slave) : (Slave.kill s).dead = true := by
  unfold Slave.kill
  simp only []
  split <;> rfl

theorem Op.run_dead (b : Build) (op : Op) (s : Slave) (h : s.dead = true) :
    (op.run b s).dead = true := by
  cases op with
  | timeout now alive => exact Slave.timeout_dead b now alive s h
  | gotInput ok => exact Slave.gotInput_dead b ok s h
  | hold url => exact Slave.hold_dead b url s
  | kill => exact Slave.kill_dead s
  | accept =>
    show (Slave.accept s).dead = true
    unfold Slave.accept
    split <;> exact h
  | setProtocol p => exact h
  | setConnected c => exact h
  | setHost ho p u pw => exact h
  | resetHost => exact h
  | setConfig c => exact h
  | setJob j =>
    show (Slave.setJob j s).dead = true
    unfold Slave.setJob
    simp only []
    split <;> exact h
  | setPID pid => exact h
  | setIdle now => exact h
  | suspend => exact h
  | resume => exact h
  | send cmd arr => exact h
  | ref => exact h
  | deref =>
    show (Slave.deref s).dead = true
    rw [Slave.deref_dead]; exact h

theorem runOps_dead (b : Build) (ops : List Op) :
    ∀ s : Slave, s.dead = true → (runOps b ops s).dead = true := by
  induction ops with
  | nil => intro s h; exact h
  | cons op ops ih =>
    intro s h
    exact ih (op.run b s) (Op.run_dead b op s h)

/-- C2: `dead` is absorbing.  For every build, every handle and every sequence
of calls (timeout, gotInput, hold, kill, accept, setProtocol, setConnected,
setHost, resetHost, setConfig, setJob, setPID, setIdle, suspend, resume, send,
ref, deref, with arbitrary answers of the environment): once `isAlive()` has
returned false, it returns false after every later call. -/
theorem C2_dead_is_absorbing (b : Build) (s : Slave) (ops : List Op)
    (h : Slave.isAlive s = false) :
    Slave.isAlive (runOps b ops s) = false := by
  have hd : s.dead = true := by simpa [Slave.isAlive] using h
  simp [Slave.isAlive, runOps_dead b ops s hd]

/-- C2 at a concrete run: a killed handle stays dead through a connection, a
host change and a timer delivery. -/
theorem C2_dead_is_absorbing_witness :
    Slave.isAlive (Slave.kill (Slave.new "file" 0 true)) = false ∧
    Slave.isAlive
      (runOps exampleBuild
        [Op.accept, Op.setConnected true, Op.setHost "localhost" 0 "" "", Op.resetHost,
         Op.timeout 2000 (fun _ => true), Op.gotInput true, Op.send 7 [], Op.ref]
        (Slave.kill (Slave.new "file" 0 true))) = false :=
  ⟨by decide, C2_dead_is_absorbing exampleBuild _ _ (by decide)⟩

/-! ## Death notification (C3) -/

theorem Slave.deref_slaveDiedCount (s : Slave) :
    slaveDiedCount (Slave.deref s).trace = slaveDiedCount s.trace := by
  unfold Slave.deref
  simp only []
  split <;>
    simp [slaveDiedCount, Slave.deleteThis, Slave.destroy, Slave.aboutToDelete, Slave.log,
      List.count_append]

theorem Op.run_diedOnce (b : Build) (op : Op) (s : Slave) (hop : op.isHold = false)
    (h : diedOnce s) : diedOnce (op.run b s) := by
  cases op with
  | hold url => simp [Op.isHold] at hop
  | timeout now alive =>
    show diedOnce (Slave.timeout b now alive s)
    cases hd : s.dead with
    | true => rw [Slave.timeout_of_dead b now alive s hd]; exact h
    | false =>
      have h0 : slaveDiedCount s.trace = 0 := by
        rcases h with h | ⟨_, h⟩
        · exact h
        · rw [hd] at h; exact absurd h (by decide)
      have hlost : diedOnce (Slave.timeoutGiveUp b s) := by
        right
        unfold Slave.timeoutGiveUp
        simp only []
        rw [Slave.deref_slaveDiedCount, Slave.deref_dead]
        refine ⟨?_, rfl⟩
        simp [slaveDiedCount, Slave.log, Slave.ref, Slave.setDead, Slave.connectionClose,
          List.count_append] at h0 ⊢
        exact h0
      unfold Slave.timeout
      simp only [hd]
      split
      · simp at *
      · split
        · exact h
        · split
          · split
            · left
              simpa [Slave.singleShot, Slave.log, slaveDiedCount, List.count_append] using h0
            · exact hlost
          · exact hlost
  | gotInput ok =>
    show diedOnce (Slave.gotInput b ok s)
    unfold Slave.gotInput
    by_cases hd : s.dead = true
    · simp [hd]; exact h
    · have h0 : slaveDiedCount s.trace = 0 := by
        rcases h with h | ⟨_, h⟩
        · exact h
        · exact absurd h hd
      simp only [hd, if_false, Bool.false_eq_true]
      cases ok with
      | true =>
        left
        simp only [Bool.not_true, Bool.false_eq_true, if_false]
        rw [Slave.deref_slaveDiedCount]
        simpa [Slave.log, Slave.ref, slaveDiedCount, List.count_append] using h0
      | false =>
        right
        simp only [Bool.not_false, if_true, Bool.false_eq_true, if_false]
        rw [Slave.deref_slaveDiedCount, Slave.deref_dead]
        refine ⟨?_, rfl⟩
        simp [slaveDiedCount, Slave.log, Slave.ref, Slave.setDead, Slave.connectionClose,
          List.count_append] at h0 ⊢
        exact h0
  | kill =>
    show diedOnce (Slave.kill s)
    have hk : slaveDiedCount (Slave.kill s).trace = slaveDiedCount s.trace := by
      unfold Slave.kill
      simp only []
      split <;> simp [slaveDiedCount, Slave.setDead, Slave.log, List.count_append]
    unfold diedOnce
    rw [hk, Slave.kill_dead]
    rcases h with h | ⟨h, _⟩
    · exact Or.inl h
    · exact Or.inr ⟨h, rfl⟩
  | accept =>
    show diedOnce (Slave.accept s)
    unfold Slave.accept
    split <;> simpa [diedOnce, Slave.log, slaveDiedCount, List.count_append] using h
  | setProtocol p => exact h
  | setConnected c => exact h
  | setHost ho p u pw =>
    simpa [diedOnce, Op.run, Slave.setHost, Slave.log, slaveDiedCount, List.count_append]
      using h
  | resetHost => exact h
  | setConfig c =>
    simpa [diedOnce, Op.run, Slave.setConfig, Slave.log, slaveDiedCount, List.count_append]
      using h
  | setJob j =>
    show diedOnce (Slave.setJob j s)
    unfold Slave.setJob
    simp only []
    split
    · simpa [diedOnce, Slave.log, slaveDiedCount, List.count_append] using h
    · exact h
  | setPID pid => exact h
  | setIdle now => exact h
  | suspend =>
    simpa [diedOnce, Op.run, Slave.suspend, Slave.log, slaveDiedCount, List.count_append]
      using h
  | resume =>
    simpa [diedOnce, Op.run, Slave.resume, Slave.log, slaveDiedCount, List.count_append]
      using h
  | send cmd arr =>
    simpa [diedOnce, Op.run, Slave.send, Slave.log, slaveDiedCount, List.count_append]
      using h
  | ref =>
    simpa [diedOnce, Op.run, Slave.ref, Slave.log, slaveDiedCount, List.count_append]
      using h
  | deref =>
    show diedOnce (Slave.deref s)
    unfold diedOnce
    rw [Slave.deref_slaveDiedCount, Slave.deref_dead]
    exact h

/-- The guarded paths keep their promise: over any run that contains no
`hold`, a fresh handle emits `slaveDied` at most once. -/
theorem slaveDied_at_most_once_without_hold (b : Build) (ops : List Op)
    (hops : ∀ op ∈ ops, op.isHold = false) (protocol : String) (now : Nat) (listens : Bool) :
    slaveDiedCount (runOps b ops (Slave.new protocol now listens)).trace ≤ 1 := by
  have key : ∀ (ops : List Op) (s : Slave), (∀ op ∈ ops, op.isHold = false) → diedOnce s →
      diedOnce (runOps b ops s) := by
    intro ops
    induction ops with
    | nil => intro s _ h; exact h
    | cons op ops ih =>
      intro s hops h
      exact ih (op.run b s) (fun o ho => hops o (List.mem_cons_of_mem _ ho))
        (Op.run_diedOnce b op s (hops op (List.mem_cons_self _ _)) h)
  have h := key ops (Slave.new protocol now listens) hops (Or.inl rfl)
  rcases h with h | ⟨h, _⟩ <;> omega

/-- C3 evaluated at failing runs.  A handshake timeout that gives up followed
by `hold`, a failed read followed by `hold`, and two `hold` calls each leave
two `slaveDied` emissions in the trace of one handle. -/
theorem C3_slaveDied_emitted_twice :
    slaveDiedCount
      (runOps exampleBuild [Op.timeout 2000 (fun _ => false), Op.hold "file:///tmp"]
        (Slave.new "file" 0 true)).trace = 2 ∧
    slaveDiedCount
      (runOps exampleBuild [Op.accept, Op.gotInput false, Op.hold "file:///tmp"]
        (Slave.new "file" 0 true)).trace = 2 ∧
    slaveDiedCount
      (runOps exampleBuild [Op.accept, Op.hold "file:///tmp", Op.hold "file:///tmp"]
        (Slave.new "file" 0 true)).trace = 2 := by
  refine ⟨?_, ?_, ?_⟩ <;> decide

/-! ## Sending on a dead handle (C4) -/

/-- C4 refuted at a concrete handle: after `kill()` the handle is dead, its
connection is still open, and `send` is not a no-op but hands the frame to the
connection. -/
theorem C4_send_on_dead_handle_hands_frame_over :
    Slave.isAlive killedHandle = false ∧
    killedHandle.connection.connected = true ∧
    Slave.send 7 [StreamItem.byte 1] killedHandle ≠ killedHandle ∧
    (Slave.send 7 [StreamItem.byte 1] killedHandle).trace =
      killedHandle.trace ++ [Event.connectionSend 7 [StreamItem.byte 1]] := by
  decide

theorem Slave.deref_connection (s : Slave) : (Slave.deref s).connection = s.connection := by
  unfold Slave.deref
  simp only []
  split <;> rfl

/-- How each way of marking a handle dead leaves the connection. -/
theorem marked_dead_connection_closed (b : Build) (s : Slave) (url : String) (now : Nat)
    (alive : Int → Bool) (ok : Bool) :
    ((Slave.hold b url s).dead = true ∧ (Slave.hold b url s).connection.connected = false) ∧
    (s.dead = false → (Slave.timeout b now alive s).dead = true →
      (Slave.timeout b now alive s).connection.connected = false) ∧
    (s.dead = false → (Slave.gotInput b ok s).dead = true →
      (Slave.gotInput b ok s).connection.connected = false) := by
  refine ⟨⟨Slave.hold_dead b url s, ?_⟩, ?_, ?_⟩
  · unfold Slave.hold
    simp only []
    split
    · rw [Slave.deref_connection]; rfl
    · show (Slave.deref _).connection.connected = false
      rw [Slave.deref_connection]; rfl
  · intro hd hdead
    rcases Slave.timeout_cases b now alive s with h | h | h
    · rw [h, hd] at hdead; exact absurd hdead (by decide)
    · rw [h] at hdead
      simp [Slave.singleShot, Slave.log, hd] at hdead
    · rw [h]
      unfold Slave.timeoutGiveUp
      simp only []
      rw [Slave.deref_connection]; rfl
  · intro hd hdead
    unfold Slave.gotInput at hdead ⊢
    simp only [hd, Bool.false_eq_true, if_false] at hdead ⊢
    rw [Slave.deref_connection]
    rw [Slave.deref_dead] at hdead
    cases ok with
    | true => simp [Slave.log, Slave.ref, hd] at hdead
    | false => rfl

/-- C4 as amended: `send(cmd, payload)` is not guarded by the dead flag.  On
every handle, dead or not, it hands exactly one frame with that command and
payload to the connection and changes nothing else.  `kill()` leaves the
connection as it was; `hold()`, the give-up branch of `timeout()` and a failed
`gotInput()` have closed the connection before the handle is dead. -/
theorem C4_send_is_unguarded (b : Build) (s : Slave) (cmd : Int) (arr : QByteArray)
    (url : String) (now : Nat) (alive : Int → Bool) (ok : Bool) :
    Slave.send cmd arr s = { s with trace := s.trace ++ [Event.connectionSend cmd arr] } ∧
    ((Slave.kill s).dead = true ∧ (Slave.kill s).connection = s.connection) ∧
    ((Slave.hold b url s).dead = true ∧ (Slave.hold b url s).connection.connected = false) ∧
    (s.dead = false → (Slave.timeout b now alive s).dead = true →
      (Slave.timeout b now alive s).connection.connected = false) ∧
    (s.dead = false → (Slave.gotInput b ok s).dead = true →
      (Slave.gotInput b ok s).connection.connected = false) := by
  have h := marked_dead_connection_closed b s url now alive ok
  refine ⟨rfl, ⟨Slave.kill_dead s, ?_⟩, h.1, h.2.1, h.2.2⟩
  unfold Slave.kill
  simp only []
  split <;> rfl

/-- C4 as amended, at a concrete handle: a frame sent after `kill()` is handed
to the connection, which `kill()` left open. -/
theorem C4_send_is_unguarded_witness :
    (Slave.send 7 [] killedHandle).trace = killedHandle.trace ++ [Event.connectionSend 7 []] ∧
    (Slave.kill (Slave.accept waitingHandle)).connection.connected = true :=
  have h := C4_send_is_unguarded exampleBuild (Slave.accept waitingHandle) 7 [] "" 0
    (fun _ => true) true
  ⟨by rw [(C4_send_is_unguarded exampleBuild killedHandle 7 [] "" 0 (fun _ => true) true).1],
   by rw [h.2.1.2]; decide⟩

/-! ## Launching a worker (C5) -/

/-- In direct-spawn mode a successful `createSlave` returns a handle for which
no timer was armed and on which nothing but the constructor and `setPID` ran. -/
theorem createSlave_direct_spawn_no_timer (b : Build) (env : LaunchEnv) (memo : Int)
    (protocol : String) (url : Url) (s : Slave)
    (hf : (forkSlaves b env memo).fork = true)
    (hr : (createSlave b env memo protocol url).result = some (Handle.slave s)) :
    s.timers = [] ∧ s.trace = [] := by
  simp only [createSlave, hf, if_true, Bool.false_eq_true, if_false] at hr
  repeat' split at hr
  all_goals first
    | (simp [createFailed] at hr; done)
    | (simp only [Option.some.injEq, Handle.slave.injEq] at hr
       subst hr
       exact ⟨rfl, rfl⟩)

/-- In session-launcher mode a successful `createSlave` returns a handle with
one timer armed, due `1000 * s_slaveConnectionTimeoutMin` milliseconds after
the call. -/
theorem createSlave_launcher_arms_timer (b : Build) (env : LaunchEnv) (memo : Int)
    (protocol : String) (url : Url) (s : Slave)
    (hf : (forkSlaves b env memo).fork = false)
    (hr : (createSlave b env memo protocol url).result = some (Handle.slave s)) :
    s.timers = [env.now + 2000] ∧
    s.trace = [Event.singleShot (1000 * s_slaveConnectionTimeoutMin)] := by
  simp only [createSlave, hf, if_true, Bool.false_eq_true, if_false] at hr
  repeat' split at hr
  all_goals first
    | (simp [createFailed] at hr; done)
    | (simp only [Option.some.injEq, Handle.slave.injEq] at hr
       subst hr
       exact ⟨rfl, rfl⟩)

/-- C5 evaluated at a failing call.  With `KDE_FORK_SLAVES` set and every
lookup succeeding, `createSlave("file", ...)` returns a handle carrying the
process id 4242 of the spawned worker, and no `timeout()` has been scheduled:
the handle has no pending timer and `QTimer::singleShot` was not called.  The
same call through the session launcher returns a handle with a timer due
after 2000 milliseconds. -/
theorem C5_direct_spawn_schedules_no_timeout :
    (forkSlaves exampleBuild forkEnv (bForkSlavesInit exampleBuild)).fork = true ∧
    (createSlave exampleBuild forkEnv (bForkSlavesInit exampleBuild) "file" tmpUrl).result
      = some (Handle.slave (Slave.setPID 4242 (Slave.new "file" 0 true))) ∧
    (Slave.setPID 4242 (Slave.new "file" 0 true)).m_pid = 4242 ∧
    (Slave.setPID 4242 (Slave.new "file" 0 true)).timers = [] ∧
    (Slave.setPID 4242 (Slave.new "file" 0 true)).trace = [] ∧
    (forkSlaves exampleBuild launcherEnv (bForkSlavesInit exampleBuild)).fork = false ∧
    (createSlave exampleBuild launcherEnv (bForkSlavesInit exampleBuild) "file" tmpUrl).result
      = some (Handle.slave
          (Slave.singleShot 0 2000 (Slave.setPID 4243 (Slave.new "file" 0 true)))) ∧
    (Slave.singleShot 0 2000 (Slave.setPID 4243 (Slave.new "file" 0 true))).timers = [2000] := by
  decide

/-! ## The connection time limit (C6) -/

theorem toInt32_of_range (n : Int) (h0 : 0 ≤ n) (h1 : n < 2147483648) : toInt32 n = n := by
  unfold toInt32
  omega

theorem s_slaveConnectionTimeoutMax_pos (b : Build) :
    s_slaveConnectionTimeoutMax b = 10 ∨ s_slaveConnectionTimeoutMax b = 3600 := by
  unfold s_slaveConnectionTimeoutMax
  split
  · exact Or.inl rfl
  · exact Or.inr rfl

theorem Slave.delta_t_lt_iff (b : Build) (now : Nat) (s : Slave)
    (hr : (now - s.contact_started) / 1000 < 2147483648) :
    Slave.delta_t now s < s_slaveConnectionTimeoutMax b ↔
      ((now - s.contact_started : Nat) : Int) < 1000 * s_slaveConnectionTimeoutMax b := by
  unfold Slave.delta_t
  rw [toInt32_of_range _ (by omega) (by omega)]
  rcases s_slaveConnectionTimeoutMax_pos b with h | h <;> rw [h] <;> omega

/-- C6 refuted at the boundary.  In a release build (`NDEBUG`, limit 10) a
live, unconnected handle whose process 4242 is alive gets `timeout()` exactly
10000 milliseconds after the handshake started: the elapsed time does not
exceed the limit, yet the handle gives up and is dead, and no timer is
re-armed.  The same happens in a debug build at exactly 3600000 milliseconds. -/
theorem C6_gives_up_when_limit_is_reached_not_exceeded :
    waitingHandle.dead = false ∧ waitingHandle.connection.connected = false ∧
    waitingHandle.m_pid ≠ 0 ∧
    ¬ (((10000 - waitingHandle.contact_started : Nat) : Int)
        > 1000 * s_slaveConnectionTimeoutMax exampleBuild) ∧
    Slave.timeout exampleBuild 10000 (fun _ => true) waitingHandle
      = Slave.timeoutGiveUp exampleBuild waitingHandle ∧
    (Slave.timeout exampleBuild 10000 (fun _ => true) waitingHandle).dead = true ∧
    (Slave.timeout exampleBuild 10000 (fun _ => true) waitingHandle).timers = [] ∧
    ¬ (((3600000 - waitingHandle.contact_started : Nat) : Int)
        > 1000 * s_slaveConnectionTimeoutMax debugBuild) ∧
    (Slave.timeout debugBuild 3600000 (fun _ => true) waitingHandle).dead = true := by
  decide

/-- C6 as amended.  When `timeout()` fires on a handle that is not dead, whose
transport is not connected and whose process (pid != 0) is alive, then (the
elapsed whole seconds fitting an `int`): while the elapsed time since the
handshake started is below `s_slaveConnectionTimeoutMax` seconds (10 in an
`NDEBUG` build, 3600 otherwise) it arms one timer of
`s_slaveConnectionTimeoutMin` = 2 seconds and changes nothing else; once the
elapsed time has reached that limit, equality included, it gives up and the
handle is dead. -/
theorem C6_rearm_below_limit_give_up_from_limit (b : Build) (now : Nat) (alive : Int → Bool)
    (s : Slave) (hd : s.dead = false) (hc : s.connection.connected = false)
    (hp : s.m_pid ≠ 0) (ha : alive s.m_pid = true)
    (hr : (now - s.contact_started) / 1000 < 2147483648) :
    s_slaveConnectionTimeoutMin = 2 ∧
    s_slaveConnectionTimeoutMax b = (if b.NDEBUG then 10 else 3600) ∧
    (((now - s.contact_started : Nat) : Int) < 1000 * s_slaveConnectionTimeoutMax b →
      Slave.timeout b now alive s =
        { s with timers := s.timers ++ [now + 2000],
                 trace := s.trace ++ [Event.singleShot 2000] }) ∧
    (1000 * s_slaveConnectionTimeoutMax b ≤ ((now - s.contact_started : Nat) : Int) →
      Slave.timeout b now alive s = Slave.timeoutGiveUp b s ∧
      (Slave.timeout b now alive s).dead = true) := by
  refine ⟨rfl, rfl, ?_, ?_⟩
  · intro hlt
    rw [Slave.timeout_rearm b now alive s hd hc hp ha ((Slave.delta_t_lt_iff b now s hr).mpr hlt)]
    rfl
  · intro hge
    have hnot : ¬ Slave.delta_t now s < s_slaveConnectionTimeoutMax b := by
      rw [Slave.delta_t_lt_iff b now s hr]
      omega
    rw [Slave.timeout_over_limit b now alive s hd hc hnot]
    refine ⟨rfl, ?_⟩
    unfold Slave.timeoutGiveUp
    simp only []
    rw [Slave.deref_dead]
    rfl

/-- C6 as amended, at concrete clock readings: in a release build the handle
re-arms at 9999 milliseconds and gives up at 10000. -/
theorem C6_rearm_below_limit_witness :
    (Slave.timeout exampleBuild 9999 (fun _ => true) waitingHandle).timers = [11999] ∧
    (Slave.timeout exampleBuild 9999 (fun _ => true) waitingHandle).dead = false ∧
    (Slave.timeout exampleBuild 10000 (fun _ => true) waitingHandle).dead = true :=
  have h1 := C6_rearm_below_limit_give_up_from_limit exampleBuild 9999 (fun _ => true)
    waitingHandle (by decide) (by decide) (by decide) rfl (by decide)
  have h2 := C6_rearm_below_limit_give_up_from_limit exampleBuild 10000 (fun _ => true)
    waitingHandle (by decide) (by decide) (by decide) rfl (by decide)
  ⟨by rw [h1.2.2.1 (by decide)]; decide, by rw [h1.2.2.1 (by decide)]; decide,
   (h2.2.2.2 (by decide)).2⟩

/-! ## Liveness supervision (C7) -/

theorem supervise_without_timer (b : Build) (alive : Int → Bool) (ticks : List Nat) :
    ∀ s : Slave, s.timers = [] → supervise b alive ticks s = s := by
  induction ticks with
  | nil => intro s _; rfl
  | cons now ticks ih =>
    intro s h
    simp [supervise, fireTimer, h, ih s h]

/-- No timer of the handle is delivered before it is due. -/
theorem fireTimer_not_before_due (b : Build) (now due : Nat) (alive : Int → Bool) (s : Slave)
    (rest : List Nat) (ht : s.timers = due :: rest) (hlt : now < due) :
    fireTimer b now alive s = none := by
  simp [fireTimer, ht]
  omega

/-- Where a timer is armed (the session-launcher path, `holdSlave`), its
delivery marks a live, unconnected handle without a process dead at once,
whatever time has elapsed. -/
theorem fireTimer_without_process_gives_up (b : Build) (now due : Nat) (alive : Int → Bool)
    (s : Slave) (rest : List Nat) (ht : s.timers = due :: rest) (hdue : due ≤ now)
    (hd : s.dead = false) (hc : s.connection.connected = false) (hp : s.m_pid = 0) :
    ∃ s1, fireTimer b now alive s = some s1 ∧ s1.dead = true := by
  refine ⟨Slave.timeoutGiveUp b { s with timers := rest }, ?_, ?_⟩
  · simp only [fireTimer, ht, hdue, if_true]
    exact congrArg some
      (Slave.timeout_process_gone b now alive { s with timers := rest } hd hc (Or.inl hp))
  · unfold Slave.timeoutGiveUp
    simp only []
    rw [Slave.deref_dead]
    rfl

/-- A handle whose process is alive stays alive, unconnected and with the same
process while timers are delivered before the limit is reached. -/
theorem supervise_alive_process (b : Build) (alive : Int → Bool) (t0 : Nat)
    (ticks : List Nat) :
    ∀ s : Slave, s.dead = false → s.connection.connected = false → s.m_pid ≠ 0 →
      alive s.m_pid = true → s.contact_started = t0 →
      (∀ t ∈ ticks, (t : Int) < t0 + 1000 * s_slaveConnectionTimeoutMax b) →
      (supervise b alive ticks s).dead = false := by
  induction ticks with
  | nil => intro s hd _ _ _ _ _; exact hd
  | cons now ticks ih =>
    intro s hd hc hp ha hs hticks
    have hnow := hticks now (List.mem_cons_self _ _)
    have hrest : ∀ t ∈ ticks, (t : Int) < t0 + 1000 * s_slaveConnectionTimeoutMax b :=
      fun t ht => hticks t (List.mem_cons_of_mem _ ht)
    simp only [supervise]
    cases hf : fireTimer b now alive s with
    | none => exact ih s hd hc hp ha hs hrest
    | some s1 =>
      simp only []
      unfold fireTimer at hf
      split at hf
      · simp at hf
      · rename_i due rest htim
        split at hf
        · simp only [Option.some.injEq] at hf
          have hlt : Slave.delta_t now { s with timers := rest }
              < s_slaveConnectionTimeoutMax b := by
            have hmax := s_slaveConnectionTimeoutMax_pos b
            rw [Slave.delta_t_lt_iff b now _ (by
              show (now - s.contact_started) / 1000 < 2147483648
              rw [hs]
              rcases hmax with h | h <;> rw [h] at hnow <;> omega)]
            show ((now - s.contact_started : Nat) : Int) < _
            rw [hs]
            rcases hmax with h | h <;> rw [h] at hnow ⊢ <;> omega
          have hre := Slave.timeout_rearm b now alive { s with timers := rest } hd hc hp ha hlt
          have hs1 : s1 = Slave.singleShot now (1000 * s_slaveConnectionTimeoutMin)
              { s with timers := rest } := hf.symm.trans hre
          subst hs1
          exact ih _ hd hc hp ha hs hrest
        · simp at hf

theorem supervise_before_due (b : Build) (alive : Int → Bool) (s : Slave) (due : Nat)
    (rest : List Nat) (ht : s.timers = due :: rest) (ticks : List Nat) :
    (∀ t ∈ ticks, t < due) → supervise b alive ticks s = s := by
  induction ticks with
  | nil => intro _; rfl
  | cons now ticks ih =>
    intro h
    simp only [supervise]
    rw [fireTimer_not_before_due b now due alive s rest ht (h now (List.mem_cons_self _ _))]
    exact ih (fun t hmem => h t (List.mem_cons_of_mem _ hmem))

/-- The session-launcher path of `createSlave` leaves the handle armed. -/
theorem createSlave_launcher_result (b : Build) (env : LaunchEnv) (memo : Int)
    (protocol : String) (url : Url) (s : Slave)
    (hf : (forkSlaves b env memo).fork = false)
    (hr : (createSlave b env memo protocol url).result = some (Handle.slave s)) :
    ∃ pid, s = armedHandle protocol env.now pid := by
  by_cases haddr : env.address = ""
  · simp only [createSlave, haddr, if_true] at hr
    split at hr <;> simp [createFailed] at hr
  · have hdec : decide (env.address ≠ "") = true := by simp [haddr]
    simp only [createSlave, hf, hdec, if_true, Bool.false_eq_true, if_false] at hr
    repeat' split at hr
    all_goals first
      | (simp [createFailed] at hr; done)
      | (simp only [Option.some.injEq, Handle.slave.injEq] at hr
         subst hr
         exact ⟨_, rfl⟩)

/-- C7 refuted at concrete runs.  In a build with `KIO_ANDROID_STUB`,
`createSlave` returns a listening handle with pid 0 and the timer armed; the
first delivery, 2000 milliseconds later, marks it dead although the elapsed
time is far below the 10000 milliseconds of `s_slaveConnectionTimeoutMax`:
the marking does not wait for the maximum.  In direct-spawn mode with a failed
start the handle has pid 0 and no timer, and deliveries at 2000, 10000 and
3600000 milliseconds leave it as it was, alive. -/
theorem C7_without_process_dead_at_first_delivery :
    (createSlave stubBuild launcherEnv (bForkSlavesInit stubBuild) "file" tmpUrl).result
      = some (Handle.slave (armedHandle "file" 0 0)) ∧
    (armedHandle "file" 0 0).m_pid = 0 ∧
    (armedHandle "file" 0 0).listening = true ∧
    (armedHandle "file" 0 0).dead = false ∧
    (fireTimer stubBuild 2000 (fun _ => false) (armedHandle "file" 0 0)).map Slave.isAlive
      = some false ∧
    (2000 : Int) < 1000 * s_slaveConnectionTimeoutMax stubBuild ∧
    (createSlave exampleBuild failedSpawnEnv (bForkSlavesInit exampleBuild) "file" tmpUrl).result
      = some (Handle.slave (Slave.new "file" 0 true)) ∧
    (Slave.new "file" 0 true).timers = [] ∧
    supervise exampleBuild (fun _ => false) [2000, 10000, 3600000] (Slave.new "file" 0 true)
      = Slave.new "file" 0 true := by
  decide

/-- C7 as amended, for a handle constructed at clock reading `t0` with a
listening transport, process id `pid` and the timer armed at `t0`, to which no
peer connects.  No `timeout()` is delivered, and the handle is left as it is,
before `s_slaveConnectionTimeoutMin` (2000 milliseconds) have passed.  With
pid 0 the first delivery marks the handle dead whatever time has elapsed, so at
the minimum wait and without regard to `s_slaveConnectionTimeoutMax`.  With a
process that is alive the handle is not marked dead by any deliveries made
before `s_slaveConnectionTimeoutMax` seconds have passed, hence never before
the minimum wait. -/
theorem C7_supervision_of_an_armed_handle (b : Build) (alive : Int → Bool)
    (protocol : String) (t0 : Nat) (pid : Int) :
    (∀ ticks : List Nat, (∀ t ∈ ticks, t < t0 + 2000) →
      supervise b alive ticks (armedHandle protocol t0 pid) = armedHandle protocol t0 pid) ∧
    (pid = 0 → ∀ now, t0 + 2000 ≤ now →
      ∃ s1, fireTimer b now alive (armedHandle protocol t0 pid) = some s1 ∧
        Slave.isAlive s1 = false) ∧
    (pid ≠ 0 → alive pid = true → ∀ ticks : List Nat,
      (∀ t ∈ ticks, (t : Int) < t0 + 1000 * s_slaveConnectionTimeoutMax b) →
      Slave.isAlive (supervise b alive ticks (armedHandle protocol t0 pid)) = true) := by
  refine ⟨?_, ?_, ?_⟩
  · intro ticks h
    exact supervise_before_due b alive _ (t0 + 2000) [] rfl ticks h
  · intro hp now hnow
    obtain ⟨s1, h1, h2⟩ := fireTimer_without_process_gives_up b now (t0 + 2000) alive
      (armedHandle protocol t0 pid) [] rfl hnow rfl rfl hp
    exact ⟨s1, h1, by simp [Slave.isAlive, h2]⟩
  · intro hp ha ticks h
    have := supervise_alive_process b alive t0 ticks (armedHandle protocol t0 pid)
      rfl rfl hp ha rfl h
    simp [Slave.isAlive, this]

/-- C7 as amended, at concrete handles: nothing happens to a handle armed at 0
at the clock readings 500 and 1999; without a process it is dead after the
delivery at 2000; with the live process 4242 it is alive after deliveries at
2000, 4000 and 9999 in a release build. -/
theorem C7_supervision_of_an_armed_handle_witness :
    supervise exampleBuild (fun _ => true) [500, 1999] (armedHandle "file" 0 0)
      = armedHandle "file" 0 0 ∧
    (∃ s1, fireTimer exampleBuild 2000 (fun _ => true) (armedHandle "file" 0 0) = some s1 ∧
      Slave.isAlive s1 = false) ∧
    Slave.isAlive
      (supervise exampleBuild (fun _ => true) [2000, 4000, 9999] (armedHandle "file" 0 4242))
      = true :=
  ⟨(C7_supervision_of_an_armed_handle exampleBuild (fun _ => true) "file" 0 0).1 [500, 1999]
      (by decide),
   (C7_supervision_of_an_armed_handle exampleBuild (fun _ => true) "file" 0 0).2.1 rfl 2000
      (by decide),
   (C7_supervision_of_an_armed_handle exampleBuild (fun _ => true) "file" 0 4242).2.2
      (by decide) rfl [2000, 4000, 9999] (by decide)⟩

/-! ## Order of the death notifications (C8) -/

/-- The events `deref()` adds when it destroys the handle. -/
theorem Slave.deref_trace (s : Slave) :
    (Slave.deref s).trace =
      s.trace ++ Event.deref ::
        (if s.m_refCount - 1 = 0 then
          [Event.connectionDisconnect, Event.disconnectAll, Event.deleteThis]
        else []) := by
  unfold Slave.deref
  simp only []
  split
  · rename_i h
    simp [Slave.log] at h
    simp [Slave.deleteThis, Slave.destroy, Slave.aboutToDelete, Slave.log, h]
  · rename_i h
    simp [Slave.log] at h
    simp [Slave.log, h]

theorem Slave.deref_trace_teardown (s : Slave) :
    (Slave.deref s).trace = s.trace ++ Event.deref :: teardownEvents (s.m_refCount - 1) := by
  rw [Slave.deref_trace]
  rfl

theorem Slave.timeoutGiveUp_trace (b : Build) (s : Slave) :
    (Slave.timeoutGiveUp b s).trace =
      s.trace ++ [Event.connectionClose, Event.setDead, Event.ref,
                  Event.emitError b.ERR_SLAVE_DIED (Slave.diedArg s), Event.emitSlaveDied,
                  Event.deref] ++ teardownEvents s.m_refCount := by
  unfold Slave.timeoutGiveUp
  simp only []
  rw [Slave.deref_trace_teardown]
  simp [Slave.log, Slave.ref, Slave.setDead, Slave.connectionClose, Slave.diedArg]

theorem Slave.gotInput_failed_trace (b : Build) (s : Slave) (hd : s.dead = false) :
    (Slave.gotInput b false s).trace =
      s.trace ++ [Event.ref, Event.dispatch false, Event.connectionClose, Event.setDead,
                  Event.emitError b.ERR_SLAVE_DIED (Slave.diedArg s), Event.emitSlaveDied,
                  Event.deref] ++ teardownEvents s.m_refCount := by
  unfold Slave.gotInput
  simp only [hd, Bool.false_eq_true, if_false, Bool.not_false, if_true]
  rw [Slave.deref_trace_teardown]
  simp [Slave.log, Slave.ref, Slave.setDead, Slave.connectionClose, Slave.diedArg]

theorem Slave.hold_trace (b : Build) (url : String) (s : Slave) :
    (Slave.hold b url s).trace =
      s.trace ++ [Event.ref, Event.connectionSend b.CMD_SLAVE_HOLD [StreamItem.url url],
                  Event.connectionClose, Event.setDead, Event.emitSlaveDied, Event.deref]
        ++ teardownEvents s.m_refCount
        ++ (if b.KIO_ANDROID_STUB then [] else [Event.waitForSlave s.m_pid]) := by
  have hpid : ∀ t : Slave, (Slave.deref t).m_pid = t.m_pid := by
    intro t
    unfold Slave.deref
    simp only []
    split <;> rfl
  unfold Slave.hold
  simp only []
  split
  · rw [Slave.deref_trace_teardown]
    simp [Slave.log, Slave.ref, Slave.setDead, Slave.connectionClose]
  · simp only [Slave.log, hpid]
    rw [Slave.deref_trace_teardown]
    simp [Slave.log, Slave.ref, Slave.setDead, Slave.connectionClose]

/-- C8: in every operation that emits `slaveDied`, the transport is closed and
the dead flag set before the emission, and in `timeout()` and `gotInput()` the
job-facing `error(ERR_SLAVE_DIED, ...)` comes before `slaveDied`, all between
`ref()` and `deref()`.  Whenever `timeout()` or `gotInput()` turns a live
handle dead, and for every call of `hold()`, the call adds to the trace exactly
the listed events in the listed order (followed by the teardown events if the
closing `deref()` drops the count to zero), and leaves the handle dead with its
connection closed. -/
theorem C8_closed_and_dead_before_slaveDied (b : Build) (s : Slave) (now : Nat)
    (alive : Int → Bool) (ok : Bool) (url : String) :
    (s.dead = false → (Slave.timeout b now alive s).dead = true →
      (Slave.timeout b now alive s).trace =
        s.trace ++ [Event.connectionClose, Event.setDead, Event.ref,
                    Event.emitError b.ERR_SLAVE_DIED (Slave.diedArg s), Event.emitSlaveDied,
                    Event.deref] ++ teardownEvents s.m_refCount ∧
      (Slave.timeout b now alive s).connection.connected = false) ∧
    (s.dead = false → (Slave.gotInput b ok s).dead = true →
      (Slave.gotInput b ok s).trace =
        s.trace ++ [Event.ref, Event.dispatch false, Event.connectionClose, Event.setDead,
                    Event.emitError b.ERR_SLAVE_DIED (Slave.diedArg s), Event.emitSlaveDied,
                    Event.deref] ++ teardownEvents s.m_refCount ∧
      (Slave.gotInput b ok s).connection.connected = false) ∧
    ((Slave.hold b url s).trace =
        s.trace ++ [Event.ref, Event.connectionSend b.CMD_SLAVE_HOLD [StreamItem.url url],
                    Event.connectionClose, Event.setDead, Event.emitSlaveDied, Event.deref]
          ++ teardownEvents s.m_refCount
          ++ (if b.KIO_ANDROID_STUB then [] else [Event.waitForSlave s.m_pid]) ∧
      (Slave.hold b url s).dead = true ∧
      (Slave.hold b url s).connection.connected = false) := by
  have h4 := marked_dead_connection_closed b s url now alive ok
  refine ⟨?_, ?_, Slave.hold_trace b url s, h4.1.1, h4.1.2⟩
  · intro hd hdead
    refine ⟨?_, h4.2.1 hd hdead⟩
    rcases Slave.timeout_cases b now alive s with h | h | h
    · rw [h, hd] at hdead; exact absurd hdead (by decide)
    · rw [h] at hdead
      simp [Slave.singleShot, Slave.log, hd] at hdead
    · rw [h]
      exact Slave.timeoutGiveUp_trace b s
  · intro hd hdead
    refine ⟨?_, h4.2.2 hd hdead⟩
    cases ok with
    | true =>
      unfold Slave.gotInput at hdead
      simp only [hd, Bool.false_eq_true, if_false] at hdead
      rw [Slave.deref_dead] at hdead
      simp [Slave.log, Slave.ref, hd] at hdead
    | false => exact Slave.gotInput_failed_trace b s hd

/-- C8 at a concrete handle: a give-up `timeout()` on a handle without a
process. -/
theorem C8_closed_and_dead_before_slaveDied_witness :
    (Slave.timeout exampleBuild 2000 (fun _ => false) (Slave.new "file" 0 true)).trace =
      [Event.connectionClose, Event.setDead, Event.ref,
       Event.emitError exampleBuild.ERR_SLAVE_DIED "file", Event.emitSlaveDied, Event.deref] :=
  ((C8_closed_and_dead_before_slaveDied exampleBuild (Slave.new "file" 0 true) 2000
      (fun _ => false) true "").1 (by decide) (by decide)).1

/-! ## Calls that do nothing (C9) -/

/-- C9: on a handle that is already dead, `timeout()` and `gotInput()` each
return the handle unchanged: no field changes (reference count, pid, dead flag,
connection), and nothing is added to the trace, so `dispatch()` is not called
and neither `error` nor `slaveDied` is emitted.  `timeout()` likewise returns
the handle unchanged when it is alive and its transport is connected. -/
theorem C9_timeout_and_gotInput_do_nothing (b : Build) (s : Slave) (now : Nat)
    (alive : Int → Bool) (ok : Bool) :
    (s.dead = true → Slave.timeout b now alive s = s ∧ Slave.gotInput b ok s = s) ∧
    (s.dead = false → s.connection.connected = true → Slave.timeout b now alive s = s) :=
  ⟨fun h => ⟨Slave.timeout_of_dead b now alive s h, Slave.gotInput_of_dead b ok s h⟩,
   fun _ h => Slave.timeout_of_connected b now alive s h⟩

/-- C9 at concrete handles: a killed handle, and a live connected one. -/
theorem C9_timeout_and_gotInput_do_nothing_witness :
    Slave.timeout exampleBuild 2000 (fun _ => false) killedHandle = killedHandle ∧
    Slave.gotInput exampleBuild false killedHandle = killedHandle ∧
    Slave.timeout exampleBuild 2000 (fun _ => false) (Slave.accept waitingHandle)
      = Slave.accept waitingHandle :=
  ⟨((C9_timeout_and_gotInput_do_nothing exampleBuild killedHandle 2000 (fun _ => false)
      false).1 (by decide)).1,
   ((C9_timeout_and_gotInput_do_nothing exampleBuild killedHandle 2000 (fun _ => false)
      false).1 (by decide)).2,
   (C9_timeout_and_gotInput_do_nothing exampleBuild (Slave.accept waitingHandle) 2000
      (fun _ => false) false).2 (by decide) (by decide)⟩

/-! ## Privilege delegation: confirmation and ownership (C10) -/

theorem actionDetails_ne_testCall (action : ActionType) (args : List QVariant) :
    actionDetails action args ≠ "Test Call" := by
  intro h
  have h2 := congrArg (fun t : String => t.data.head?) h
  simp [actionDetails, String.data_append] at h2

theorem execWithElevatedPrivilege_trace (k : ErrorCodes) (env : FileEnv) (action : ActionType)
    (args : List QVariant) (errcode : Int) :
    (execWithElevatedPrivilege k env action args errcode).trace =
      (if env.metaData "UnitTesting" = "true" then
        [FileEvent.requestPrivilegeOperation "Test Call"]
      else []) := by
  unfold execWithElevatedPrivilege privilegeOperationUnitTestMode
  by_cases hm : env.metaData "UnitTesting" = "true"
  · simp only [hm, if_true]
    split <;> rfl
  · simp [hm]

/-- In the statements that follow the `if (true)` block the confirmation request
is the first thing done for a permission error: it precedes the ownership
check. -/
theorem disabled_statements_ask_before_checking_owner (k : ErrorCodes) (env : FileEnv)
    (action : ActionType) (args : List QVariant) (errcode : Int)
    (h : errcode = EACCES ∨ errcode = EPERM) :
    ∃ rest, (execWithElevatedPrivilegeRest k env action args errcode []).trace =
      FileEvent.requestPrivilegeOperation (actionDetails action args) :: rest := by
  unfold execWithElevatedPrivilegeRest
  simp only [h, not_true_eq_false, if_false, List.nil_append]
  repeat' split
  all_goals exact ⟨_, rfl⟩

/-- C10 refuted at concrete executions.  The acting user (uid 1000) owns the
target of a CHMOD that failed with `EACCES`.  Outside unit-test mode the call
returns `failure(EACCES)` with an empty trace: the ownership check the claim
places before any confirmation request is not performed at all.  In unit-test
mode the confirmation request `Test Call` is issued, again with no ownership
check before it. -/
theorem C10_ownership_check_is_never_performed :
    userIsOwner ownerEnv ActionType.CHMOD
      [QVariant.str "/home/user/notes.txt", QVariant.int 420] = true ∧
    execWithElevatedPrivilege exampleCodes ownerEnv ActionType.CHMOD
      [QVariant.str "/home/user/notes.txt", QVariant.int 420] EACCES
      = { value := PrivilegeOperationReturnValue.failure EACCES, trace := [] } ∧
    ownerCheckFirst
      (execWithElevatedPrivilege exampleCodes ownerEnv ActionType.CHMOD
        [QVariant.str "/home/user/notes.txt", QVariant.int 420] EACCES).trace = false ∧
    userIsOwner unitTestEnv ActionType.CHMOD
      [QVariant.str "/home/user/notes.txt", QVariant.int 420] = true ∧
    (execWithElevatedPrivilege exampleCodes unitTestEnv ActionType.CHMOD
      [QVariant.str "/home/user/notes.txt", QVariant.int 420] EACCES).trace
      = [FileEvent.requestPrivilegeOperation "Test Call"] ∧
    ownerCheckFirst
      (execWithElevatedPrivilege exampleCodes unitTestEnv ActionType.CHMOD
        [QVariant.str "/home/user/notes.txt", QVariant.int 420] EACCES).trace = false := by
  decide

/-- C10 as amended.  On no execution of `execWithElevatedPrivilege`, whether or
not the acting user owns the target path(s), is the confirmation prompt with
the action details issued: the call returns at the unit-test check or at the
unconditional `if (true)` return that follows it, before the confirmation step.  No
ownership check is performed on any execution, and the only confirmation
request that can be issued is the unit-test probe `Test Call`, issued exactly
when the `UnitTesting` metadata is `true`. -/
theorem C10_no_prompt_with_action_details (k : ErrorCodes) (env : FileEnv)
    (action : ActionType) (args : List QVariant) (errcode : Int) :
    FileEvent.requestPrivilegeOperation (actionDetails action args) ∉
      (execWithElevatedPrivilege k env action args errcode).trace ∧
    (∀ e ∈ (execWithElevatedPrivilege k env action args errcode).trace,
      e = FileEvent.requestPrivilegeOperation "Test Call") ∧
    (∀ e ∈ (execWithElevatedPrivilege k env action args errcode).trace,
      e.isOwnerCheck = false) ∧
    ((execWithElevatedPrivilege k env action args errcode).trace ≠ [] ↔
      env.metaData "UnitTesting" = "true") := by
  rw [execWithElevatedPrivilege_trace]
  by_cases hm : env.metaData "UnitTesting" = "true"
  · simp only [hm, if_true, List.mem_singleton]
    refine ⟨?_, fun e he => he, ?_, by simp⟩
    · intro h
      injection h with h
      exact actionDetails_ne_testCall action args h
    · intro e he
      rw [he]
      rfl
  · simp [hm]

/-! ## Privilege delegation: the disabled protocol (C11, C12, C13) -/

theorem execWithElevatedPrivilege_value (k : ErrorCodes) (env : FileEnv) (action : ActionType)
    (args : List QVariant) (errcode : Int) :
    (execWithElevatedPrivilege k env action args errcode).value =
      (if (privilegeOperationUnitTestMode env).1 = true then
        PrivilegeOperationReturnValue.success
      else PrivilegeOperationReturnValue.failure errcode) := by
  unfold execWithElevatedPrivilege
  simp only []
  split
  · rfl
  · rfl

theorem privilegeOperationUnitTestMode_of_no_metadata (env : FileEnv)
    (h : env.metaData "UnitTesting" ≠ "true") : privilegeOperationUnitTestMode env = (false, []) := by
  simp [privilegeOperationUnitTestMode, h]

theorem execWithElevatedPrivilege_of_no_metadata (k : ErrorCodes) (env : FileEnv)
    (action : ActionType) (args : List QVariant) (errcode : Int)
    (h : env.metaData "UnitTesting" ≠ "true") :
    execWithElevatedPrivilege k env action args errcode =
      { value := PrivilegeOperationReturnValue.failure errcode, trace := [] } := by
  simp [execWithElevatedPrivilege, privilegeOperationUnitTestMode, h]

/-- C11 refuted at a concrete execution.  The acting user (uid 1000) owns the
target of a CHMOD that failed with `EACCES`, and both paths of a RENAME that
failed with `EPERM`.  Each call returns the plain `failure(errcode)`, not the
canceled value, and reports nothing: `ERR_PRIVILEGE_NOT_REQUIRED` is not
raised. -/
theorem C11_owner_gets_plain_failure :
    userIsOwner ownerEnv ActionType.CHMOD
      [QVariant.str "/home/user/notes.txt", QVariant.int 420] = true ∧
    execWithElevatedPrivilege exampleCodes ownerEnv ActionType.CHMOD
      [QVariant.str "/home/user/notes.txt", QVariant.int 420] EACCES
      = { value := PrivilegeOperationReturnValue.failure EACCES, trace := [] } ∧
    userIsOwner ownerEnv ActionType.RENAME
      [QVariant.str "/home/user/a", QVariant.str "/home/user/b"] = true ∧
    execWithElevatedPrivilege exampleCodes ownerEnv ActionType.RENAME
      [QVariant.str "/home/user/a", QVariant.str "/home/user/b"] EPERM
      = { value := PrivilegeOperationReturnValue.failure EPERM, trace := [] } ∧
    (PrivilegeOperationReturnValue.failure EACCES).wasCanceled = false := by
  decide

/-- C11 as amended.  When the triggering error is `EACCES` or `EPERM` and the
acting user owns the relevant target (the path itself for CHMOD, CHOWN and
UTIME, its containing directory for every other action, and additionally the
destination for RENAME), `execWithElevatedPrivilege` outside unit-test mode
returns the plain `failure(errcode)`: it reports no error and checks no
ownership, since the unconditional `if (true)` return comes first.  Only in the
statements that follow that return, and only once the confirmation request has
been answered "allowed", is `ERR_PRIVILEGE_NOT_REQUIRED` reported for the
target path and the canceled value returned. -/
theorem C11_owner_outcome_is_disabled (k : ErrorCodes) (env : FileEnv) (action : ActionType)
    (args : List QVariant) (errcode : Int) (hperm : errcode = EACCES ∨ errcode = EPERM)
    (hown : userIsOwner env action args = true) :
    ((privilegeOperationUnitTestMode env).1 = false →
      (execWithElevatedPrivilege k env action args errcode).value
        = PrivilegeOperationReturnValue.failure errcode ∧
      delegatedErrors (execWithElevatedPrivilege k env action args errcode).trace = 0 ∧
      ∀ e ∈ (execWithElevatedPrivilege k env action args errcode).trace,
        e.isOwnerCheck = false) ∧
    (env.requestPrivilegeOperation (actionDetails action args)
        = PrivilegeOperationStatus.OperationAllowed →
      ∀ tr, execWithElevatedPrivilegeRest k env action args errcode tr =
        { value := PrivilegeOperationReturnValue.canceled,
          trace := tr ++ [FileEvent.requestPrivilegeOperation (actionDetails action args)]
            ++ ownerChecks env action args
            ++ [FileEvent.error k.ERR_PRIVILEGE_NOT_REQUIRED (targetPath env action args)] }) ∧
    (targetPath env action args =
      if action = ActionType.CHOWN ∨ action = ActionType.CHMOD ∨ action = ActionType.UTIME then
        (args.headD QVariant.invalid).toString
      else env.parentPath (args.headD QVariant.invalid).toString) := by
  refine ⟨?_, ?_, ?_⟩
  · intro hu
    rw [execWithElevatedPrivilege_value, execWithElevatedPrivilege_trace]
    refine ⟨by simp [hu], ?_, ?_⟩
    · split <;> simp [delegatedErrors]
    · intro e he
      split at he
      · simp only [List.mem_singleton] at he
        rw [he]; rfl
      · simp at he
  · intro hallow tr
    unfold execWithElevatedPrivilegeRest
    simp [hperm, hallow, hown]
  · unfold targetPath
    cases action <;> simp

/-- C11 as amended, at a concrete call: the owner of the file gets the plain
failure for a CHMOD denied with `EACCES`. -/
theorem C11_owner_outcome_is_disabled_witness :
    (execWithElevatedPrivilege exampleCodes ownerEnv ActionType.CHMOD
      [QVariant.str "/home/user/notes.txt", QVariant.int 420] EACCES).value
      = PrivilegeOperationReturnValue.failure EACCES :=
  ((C11_owner_outcome_is_disabled exampleCodes ownerEnv ActionType.CHMOD
      [QVariant.str "/home/user/notes.txt", QVariant.int 420] EACCES (Or.inl rfl)
      (by decide)).1 (by decide)).1

/-- C12 refuted at a concrete execution.  In unit-test mode, a delete that
failed with error 2 (neither `EACCES` nor `EPERM`) makes
`execWithElevatedPrivilege` issue the confirmation request `Test Call` and
return success, not `failure(2)`. -/
theorem C12_unit_test_mode_asks_and_succeeds :
    (2 : Int) ≠ EACCES ∧ (2 : Int) ≠ EPERM ∧
    execWithElevatedPrivilege exampleCodes unitTestEnv ActionType.DEL
      [QVariant.str "/srv/file"] 2
      = { value := PrivilegeOperationReturnValue.success,
          trace := [FileEvent.requestPrivilegeOperation "Test Call"] } := by
  decide

/-- C12 as amended.  For every action kind, every argument list and every
error code other than `EACCES` and `EPERM`: when the `UnitTesting` metadata is
not `true`, `execWithElevatedPrivilege` returns the plain failure carrying that
error code and does nothing else; when it is `true`, it issues the
confirmation request `Test Call` and returns success if that is allowed and the
plain failure carrying the error code otherwise.  The privileged helper is
never invoked, and the statements after the `if (true)` return would send such
an error code back as a plain failure at once. -/
theorem C12_other_errors_fail_plainly (k : ErrorCodes) (env : FileEnv) (action : ActionType)
    (args : List QVariant) (errcode : Int) (h : ¬ (errcode = EACCES ∨ errcode = EPERM)) :
    (env.metaData "UnitTesting" ≠ "true" →
      execWithElevatedPrivilege k env action args errcode =
        { value := PrivilegeOperationReturnValue.failure errcode, trace := [] }) ∧
    (env.metaData "UnitTesting" = "true" →
      execWithElevatedPrivilege k env action args errcode =
        { value :=
            if env.requestPrivilegeOperation "Test Call"
                = PrivilegeOperationStatus.OperationAllowed then
              PrivilegeOperationReturnValue.success
            else PrivilegeOperationReturnValue.failure errcode,
          trace := [FileEvent.requestPrivilegeOperation "Test Call"] }) ∧
    FileEvent.helperExecute action args ∉
      (execWithElevatedPrivilege k env action args errcode).trace ∧
    (∀ tr, execWithElevatedPrivilegeRest k env action args errcode tr =
      { value := PrivilegeOperationReturnValue.failure errcode, trace := tr }) := by
  refine ⟨execWithElevatedPrivilege_of_no_metadata k env action args errcode, ?_, ?_, ?_⟩
  · intro hm
    unfold execWithElevatedPrivilege privilegeOperationUnitTestMode
    simp only [hm, if_true]
    by_cases ha : env.requestPrivilegeOperation "Test Call"
        = PrivilegeOperationStatus.OperationAllowed
    · simp [ha]
    · simp [ha]
  · rw [execWithElevatedPrivilege_trace]
    split <;> simp
  · intro tr
    unfold execWithElevatedPrivilegeRest
    simp [h]

/-- C12 as amended, at a concrete call: a delete that failed with error 2
outside unit-test mode. -/
theorem C12_other_errors_fail_plainly_witness :
    execWithElevatedPrivilege exampleCodes ownerEnv ActionType.DEL [QVariant.str "/srv/file"] 2
      = { value := PrivilegeOperationReturnValue.failure 2, trace := [] } :=
  (C12_other_errors_fail_plainly exampleCodes ownerEnv ActionType.DEL
    [QVariant.str "/srv/file"] 2 (by decide)).1 (by decide)

theorem callElevation_of_canceled (elevation : Elevation) (action : ActionType)
    (args : List QVariant) (errcode : Int) (t : List FileEvent)
    (h : elevation action args errcode
      = { value := PrivilegeOperationReturnValue.canceled, trace := t }) :
    callElevation elevation action args errcode =
      (PrivilegeOperationReturnValue.canceled,
        OpEvent.elevate action args errcode :: t.map OpEvent.delegated) := by
  simp [callElevation, h]

/-! ## Errors raised after a canceled call -/

theorem callElevation_canceled_delegatedCall (elevation : Elevation) (t : List FileEvent)
    (hel : ∀ a as c, elevation a as c
      = { value := PrivilegeOperationReturnValue.canceled, trace := t })
    (action : ActionType) (args : List QVariant) (errcode : Int) :
    callElevation elevation action args errcode =
      (PrivilegeOperationReturnValue.canceled, delegatedCall action args errcode t) := by
  simp [callElevation, delegatedCall, hel]

theorem errorsAfterCall_of_no_error (l : List OpEvent) (h : ∀ e ∈ l, e.isOwnError = false) :
    errorsAfterCall l = [] := by
  induction l with
  | nil => rfl
  | cons e es ih =>
    unfold errorsAfterCall
    split
    · rw [List.filter_eq_nil_iff]
      intro x hx
      simp [h x (List.mem_cons_of_mem _ hx)]
    · exact ih (fun x hx => h x (List.mem_cons_of_mem _ hx))

theorem errorsAfterCall_append_of_no_call (a b : List OpEvent)
    (h : ∀ e ∈ a, e.isCall = false) : errorsAfterCall (a ++ b) = errorsAfterCall b := by
  induction a with
  | nil => rfl
  | cons e es ih =>
    rw [List.cons_append, errorsAfterCall, if_neg (by simp [h e (List.mem_cons_self _ _)])]
    exact ih (fun x hx => h x (List.mem_cons_of_mem _ hx))

theorem delegatedCall_no_error (action : ActionType) (args : List QVariant) (errcode : Int)
    (t : List FileEvent) : ∀ e ∈ delegatedCall action args errcode t, e.isOwnError = false := by
  intro e he
  simp only [delegatedCall, List.mem_cons, List.mem_map] at he
  rcases he with he | ⟨x, _, he⟩
  · rw [he]; rfl
  · rw [← he]; rfl

theorem errorsAfterCall_delegatedCall_append (action : ActionType) (args : List QVariant)
    (errcode : Int) (t : List FileEvent) (rest : List OpEvent) :
    errorsAfterCall (delegatedCall action args errcode t ++ rest) =
      rest.filter OpEvent.isOwnError := by
  have h : (List.map OpEvent.delegated t).filter OpEvent.isOwnError = [] := by
    rw [List.filter_eq_nil_iff]
    intro x hx
    simp only [List.mem_map] at hx
    obtain ⟨y, _, hy⟩ := hx
    simp [← hy, OpEvent.isOwnError]
  simp [delegatedCall, errorsAfterCall, OpEvent.isCall, List.filter_append, h]

theorem delegated_no_call (t : List FileEvent) :
    ∀ e ∈ t.map OpEvent.delegated, e.isCall = false := by
  intro e he
  simp only [List.mem_map] at he
  obtain ⟨x, _, he⟩ := he
  rw [← he]; rfl

/-- The clean-up of `copy` raises no error of its own. -/
theorem copyCleanup_canceled (elevation : Elevation) (t : List FileEvent)
    (hel : ∀ a as c, elevation a as c
      = { value := PrivilegeOperationReturnValue.canceled, trace := t })
    (sys : CopySys) (dest : String) :
    FileProtocol.copyCleanup elevation sys dest = [] ∨
    ∃ e, FileProtocol.copyCleanup elevation sys dest
      = delegatedCall ActionType.DEL [QVariant.str dest] e t := by
  unfold FileProtocol.copyCleanup
  cases sys.removeDest with
  | none => exact Or.inl rfl
  | some e =>
    right
    exact ⟨e, by simp [callElevation_canceled_delegatedCall elevation t hel]⟩

theorem errorsAfterCall_error_cleanup (elevation : Elevation) (t : List FileEvent)
    (hel : ∀ a as c, elevation a as c
      = { value := PrivilegeOperationReturnValue.canceled, trace := t })
    (sys : CopySys) (dest : String) (code : Int) (text : String) :
    errorsAfterCall ([OpEvent.error code text] ++ FileProtocol.copyCleanup elevation sys dest)
      = [] := by
  rw [errorsAfterCall_append_of_no_call _ _ (by simp [OpEvent.isCall])]
  rcases copyCleanup_canceled elevation t hel sys dest with h | ⟨e, h⟩
  · rw [h]; rfl
  · rw [h]
    exact errorsAfterCall_of_no_error _ (delegatedCall_no_error _ _ _ _)

/-- What looking at the destination comes to when every delegated call
returns the canceled value. -/
theorem copyDestination_canceled (k : CopyErrorCodes) (elevation : Elevation)
    (t : List FileEvent)
    (hel : ∀ a as c, elevation a as c
      = { value := PrivilegeOperationReturnValue.canceled, trace := t })
    (sys : CopySys) (dest : String) (overwrite : Bool) :
    (∃ tr, FileProtocol.copyDestination k elevation sys dest overwrite = CopyStep.returned tr ∧
      errorsAfterCall tr = []) ∨
    (∃ target, FileProtocol.copyDestination k elevation sys dest overwrite
      = CopyStep.goesOn target []) := by
  unfold FileProtocol.copyDestination
  cases sys.lstatDest with
  | none => exact Or.inr ⟨_, rfl⟩
  | some d =>
    simp only []
    split
    · exact Or.inl ⟨_, rfl, rfl⟩
    · split
      · exact Or.inl ⟨_, rfl, rfl⟩
      · split
        · split
          · cases sys.removeLink with
            | none => exact Or.inr ⟨_, rfl⟩
            | some e =>
              left
              refine ⟨delegatedCall ActionType.DEL [QVariant.str dest] e t, ?_, ?_⟩
              · simp [callElevation_canceled_delegatedCall elevation t hel,
                  PrivilegeOperationReturnValue.isError, PrivilegeOperationReturnValue.code,
                  PrivilegeOperationReturnValue.wasCanceled, ECANCELED]
              · exact errorsAfterCall_of_no_error _ (delegatedCall_no_error _ _ _ _)
          · split
            · exact Or.inr ⟨_, rfl⟩
            · exact Or.inr ⟨_, rfl⟩
        · exact Or.inl ⟨_, rfl, rfl⟩

/-- What `tryOpen` comes to when every delegated call returns the canceled
value. -/
theorem tryOpenWith_canceled (elevation : Elevation) (t : List FileEvent)
    (hel : ∀ a as c, elevation a as c
      = { value := PrivilegeOperationReturnValue.canceled, trace := t })
    (sys : OpenSys) (path : String) (flags : Nat) (mode : Int) (errcode : Int) :
    FileProtocol.tryOpenWith elevation sys path flags mode errcode =
      if sys.listening then
        (PrivilegeOperationReturnValue.canceled,
          OpEvent.fdReceiver sys.sockPath ::
            delegatedCall ActionType.OPEN
              [QVariant.str path, QVariant.int flags, QVariant.int mode,
               QVariant.str sys.sockPath] errcode t)
      else
        (PrivilegeOperationReturnValue.failure errcode, [OpEvent.fdReceiver sys.sockPath]) := by
  unfold FileProtocol.tryOpenWith
  cases sys.listening <;>
    simp [callElevation_canceled_delegatedCall elevation t hel,
      PrivilegeOperationReturnValue.isError, PrivilegeOperationReturnValue.code, ECANCELED]

theorem filter_isOwnError_delegated (t : List FileEvent) :
    (t.map OpEvent.delegated).filter OpEvent.isOwnError = [] := by
  rw [List.filter_eq_nil_iff]
  intro x hx
  simp only [List.mem_map] at hx
  obtain ⟨y, _, hy⟩ := hx
  simp [← hy, OpEvent.isOwnError]

theorem errorsAfterCall_of_no_call (l : List OpEvent) (h : ∀ e ∈ l, e.isCall = false) :
    errorsAfterCall l = [] := by
  have := errorsAfterCall_append_of_no_call l [] h
  simpa using this

/-- What opening the source comes to when every delegated call returns the
canceled value: a return after the canceled call when the receiver listens,
and the plain failure of `tryOpen` without a call when it does not. -/
theorem copyOpenSource_canceled (k : CopyErrorCodes) (elevation : Elevation)
    (t : List FileEvent)
    (hel : ∀ a as c, elevation a as c
      = { value := PrivilegeOperationReturnValue.canceled, trace := t })
    (sys : CopySys) (src : String) :
    (∃ tr, FileProtocol.copyOpenSource k elevation sys src = CopyStep.returned tr ∧
      errorsAfterCall tr = []) ∨
    (∃ tr, FileProtocol.copyOpenSource k elevation sys src = CopyStep.goesOn () tr ∧
      ∀ e ∈ tr, e.isCall = false) := by
  unfold FileProtocol.copyOpenSource
  cases sys.openSrc with
  | none => exact Or.inr ⟨[], rfl, by simp⟩
  | some e1 =>
    simp only [tryOpenWith_canceled elevation t hel]
    cases sys.srcReceiver.listening with
    | true =>
      left
      refine ⟨OpEvent.fdReceiver sys.srcReceiver.sockPath ::
        delegatedCall ActionType.OPEN
          [QVariant.str src, QVariant.int O_RDONLY, QVariant.int S_IRUSR,
           QVariant.str sys.srcReceiver.sockPath] e1 t, ?_, ?_⟩
      · simp [PrivilegeOperationReturnValue.isError, PrivilegeOperationReturnValue.code,
          PrivilegeOperationReturnValue.wasCanceled, ECANCELED]
      · simp [errorsAfterCall, delegatedCall, OpEvent.isCall, OpEvent.isOwnError,
          List.filter_append, filter_isOwnError_delegated]
    | false =>
      by_cases h0 : e1 = 0
      · right
        refine ⟨[OpEvent.fdReceiver sys.srcReceiver.sockPath], by
          simp [PrivilegeOperationReturnValue.isError, PrivilegeOperationReturnValue.code, h0],
          by simp [OpEvent.isCall]⟩
      · left
        refine ⟨[OpEvent.fdReceiver sys.srcReceiver.sockPath,
          OpEvent.error k.ERR_CANNOT_OPEN_FOR_READING src], ?_, ?_⟩
        · simp [PrivilegeOperationReturnValue.isError, PrivilegeOperationReturnValue.code,
            PrivilegeOperationReturnValue.wasCanceled, h0]
        · simp [errorsAfterCall, OpEvent.isCall]

theorem copyOpenDestination_canceled (k : CopyErrorCodes) (elevation : Elevation)
    (t : List FileEvent)
    (hel : ∀ a as c, elevation a as c
      = { value := PrivilegeOperationReturnValue.canceled, trace := t })
    (sys : CopySys) (dest : String) :
    (∃ tr, FileProtocol.copyOpenDestination k elevation sys dest = CopyStep.returned tr ∧
      errorsAfterCall tr = []) ∨
    (∃ tr, FileProtocol.copyOpenDestination k elevation sys dest = CopyStep.goesOn () tr ∧
      ∀ e ∈ tr, e.isCall = false) := by
  unfold FileProtocol.copyOpenDestination
  cases sys.openDest with
  | none => exact Or.inr ⟨[], rfl, by simp⟩
  | some e1 =>
    simp only [tryOpenWith_canceled elevation t hel]
    cases sys.destReceiver.listening with
    | true =>
      left
      refine ⟨OpEvent.fdReceiver sys.destReceiver.sockPath ::
        delegatedCall ActionType.OPEN
          [QVariant.str dest, QVariant.int ((O_WRONLY ||| O_TRUNC ||| O_CREAT : Nat) : Int),
           QVariant.int ((S_IRUSR ||| S_IWUSR : Nat) : Int),
           QVariant.str sys.destReceiver.sockPath] e1 t, ?_, ?_⟩
      · simp [PrivilegeOperationReturnValue.isError, PrivilegeOperationReturnValue.code,
          PrivilegeOperationReturnValue.wasCanceled, ECANCELED]
      · simp [errorsAfterCall, delegatedCall, OpEvent.isCall, OpEvent.isOwnError,
          List.filter_append, filter_isOwnError_delegated]
    | false =>
      by_cases h0 : e1 = 0
      · right
        refine ⟨[OpEvent.fdReceiver sys.destReceiver.sockPath], by
          simp [PrivilegeOperationReturnValue.isError, PrivilegeOperationReturnValue.code, h0],
          by simp [OpEvent.isCall]⟩
      · by_cases ha : e1 = EACCES
        · left
          refine ⟨[OpEvent.fdReceiver sys.destReceiver.sockPath,
            OpEvent.error k.ERR_WRITE_ACCESS_DENIED dest], ?_, ?_⟩
          · have hE : ¬ (EACCES = 0) := by decide
            simp [PrivilegeOperationReturnValue.isError, PrivilegeOperationReturnValue.code,
              PrivilegeOperationReturnValue.wasCanceled, ha, hE]
          · simp [errorsAfterCall, OpEvent.isCall]
        · left
          refine ⟨[OpEvent.fdReceiver sys.destReceiver.sockPath,
            OpEvent.error k.ERR_CANNOT_OPEN_FOR_WRITING dest], ?_, ?_⟩
          · simp [PrivilegeOperationReturnValue.isError, PrivilegeOperationReturnValue.code,
              PrivilegeOperationReturnValue.wasCanceled, h0, ha]
          · simp [errorsAfterCall, OpEvent.isCall]

/-- What the transfer loop comes to when every delegated call returns the
canceled value: a `return` inside the loop raised its error before the call of
the clean-up. -/
theorem copyLoop_canceled (k : CopyErrorCodes) (elevation : Elevation) (t : List FileEvent)
    (hel : ∀ a as c, elevation a as c
      = { value := PrivilegeOperationReturnValue.canceled, trace := t })
    (sys : CopySys) (src dest : String) (backup : Bool) (its : List CopyIteration) :
    ∀ (use_sendfile attempted : Bool) (tr : List OpEvent),
      FileProtocol.copyLoop k elevation sys src dest backup its use_sendfile attempted
        = some (CopyLoopEnd.returned tr) →
      errorsAfterCall tr = [] := by
  induction its with
  | nil => intro u a tr h; simp [FileProtocol.copyLoop] at h
  | cons it rest ih =>
    intro u a tr h
    unfold FileProtocol.copyLoop at h
    simp only [] at h
    repeat' split at h
    all_goals first
      | exact ih _ _ _ h
      | (simp only [Option.some.injEq, CopyLoopEnd.returned.injEq] at h
         rw [← h]
         exact errorsAfterCall_error_cleanup elevation t hel sys dest _ _)
      | (simp at h)

/-- What the statements after the loop come to when every delegated call
returns the canceled value: no error of `copy` follows a call, except the
`error(ERR_USER_CANCELED, dest)` raised when the worker was killed. -/
theorem copyFinish_canceled (k : CopyErrorCodes) (elevation : Elevation) (t : List FileEvent)
    (hel : ∀ a as c, elevation a as c
      = { value := PrivilegeOperationReturnValue.canceled, trace := t })
    (sys : CopySys) (dest : String) (_mode : Int) :
    errorsAfterCall (FileProtocol.copyFinish k elevation sys dest _mode) = [] ∨
    (sys.wasKilledAtEnd = true ∧
      errorsAfterCall (FileProtocol.copyFinish k elevation sys dest _mode)
        = [OpEvent.error k.ERR_USER_CANCELED dest]) := by
  unfold FileProtocol.copyFinish
  cases hk : sys.wasKilledAtEnd with
  | true =>
    simp only [if_true]
    rcases copyCleanup_canceled elevation t hel sys dest with h | ⟨e, h⟩
    · left
      rw [h]
      simp [errorsAfterCall, OpEvent.isCall]
    · right
      rw [h, errorsAfterCall_delegatedCall_append]
      exact ⟨trivial, rfl⟩
  | false =>
    left
    simp only [Bool.false_eq_true, if_false]
    split
    · exact errorsAfterCall_error_cleanup elevation t hel sys dest _ _
    · apply errorsAfterCall_of_no_error
      intro e he
      have hattr : ∀ (a : ActionType) (as : List QVariant) (c : Int),
          ∀ x ∈ (FileProtocol.tryChangeFileAttrWith elevation sys.authorized a as c).2,
            x.isOwnError = false := by
        intro a as c x hx
        unfold FileProtocol.tryChangeFileAttrWith at hx
        split at hx
        · rw [callElevation_canceled_delegatedCall elevation t hel] at hx
          exact delegatedCall_no_error _ _ _ _ x hx
        · simp at hx
      simp only [List.mem_append, List.mem_singleton] at he
      rcases he with ((he | he) | he) | he
      · split at he
        · split at he
          · exact hattr _ _ _ e he
          · simp at he
        · simp at he
      · split at he
        · exact hattr _ _ _ e he
        · simp at he
      · split at he
        · exact hattr _ _ _ e he
        · simp at he
      · rw [he]; rfl

theorem errorsAfterCall_probe_append (probe : List FileEvent) (tr : List OpEvent) :
    errorsAfterCall (probe.map OpEvent.delegated ++ tr) = errorsAfterCall tr :=
  errorsAfterCall_append_of_no_call _ _ (delegated_no_call probe)

/-- No error of `copy` follows a canceled call: when every delegated call
returns the canceled value, every run of `copy` that returns has raised no
error of its own after its first delegated call, except the
`error(ERR_USER_CANCELED, ...)` on the file written to, raised when the worker
was killed during the transfer. -/
theorem copyWith_canceled (k : CopyErrorCodes) (unitTestMode : Bool × List FileEvent)
    (elevation : Elevation) (t : List FileEvent)
    (hel : ∀ a as c, elevation a as c
      = { value := PrivilegeOperationReturnValue.canceled, trace := t })
    (haveSendfile : Bool) (sys : CopySys) (src dest : String) (_mode : Int) (overwrite : Bool)
    (r : List OpEvent)
    (hr : FileProtocol.copyWith k unitTestMode elevation haveSendfile sys src dest _mode overwrite
      = some r) :
    errorsAfterCall r = [] ∨
    (sys.wasKilledAtEnd = true ∧
      ∃ target, errorsAfterCall r = [OpEvent.error k.ERR_USER_CANCELED target]) := by
  unfold FileProtocol.copyWith at hr
  simp only [] at hr
  split at hr
  · simp only [Option.some.injEq] at hr
    left
    rw [← hr, errorsAfterCall_probe_append]
    rfl
  · split at hr
    · left
      split at hr <;>
        (simp only [Option.some.injEq] at hr
         rw [← hr, errorsAfterCall_probe_append]
         rfl)
    · split at hr
      · left
        simp only [Option.some.injEq] at hr
        rw [← hr, errorsAfterCall_probe_append]
        rfl
      · split at hr
        · left
          simp only [Option.some.injEq] at hr
          rw [← hr, errorsAfterCall_probe_append]
          rfl
        · rcases copyDestination_canceled k elevation t hel sys dest overwrite with
            ⟨tr, hd, hde⟩ | ⟨target, hd⟩
          · left
            rw [hd] at hr
            simp only [Option.some.injEq] at hr
            rw [← hr, errorsAfterCall_probe_append]
            exact hde
          · rw [hd] at hr
            simp only [List.append_nil] at hr
            rcases copyOpenSource_canceled k elevation t hel sys src with
              ⟨tr, hs, hse⟩ | ⟨tr2, hs, hs2⟩
            · left
              rw [hs] at hr
              simp only [Option.some.injEq] at hr
              rw [← hr, errorsAfterCall_probe_append]
              exact hse
            · rw [hs] at hr
              simp only [] at hr
              rcases copyOpenDestination_canceled k elevation t hel sys target.1 with
                ⟨tr, ho, hoe⟩ | ⟨tr3, ho, ho3⟩
              · left
                rw [ho] at hr
                simp only [Option.some.injEq] at hr
                rw [← hr, List.append_assoc, errorsAfterCall_probe_append,
                  errorsAfterCall_append_of_no_call _ _ hs2]
                exact hoe
              · rw [ho] at hr
                simp only [] at hr
                split at hr
                · simp at hr
                · rename_i tr hl
                  left
                  simp only [Option.some.injEq] at hr
                  rw [← hr, List.append_assoc, List.append_assoc, errorsAfterCall_probe_append,
                    errorsAfterCall_append_of_no_call _ _ hs2,
                    errorsAfterCall_append_of_no_call _ _ ho3]
                  exact copyLoop_canceled k elevation t hel sys src target.1 target.2
                    sys.iterations _ _ tr hl
                · simp only [Option.some.injEq] at hr
                  have hf := copyFinish_canceled k elevation t hel sys target.1 _mode
                  have he : errorsAfterCall r =
                      errorsAfterCall (FileProtocol.copyFinish k elevation sys target.1 _mode) := by
                    rw [← hr, List.append_assoc, List.append_assoc,
                      errorsAfterCall_probe_append, errorsAfterCall_append_of_no_call _ _ hs2,
                      errorsAfterCall_append_of_no_call _ _ ho3]
                  rw [he]
                  rcases hf with hf | ⟨hk, hf⟩
                  · exact Or.inl hf
                  · exact Or.inr ⟨hk, target.1, hf⟩

/-- C13 refuted at concrete executions.  In the statements that make up the
confirmation step, a delete denied with `EACCES` whose confirmation request is
answered "canceled" returns the canceled value, and `execWithElevatedPrivilege`
itself has raised `error(ERR_USER_CANCELED, "")`.  On the executions that can
take place, the one request that can be answered is the probe `Test Call`: when
it is answered "canceled", `execWithElevatedPrivilege` returns
`failure(EACCES)`, with `wasCanceled()` false, and `del` raises
`ERR_ACCESS_DENIED`. -/
theorem C13_canceled_confirmation_raises_an_error :
    cancelEnv.requestPrivilegeOperation
        (actionDetails ActionType.DEL [QVariant.str "/etc/motd"])
      = PrivilegeOperationStatus.OperationCanceled ∧
    execWithElevatedPrivilegeRest exampleCodes cancelEnv ActionType.DEL
        [QVariant.str "/etc/motd"] EACCES []
      = { value := PrivilegeOperationReturnValue.canceled,
          trace := [FileEvent.requestPrivilegeOperation
                      (actionDetails ActionType.DEL [QVariant.str "/etc/motd"]),
                    FileEvent.error exampleCodes.ERR_USER_CANCELED ""] } ∧
    refusedTestEnv.requestPrivilegeOperation "Test Call"
      = PrivilegeOperationStatus.OperationCanceled ∧
    execWithElevatedPrivilege exampleCodes refusedTestEnv ActionType.DEL
        [QVariant.str "/etc/motd"] EACCES
      = { value := PrivilegeOperationReturnValue.failure EACCES,
          trace := [FileEvent.requestPrivilegeOperation "Test Call"] } ∧
    (PrivilegeOperationReturnValue.failure EACCES).wasCanceled = false ∧
    FileProtocol.del exampleFileCodes refusedTestEnv
        { unlink := some EACCES, deleteRecursive := (true, []), rmdir := none } "/etc/motd" true
      = [OpEvent.elevate ActionType.DEL [QVariant.str "/etc/motd"] EACCES,
         OpEvent.delegated (FileEvent.requestPrivilegeOperation "Test Call"),
         OpEvent.error exampleFileCodes.ERR_ACCESS_DENIED "/etc/motd"] := by
  decide

/-- C13 as amended.  When the confirmation step answers "canceled" (for a
permission error, in the statements that follow the `if (true)` return),
`execWithElevatedPrivilege` returns the canceled value (`wasCanceled()` true,
different from success and from every failure) after raising
`error(ERR_USER_CANCELED, "")` itself.  The calling operation raises no error
of its own for it: `rename`, `del`, `chown`, `symlink` and `copy`, when a call
whose result they test returns the canceled value, return at once and add
neither an error nor `finished()`; the calls `copy` tests are the removal of a
symlink destination and the opening of the source and of the destination, and
after its other calls, too, no error of `copy` follows a canceled call, except
the `error(ERR_USER_CANCELED, ...)` raised when the worker was killed during
the transfer.  The confirmation step is not reached on any execution: outside
unit-test mode `execWithElevatedPrivilege` returns the plain
`failure(errcode)`, with `wasCanceled()` false, whatever the confirmation would
answer; and when the probe `Test Call` is answered "canceled" it returns
`failure(errcode)` as well. -/
theorem C13_canceled_outcome (k : FileErrorCodes) (env : FileEnv) (action : ActionType)
    (args : List QVariant) (errcode : Int) :
    ((privilegeOperationUnitTestMode env).1 = false →
      (execWithElevatedPrivilege k.toErrorCodes env action args errcode).value
        = PrivilegeOperationReturnValue.failure errcode ∧
      (execWithElevatedPrivilege k.toErrorCodes env action args errcode).value.wasCanceled
        = false) ∧
    ((errcode = EACCES ∨ errcode = EPERM) →
      env.requestPrivilegeOperation (actionDetails action args)
        = PrivilegeOperationStatus.OperationCanceled →
      ∀ tr, execWithElevatedPrivilegeRest k.toErrorCodes env action args errcode tr =
        { value := PrivilegeOperationReturnValue.canceled,
          trace := tr ++ [FileEvent.requestPrivilegeOperation (actionDetails action args),
                          FileEvent.error k.ERR_USER_CANCELED ""] }) ∧
    (PrivilegeOperationReturnValue.canceled.wasCanceled = true ∧
      PrivilegeOperationReturnValue.canceled ≠ PrivilegeOperationReturnValue.success ∧
      ∀ e, PrivilegeOperationReturnValue.canceled ≠ PrivilegeOperationReturnValue.failure e) ∧
    (∀ (elevation : Elevation) (t : List FileEvent) (e : Int) (src dest path owner group : String)
        (rsys : RenameSys) (dsys : DelSys) (csys : ChownSys) (uid gid : Int),
      (∀ a as c, elevation a as c
        = { value := PrivilegeOperationReturnValue.canceled, trace := t }) →
      (rsys.rename = some e →
        FileProtocol.renameCall k elevation rsys src dest =
          OpEvent.elevate ActionType.RENAME [QVariant.str src, QVariant.str dest] e
            :: t.map OpEvent.delegated) ∧
      (dsys.unlink = some e →
        FileProtocol.delWith k elevation dsys false path true =
          OpEvent.elevate ActionType.DEL [QVariant.str path] e :: t.map OpEvent.delegated) ∧
      (dsys.rmdir = some e →
        FileProtocol.delWith k elevation dsys false path false =
          OpEvent.elevate ActionType.RMDIR [QVariant.str path] e :: t.map OpEvent.delegated) ∧
      (csys.getpwnam = some uid → csys.getgrnam = some gid → csys.chown = some e →
        FileProtocol.chownWith k elevation csys path owner group =
          OpEvent.elevate ActionType.CHOWN
            [QVariant.str path, QVariant.int uid, QVariant.int gid] e
            :: t.map OpEvent.delegated)) ∧
    (env.metaData "UnitTesting" = "true" →
      env.requestPrivilegeOperation "Test Call" = PrivilegeOperationStatus.OperationCanceled →
      execWithElevatedPrivilege k.toErrorCodes env action args errcode =
        { value := PrivilegeOperationReturnValue.failure errcode,
          trace := [FileEvent.requestPrivilegeOperation "Test Call"] }) ∧
    (∀ (ks : SymlinkErrorCodes) (elevation : Elevation) (t : List FileEvent) (e : Int)
        (sys : Nat → SymlinkAttempt) (target dest : String) (overwrite : Bool) (fuel n : Nat),
      (∀ a as c, elevation a as c
        = { value := PrivilegeOperationReturnValue.canceled, trace := t }) →
      ((sys n).symlink = some EEXIST → overwrite = true → (sys n).unlink = some e →
        FileProtocol.symlinkWith ks elevation sys target dest overwrite (fuel + 1) n =
          some (OpEvent.elevate ActionType.DEL [QVariant.str dest] e
            :: t.map OpEvent.delegated)) ∧
      ((sys n).symlink = some e → e ≠ EEXIST →
        FileProtocol.symlinkWith ks elevation sys target dest overwrite (fuel + 1) n =
          some (OpEvent.elevate ActionType.SYMLINK [QVariant.str dest, QVariant.str target] e
            :: t.map OpEvent.delegated))) ∧
    (∀ (kc : CopyErrorCodes) (unitTestMode : Bool × List FileEvent) (elevation : Elevation)
        (t : List FileEvent) (e : Int) (haveSendfile : Bool) (sys : CopySys)
        (src dest : String) (_mode : Int) (overwrite : Bool) (d : CopyDestStat),
      (∀ a as c, elevation a as c
        = { value := PrivilegeOperationReturnValue.canceled, trace := t }) →
      (sys.lstatDest = some d → d.sameInode = false → d.kind = FileKind.lnk →
        sys.removeLink = some e →
        FileProtocol.copyDestination kc elevation sys dest true =
          CopyStep.returned (OpEvent.elevate ActionType.DEL [QVariant.str dest] e
            :: t.map OpEvent.delegated)) ∧
      (sys.openSrc = some e → sys.srcReceiver.listening = true →
        FileProtocol.copyOpenSource kc elevation sys src =
          CopyStep.returned (OpEvent.fdReceiver sys.srcReceiver.sockPath ::
            OpEvent.elevate ActionType.OPEN
              [QVariant.str src, QVariant.int O_RDONLY, QVariant.int S_IRUSR,
               QVariant.str sys.srcReceiver.sockPath] e
            :: t.map OpEvent.delegated)) ∧
      (sys.openDest = some e → sys.destReceiver.listening = true →
        FileProtocol.copyOpenDestination kc elevation sys dest =
          CopyStep.returned (OpEvent.fdReceiver sys.destReceiver.sockPath ::
            OpEvent.elevate ActionType.OPEN
              [QVariant.str dest, QVariant.int ((O_WRONLY ||| O_TRUNC ||| O_CREAT : Nat) : Int),
               QVariant.int ((S_IRUSR ||| S_IWUSR : Nat) : Int),
               QVariant.str sys.destReceiver.sockPath] e
            :: t.map OpEvent.delegated)) ∧
      (∀ r, FileProtocol.copyWith kc unitTestMode elevation haveSendfile sys src dest _mode
          overwrite = some r →
        errorsAfterCall r = [] ∨
        (sys.wasKilledAtEnd = true ∧
          ∃ written, errorsAfterCall r = [OpEvent.error kc.ERR_USER_CANCELED written]))) := by
  refine ⟨?_, ?_, ⟨rfl, by decide, fun e => by simp⟩, ?_, ?_, ?_, ?_⟩
  · intro hu
    rw [execWithElevatedPrivilege_value]
    simp [hu, PrivilegeOperationReturnValue.wasCanceled]
  · intro hperm hans tr
    unfold execWithElevatedPrivilegeRest
    simp [hperm, hans]
  · intro elevation t e src dest path owner group rsys dsys csys uid gid hel
    have hc : ∀ a as c, callElevation elevation a as c =
        (PrivilegeOperationReturnValue.canceled,
          OpEvent.elevate a as c :: t.map OpEvent.delegated) :=
      fun a as c => callElevation_of_canceled elevation a as c t (hel a as c)
    refine ⟨?_, ?_, ?_, ?_⟩
    · intro h
      simp [FileProtocol.renameCall, h, hc, PrivilegeOperationReturnValue.isError,
        PrivilegeOperationReturnValue.code, PrivilegeOperationReturnValue.wasCanceled, ECANCELED]
    · intro h
      simp [FileProtocol.delWith, h, hc, PrivilegeOperationReturnValue.isError,
        PrivilegeOperationReturnValue.code, PrivilegeOperationReturnValue.wasCanceled, ECANCELED]
    · intro h
      simp [FileProtocol.delWith, h, hc, PrivilegeOperationReturnValue.isError,
        PrivilegeOperationReturnValue.code, PrivilegeOperationReturnValue.wasCanceled, ECANCELED]
    · intro h1 h2 h3
      simp [FileProtocol.chownWith, h1, h2, h3, hc, PrivilegeOperationReturnValue.isError,
        PrivilegeOperationReturnValue.code, PrivilegeOperationReturnValue.wasCanceled, ECANCELED]
  · intro hm hans
    simp [execWithElevatedPrivilege, privilegeOperationUnitTestMode, hm, hans]
  · intro ks elevation t e sys target dest overwrite fuel n hel
    have hc : ∀ a as c, callElevation elevation a as c =
        (PrivilegeOperationReturnValue.canceled,
          OpEvent.elevate a as c :: t.map OpEvent.delegated) :=
      fun a as c => callElevation_of_canceled elevation a as c t (hel a as c)
    refine ⟨?_, ?_⟩
    · intro h1 h2 h3
      rw [FileProtocol.symlinkWith]
      simp [h1, h2, h3, hc, PrivilegeOperationReturnValue.isError,
        PrivilegeOperationReturnValue.code, PrivilegeOperationReturnValue.wasCanceled, ECANCELED]
    · intro h1 h2
      rw [FileProtocol.symlinkWith]
      simp [h1, h2, hc, PrivilegeOperationReturnValue.isError,
        PrivilegeOperationReturnValue.code, PrivilegeOperationReturnValue.wasCanceled, ECANCELED]
  · intro kc unitTestMode elevation t e haveSendfile sys src dest _mode overwrite d hel
    have hc := callElevation_canceled_delegatedCall elevation t hel
    refine ⟨?_, ?_, ?_, ?_⟩
    · intro h1 h2 h3 h4
      simp [FileProtocol.copyDestination, h1, h2, h3, h4, hc, delegatedCall,
        PrivilegeOperationReturnValue.isError, PrivilegeOperationReturnValue.code,
        PrivilegeOperationReturnValue.wasCanceled, ECANCELED]
    · intro h1 h2
      simp [FileProtocol.copyOpenSource, h1, h2, tryOpenWith_canceled elevation t hel,
        delegatedCall, PrivilegeOperationReturnValue.isError,
        PrivilegeOperationReturnValue.code, PrivilegeOperationReturnValue.wasCanceled, ECANCELED]
    · intro h1 h2
      simp [FileProtocol.copyOpenDestination, h1, h2, tryOpenWith_canceled elevation t hel,
        delegatedCall, PrivilegeOperationReturnValue.isError,
        PrivilegeOperationReturnValue.code, PrivilegeOperationReturnValue.wasCanceled, ECANCELED]
    · intro r hr
      exact copyWith_canceled kc unitTestMode elevation t hel haveSendfile sys src dest _mode
        overwrite r hr

/-- C13 as amended, at concrete calls: outside unit-test mode the delete gets
a failure that was not canceled although every request would be canceled; and
with a delegation that answers every call with the canceled value, `symlink`
on an existing destination that cannot be unlinked returns after the call,
adding nothing. -/
theorem C13_canceled_outcome_witness :
    (execWithElevatedPrivilege exampleCodes cancelEnv ActionType.DEL [QVariant.str "/etc/motd"]
      EACCES).value.wasCanceled = false ∧
    FileProtocol.symlinkWith exampleSymlinkCodes
        (fun _ _ _ => { value := PrivilegeOperationReturnValue.canceled, trace := [] })
        protectedDest "/srv/target" "/srv/locked/link" true 1 0
      = some [OpEvent.elevate ActionType.DEL [QVariant.str "/srv/locked/link"] EACCES] :=
  have h := C13_canceled_outcome exampleFileCodes cancelEnv ActionType.DEL
    [QVariant.str "/etc/motd"] EACCES
  ⟨(h.1 (by decide)).2,
   (h.2.2.2.2.2.1 exampleSymlinkCodes
      (fun _ _ _ => { value := PrivilegeOperationReturnValue.canceled, trace := [] }) [] EACCES
      protectedDest "/srv/target" "/srv/locked/link" true 0 0 (fun _ _ _ => rfl)).1 rfl rfl rfl⟩

/-! ## One terminal signal per operation (C14) -/

theorem terminalSignals_delegated (t : List FileEvent) :
    terminalSignals (t.map OpEvent.delegated) = delegatedErrors t := by
  induction t with
  | nil => rfl
  | cons e t ih =>
    unfold terminalSignals delegatedErrors at ih ⊢
    cases e <;> simp [List.countP_cons, OpEvent.isTerminal, ih]

theorem terminalSignals_append (a c : List OpEvent) :
    terminalSignals (a ++ c) = terminalSignals a + terminalSignals c := by
  simp [terminalSignals, List.countP_append]

theorem callElevation_signals (elevation : Elevation) (hc : ReportsOnlyWhenCanceled elevation)
    (action : ActionType) (args : List QVariant) (errcode : Int) :
    terminalSignals (callElevation elevation action args errcode).2 =
      if (callElevation elevation action args errcode).1 = PrivilegeOperationReturnValue.canceled
      then 1 else 0 := by
  have h := hc action args errcode
  simp only [callElevation]
  rw [show terminalSignals (OpEvent.elevate action args errcode
      :: List.map OpEvent.delegated (elevation action args errcode).trace)
      = terminalSignals (List.map OpEvent.delegated (elevation action args errcode).trace) from by
        simp [terminalSignals, List.countP_cons, OpEvent.isTerminal]]
  rw [terminalSignals_delegated, h]

/-- The real `execWithElevatedPrivilege` reports no error of its own and never
returns the canceled value. -/
theorem execWithElevatedPrivilege_reportsOnlyWhenCanceled (k : ErrorCodes) (env : FileEnv) :
    ReportsOnlyWhenCanceled (execWithElevatedPrivilege k env) := by
  intro action args errcode
  rw [execWithElevatedPrivilege_value, execWithElevatedPrivilege_trace]
  have hv : ∀ (c : Prop) [Decidable c],
      (if c then PrivilegeOperationReturnValue.success
        else PrivilegeOperationReturnValue.failure errcode)
      ≠ PrivilegeOperationReturnValue.canceled := by
    intro c _
    split <;> simp
  rw [if_neg (hv _)]
  split <;> simp [delegatedErrors]

theorem terminalSignals_error (c : Int) (t : String) :
    terminalSignals [OpEvent.error c t] = 1 := rfl

theorem terminalSignals_finished : terminalSignals [OpEvent.finished] = 1 := rfl

/-- The shape shared by the delegating branches: the caller reports an error
of its own exactly for a failure, calls `finished()` exactly when the call
returned no error, and adds nothing for the canceled value. -/
theorem delegating_branch_signals (r : PrivilegeOperationReturnValue × List OpEvent)
    (hs : terminalSignals r.2 =
      if r.1 = PrivilegeOperationReturnValue.canceled then 1 else 0)
    (onFailure : List OpEvent) (hf : terminalSignals onFailure = terminalSignals r.2 + 1) :
    terminalSignals
      (if r.1.isError = true then
        if (!r.1.wasCanceled) = true then onFailure else r.2
      else r.2 ++ [OpEvent.finished]) = 1 := by
  obtain ⟨v, t⟩ := r
  cases v with
  | success =>
    have hs0 : terminalSignals t = 0 := by simpa using hs
    simp [PrivilegeOperationReturnValue.isError, PrivilegeOperationReturnValue.code,
      terminalSignals_append, hs0, terminalSignals_finished]
  | canceled =>
    have hs1 : terminalSignals t = 1 := by simpa using hs
    simp [PrivilegeOperationReturnValue.isError, PrivilegeOperationReturnValue.code,
      PrivilegeOperationReturnValue.wasCanceled, ECANCELED, hs1]
  | failure c =>
    have hs0 : terminalSignals t = 0 := by simpa using hs
    simp only [hs0] at hf
    by_cases h0 : c = 0
    · simp [PrivilegeOperationReturnValue.isError, PrivilegeOperationReturnValue.code, h0,
        terminalSignals_append, hs0, terminalSignals_finished]
    · simp [PrivilegeOperationReturnValue.isError, PrivilegeOperationReturnValue.code, h0,
        PrivilegeOperationReturnValue.wasCanceled, hf]

theorem renameCall_one_terminal_signal (k : FileErrorCodes) (elevation : Elevation)
    (hc : ReportsOnlyWhenCanceled elevation) (sys : RenameSys) (src dest : String) :
    terminalSignals (FileProtocol.renameCall k elevation sys src dest) = 1 := by
  unfold FileProtocol.renameCall
  cases hr : sys.rename with
  | none => rfl
  | some e =>
    simp only []
    have hs := callElevation_signals elevation hc ActionType.RENAME
      [QVariant.str src, QVariant.str dest] e
    apply delegating_branch_signals _ hs
    repeat' split
    all_goals simp [terminalSignals_append, terminalSignals_error]

/-- For every outcome of the system calls and every outcome of the delegated
call, `rename` emits exactly one terminal signal. -/
theorem rename_one_terminal_signal (k : FileErrorCodes) (elevation : Elevation)
    (hc : ReportsOnlyWhenCanceled elevation) (sys : RenameSys) (src dest : String)
    (overwrite : Bool) :
    terminalSignals (FileProtocol.renameWith k elevation sys src dest overwrite) = 1 := by
  unfold FileProtocol.renameWith
  have h := renameCall_one_terminal_signal k elevation hc sys src dest
  repeat' split
  all_goals first
    | exact h
    | exact terminalSignals_error _ _

/-- For every outcome of the system calls and every outcome of the delegated
call, `del` emits exactly one terminal signal, `deleteRecursive` emitting one
when it fails and none when it succeeds. -/
theorem del_one_terminal_signal (k : FileErrorCodes) (elevation : Elevation)
    (hc : ReportsOnlyWhenCanceled elevation) (sys : DelSys) (recurse : Bool) (path : String)
    (isfile : Bool)
    (hrec : terminalSignals sys.deleteRecursive.2 = if sys.deleteRecursive.1 then 0 else 1) :
    terminalSignals (FileProtocol.delWith k elevation sys recurse path isfile) = 1 := by
  unfold FileProtocol.delWith
  cases isfile with
  | true =>
    simp only [if_true]
    cases hr : sys.unlink with
    | none => rfl
    | some e =>
      simp only []
      have hs := callElevation_signals elevation hc ActionType.DEL [QVariant.str path] e
      apply delegating_branch_signals _ hs
      repeat' split
      all_goals simp [terminalSignals_append, terminalSignals_error]
  | false =>
    simp only [Bool.false_eq_true, if_false]
    have hdr : terminalSignals (OpEvent.deleteRecursive path :: sys.deleteRecursive.2)
        = terminalSignals sys.deleteRecursive.2 := by
      simp [terminalSignals, List.countP_cons, OpEvent.isTerminal]
    by_cases hstop : recurse = true ∧ sys.deleteRecursive.1 = false
    · simp only [hstop, and_self, if_true]
      rw [hdr, hrec, hstop.2]
      rfl
    · simp only [hstop, if_false]
      have hp0 : terminalSignals
          (if recurse = true then OpEvent.deleteRecursive path :: sys.deleteRecursive.2 else [])
          = 0 := by
        cases hrc : recurse with
        | false => rfl
        | true =>
          simp only [if_true]
          rw [hdr, hrec]
          cases hok : sys.deleteRecursive.1 with
          | true => rfl
          | false => exact absurd ⟨hrc, hok⟩ hstop
      generalize (if recurse = true then OpEvent.deleteRecursive path :: sys.deleteRecursive.2
        else []) = pre at hp0 ⊢
      cases hr : sys.rmdir with
      | none => simp [terminalSignals_append, hp0, terminalSignals_finished]
      | some e =>
        simp only []
        have hs := callElevation_signals elevation hc ActionType.RMDIR [QVariant.str path] e
        generalize callElevation elevation ActionType.RMDIR [QVariant.str path] e = r at hs ⊢
        have hs2 : terminalSignals (pre ++ r.2) =
            if r.1 = PrivilegeOperationReturnValue.canceled then 1 else 0 := by
          rw [terminalSignals_append, hp0, hs]; simp
        have key := delegating_branch_signals (r.1, pre ++ r.2) hs2
          (if r.1.code = EACCES ∨ r.1.code = EPERM then
            pre ++ r.2 ++ [OpEvent.error k.ERR_ACCESS_DENIED path]
           else pre ++ r.2 ++ [OpEvent.error k.ERR_CANNOT_RMDIR path])
          (by split <;> simp [terminalSignals_append, terminalSignals_error] <;> omega)
        exact key

/-- Whenever `::chown` fails and the delegated call returns a value that is no
error, `chown` emits nothing of its own: its `finished()` stands in the `else`
of the failed system call. -/
theorem chown_silent_after_successful_elevation (k : FileErrorCodes) (elevation : Elevation)
    (sys : ChownSys) (path owner group : String) (uid gid e : Int)
    (hu : sys.getpwnam = some uid) (hg : sys.getgrnam = some gid) (hch : sys.chown = some e)
    (hok : (elevation ActionType.CHOWN
      [QVariant.str path, QVariant.int uid, QVariant.int gid] e).value.isError = false) :
    FileProtocol.chownWith k elevation sys path owner group =
      (callElevation elevation ActionType.CHOWN
        [QVariant.str path, QVariant.int uid, QVariant.int gid] e).2 := by
  have hok2 : (callElevation elevation ActionType.CHOWN
      [QVariant.str path, QVariant.int uid, QVariant.int gid] e).1.isError = false := hok
  simp [FileProtocol.chownWith, hu, hg, hch, hok2]

/-- C14 evaluated at a failing input.  In unit-test mode (the `UnitTesting`
metadata is `true` and the request `Test Call` is allowed) `::chown` fails with
`EPERM`; `execWithElevatedPrivilege` returns success, and `chown` emits neither
`finished()` nor `error(...)`: no terminal signal.  `rename` and `del` in the
same situation call `finished()`. -/
theorem C14_chown_emits_no_terminal_signal :
    FileProtocol.chown exampleFileCodes unitTestEnv deniedChown "/srv/data" "alice" "staff"
      = [OpEvent.elevate ActionType.CHOWN
          [QVariant.str "/srv/data", QVariant.int 1000, QVariant.int 1000] EPERM,
         OpEvent.delegated (FileEvent.requestPrivilegeOperation "Test Call")] ∧
    terminalSignals
      (FileProtocol.chown exampleFileCodes unitTestEnv deniedChown "/srv/data" "alice" "staff")
      = 0 ∧
    terminalSignals
      (FileProtocol.rename exampleFileCodes unitTestEnv
        { lstatSrc := none, lstatDest := none, rename := some EPERM } "/srv/a" "/srv/b" false)
      = 1 ∧
    terminalSignals
      (FileProtocol.del exampleFileCodes unitTestEnv
        { unlink := some EPERM, deleteRecursive := (true, []), rmdir := none } "/srv/a" true)
      = 1 := by
  decide

/-! ## Failing and succeeding exits of `createSlave` (C15, C16) -/

theorem createFailed_fields (b : Build) (text : String) (slave : Slave) (d : Option ForkDecision)
    (req : Option (String × String × String)) :
    (createFailed b text slave d req).result = none ∧
    (createFailed b text slave d req).error = some b.ERR_CANNOT_CREATE_SLAVE ∧
    (createFailed b text slave d req).error_text = some text ∧
    (createFailed b text slave d req).deletedSlave = some (Slave.destroy slave) :=
  ⟨rfl, rfl, rfl, rfl⟩

/-- Every return of `createSlave` is a failing exit or a plain success. -/
theorem createSlave_exits (b : Build) (env : LaunchEnv) (memo : Int) (protocol : String)
    (url : Url) :
    (∃ text d req, createSlave b env memo protocol url =
      createFailed b text (Slave.new protocol env.now (env.address ≠ "")) d req) ∨
    (∃ h, (createSlave b env memo protocol url).result = some h ∧
      (createSlave b env memo protocol url).error = none ∧
      (createSlave b env memo protocol url).error_text = none ∧
      (createSlave b env memo protocol url).deletedSlave = none) := by
  unfold createSlave
  simp only []
  repeat' split
  all_goals first
    | exact Or.inl ⟨_, _, _, rfl⟩
    | exact Or.inr ⟨_, rfl, rfl, rfl, rfl⟩

/-- C15: for every protocol other than `data`, each failing path of
`createSlave` (empty transport address; in direct-spawn mode unknown protocol,
worker plugin not found, `kioslave5` not found; in session-launcher mode an
invalid launcher reply, a reply with pid 0) returns no handle, sets `error` to
`ERR_CANNOT_CREATE_SLAVE` and `error_text` to its message, and has deleted the
partially constructed handle, and with it the listener, before returning.  Every
return without a handle is of that kind, and a non-null return leaves `error`
and `error_text` unassigned and deletes nothing.  An empty transport address
always takes the failing path. -/
theorem C15_createSlave_failing_paths (b : Build) (env : LaunchEnv) (memo : Int)
    (protocol : String) (url : Url) (hp : protocol ≠ "data") :
    (env.address = "" →
      createSlave b env memo protocol url =
        createFailed b
          ("Can not create socket for launching io-slave for protocol '" ++ protocol ++ "'.")
          (Slave.new protocol env.now (env.address ≠ "")) none none) ∧
    (env.address ≠ "" → (forkSlaves b env memo).fork = true → env.exec protocol = "" →
      createSlave b env memo protocol url =
        createFailed b ("Unknown protocol '" ++ protocol ++ "'.")
          (Slave.new protocol env.now (env.address ≠ "")) (some (forkSlaves b env memo)) none) ∧
    (env.address ≠ "" → (forkSlaves b env memo).fork = true → env.exec protocol ≠ "" →
      env.pluginFileName (env.exec protocol) = "" →
      createSlave b env memo protocol url =
        createFailed b ("Can not find io-slave for protocol '" ++ protocol ++ "'.")
          (Slave.new protocol env.now (env.address ≠ "")) (some (forkSlaves b env memo)) none) ∧
    (env.address ≠ "" → (forkSlaves b env memo).fork = true → env.exec protocol ≠ "" →
      env.pluginFileName (env.exec protocol) ≠ "" →
      env.findInSearchPaths = "" → env.findInPath = "" →
      createSlave b env memo protocol url =
        createFailed b
          ("Can not find 'kioslave5' executable at '" ++ env.searchPathsJoined ++ "'")
          (Slave.new protocol env.now (env.address ≠ "")) (some (forkSlaves b env memo)) none) ∧
    (env.address ≠ "" → (forkSlaves b env memo).fork = false → b.KIO_ANDROID_STUB = false →
      env.requestSlave protocol url.host env.address = RequestReply.invalid →
      createSlave b env memo protocol url =
        createFailed b ("Cannot talk to klauncher: " ++ env.lastError)
          (Slave.new protocol env.now (env.address ≠ "")) (some (forkSlaves b env memo))
          (some (protocol, url.host, env.address))) ∧
    (env.address ≠ "" → (forkSlaves b env memo).fork = false → b.KIO_ANDROID_STUB = false →
      ∀ errorStr, env.requestSlave protocol url.host env.address = RequestReply.valid 0 errorStr →
      createSlave b env memo protocol url =
        createFailed b ("klauncher said: " ++ errorStr)
          (Slave.new protocol env.now (env.address ≠ "")) (some (forkSlaves b env memo))
          (some (protocol, url.host, env.address))) ∧
    ((createSlave b env memo protocol url).result = none →
      (createSlave b env memo protocol url).error = some b.ERR_CANNOT_CREATE_SLAVE ∧
      (∃ text, (createSlave b env memo protocol url).error_text = some text) ∧
      (∃ s, (createSlave b env memo protocol url).deletedSlave = some s ∧
        s.deleted = true ∧ s.listening = false ∧ s.slaveconnserver = false ∧ s.timers = [])) ∧
    ((createSlave b env memo protocol url).result ≠ none →
      (createSlave b env memo protocol url).error = none ∧
      (createSlave b env memo protocol url).error_text = none ∧
      (createSlave b env memo protocol url).deletedSlave = none) := by
  refine ⟨?_, ?_, ?_, ?_, ?_, ?_, ?_, ?_⟩
  · intro ha
    simp [createSlave, hp, ha]
  · intro ha hf he
    simp [createSlave, hp, ha, hf, he]
  · intro ha hf he hl
    simp [createSlave, hp, ha, hf, he, hl]
  · intro ha hf he hl h1 h2
    simp [createSlave, hp, ha, hf, he, hl, h1, h2]
  · intro ha hf hs hr
    simp [createSlave, hp, ha, hf, hs, hr]
  · intro ha hf hs errorStr hr
    simp [createSlave, hp, ha, hf, hs, hr]
  · intro hnone
    rcases createSlave_exits b env memo protocol url with ⟨text, d, req, h⟩ | ⟨h, hres, _⟩
    · rw [h]
      exact ⟨rfl, ⟨text, rfl⟩, ⟨_, rfl, rfl, rfl, rfl, rfl⟩⟩
    · rw [hres] at hnone
      exact absurd hnone (by simp)
  · intro hsome
    rcases createSlave_exits b env memo protocol url with ⟨text, d, req, h⟩ | ⟨h, _, h1, h2, h3⟩
    · rw [h] at hsome
      exact absurd rfl hsome
    · exact ⟨h1, h2, h3⟩

/-- C15 at a concrete call: no transport address could be obtained. -/
theorem C15_createSlave_failing_paths_witness :
    (createSlave exampleBuild { forkEnv with address := "" } (-1) "file" tmpUrl).result = none ∧
    (createSlave exampleBuild { forkEnv with address := "" } (-1) "file" tmpUrl).error
      = some exampleBuild.ERR_CANNOT_CREATE_SLAVE :=
  have h := (C15_createSlave_failing_paths exampleBuild { forkEnv with address := "" } (-1)
    "file" tmpUrl (by decide)).1 rfl
  ⟨by rw [h]; rfl, by rw [h]; rfl⟩

/-- C16: in direct-spawn mode, for every protocol name and transport address,
whenever `createSlave` starts a worker the argument list it hands over has
exactly four elements in this order: the resolved worker path, the protocol
name, an empty string, and the transport address as a string; the second and
fourth arguments are the protocol name and the address supplied at creation.
Every successful call in direct-spawn mode starts a worker with such a list, and
no worker is started in any other way. -/
theorem C16_direct_spawn_arguments (b : Build) (env : LaunchEnv) (memo : Int)
    (protocol : String) (url : Url) :
    (∀ exe args, (createSlave b env memo protocol url).spawned = some (exe, args) →
      (forkSlaves b env memo).fork = true ∧
      args = [env.pluginFileName (env.exec protocol), protocol, "", env.address] ∧
      args.length = 4 ∧ args[1]? = some protocol ∧ args[2]? = some "" ∧
      args[3]? = some env.address) ∧
    ((forkSlaves b env memo).fork = true →
      ∀ s, (createSlave b env memo protocol url).result = some (Handle.slave s) →
        ∃ exe, (createSlave b env memo protocol url).spawned =
          some (exe, [env.pluginFileName (env.exec protocol), protocol, "", env.address])) := by
  constructor
  · intro exe args h
    by_cases hf : (forkSlaves b env memo).fork = true
    · simp only [createSlave, hf, if_true] at h
      repeat' split at h
      all_goals first
        | (simp [createFailed] at h; done)
        | (simp only [Option.some.injEq, Prod.mk.injEq] at h
           obtain ⟨_, h2⟩ := h
           subst h2
           exact ⟨hf, rfl, rfl, rfl, rfl, rfl⟩)
    · have hf2 : (forkSlaves b env memo).fork = false := by simpa using hf
      simp only [createSlave, hf2, Bool.false_eq_true, if_false] at h
      repeat' split at h
      all_goals simp [createFailed] at h
  · intro hf s hr
    by_cases hd : protocol = "data"
    · simp [createSlave, hd] at hr
    by_cases ha : env.address = ""
    · simp [createSlave, hd, ha, createFailed] at hr
    by_cases he : env.exec protocol = ""
    · simp [createSlave, hd, ha, hf, he, createFailed] at hr
    by_cases hl : env.pluginFileName (env.exec protocol) = ""
    · simp [createSlave, hd, ha, hf, he, hl, createFailed] at hr
    by_cases h1 : env.findInSearchPaths = ""
    · by_cases h2 : env.findInPath = ""
      · simp [createSlave, hd, ha, hf, he, hl, h1, h2, createFailed] at hr
      · exact ⟨env.findInPath, by simp [createSlave, hd, ha, hf, he, hl, h1, h2]⟩
    · exact ⟨env.findInSearchPaths, by simp [createSlave, hd, ha, hf, he, hl, h1]⟩

/-- C16 at a concrete call: the four arguments of the worker spawned for
`file`. -/
theorem C16_direct_spawn_arguments_witness :
    (createSlave exampleBuild forkEnv (-1) "file" tmpUrl).spawned =
      some ("/usr/libexec/kf5/kioslave5",
        ["/usr/lib/qt/plugins/kf5/kio/file.so", "file", "", "local:/run/user/1000/kio.socket"]) ∧
    ["/usr/lib/qt/plugins/kf5/kio/file.so", "file", "", "local:/run/user/1000/kio.socket"]
      = [forkEnv.pluginFileName (forkEnv.exec "file"), "file", "", forkEnv.address] :=
  ⟨by decide,
   ((C16_direct_spawn_arguments exampleBuild forkEnv (-1) "file" tmpUrl).1
      "/usr/libexec/kf5/kioslave5"
      ["/usr/lib/qt/plugins/kf5/kio/file.so", "file", "", "local:/run/user/1000/kio.socket"]
      (by decide)).2.1⟩

/-! ## Choice of the launch mode (C17, C18) -/

/-- The value `forkSlaves()` returns while the launch mode is undecided, for
every build. -/
theorem forkSlaves_undecided (b : Build) (env : LaunchEnv) :
    (forkSlaves b env (-1)).fork =
      (env.envForkSlaves ||
        (!b.KIO_ANDROID_STUB &&
          (!env.sessionBusInterface ||
            (b.Q_OS_UNIX &&
              decide (env.launcherUid = none ∨
                ∃ uid, env.launcherUid = some uid ∧ env.getuid ≠ uid))))) := by
  unfold forkSlaves
  cases hfork : env.envForkSlaves <;> cases hstub : b.KIO_ANDROID_STUB <;>
    cases hbus : env.sessionBusInterface <;> cases hunix : b.Q_OS_UNIX <;>
    cases huid : env.launcherUid <;> simp
  all_goals split <;> simp_all

/-- C17 refuted at concrete calls.  With `KIO_ANDROID_STUB` defined,
`KDE_FORK_SLAVES` not set and a session bus without interface, the undecided
`forkSlaves()` returns false.  In a build that is not for Unix, with the bus
there and the launcher owned by another user, it returns false as well. -/
theorem C17_bus_and_owner_not_always_consulted :
    noBusEnv.envForkSlaves = false ∧ noBusEnv.sessionBusInterface = false ∧
    (forkSlaves stubBuild noBusEnv (-1)).fork = false ∧
    (forkSlaves stubBuild noBusEnv (-1)).probes = [Probe.envForkSlaves] ∧
    foreignLauncherEnv.launcherUid = some 0 ∧ foreignLauncherEnv.getuid = 1000 ∧
    (forkSlaves nonUnixBuild foreignLauncherEnv (-1)).fork = false ∧
    (forkSlaves nonUnixBuild foreignLauncherEnv (-1)).probes
      = [Probe.envForkSlaves, Probe.sessionBusInterface] := by
  decide

/-- C17 as amended.  In a Unix build without `KIO_ANDROID_STUB`, while the
launch mode is undecided (sentinel -1) `forkSlaves()` returns true exactly when
`KDE_FORK_SLAVES` is set, or the session bus has no interface, or the query for
the launcher's owner is invalid or yields a uid different from the caller's.
With `KIO_ANDROID_STUB` only the environment variable is consulted; in a build
that is not for Unix the owner of the launcher is not.  When `KIO_FORK_SLAVES`
presets the sentinel to 1, `forkSlaves()` returns true without probing. -/
theorem C17_forkSlaves_decision (b : Build) (env : LaunchEnv) :
    (b.KIO_ANDROID_STUB = false → b.Q_OS_UNIX = true →
      ((forkSlaves b env (-1)).fork = true ↔
        (env.envForkSlaves = true ∨ env.sessionBusInterface = false ∨
          env.launcherUid = none ∨ ∃ uid, env.launcherUid = some uid ∧ env.getuid ≠ uid))) ∧
    (b.KIO_ANDROID_STUB = true → (forkSlaves b env (-1)).fork = env.envForkSlaves) ∧
    (b.KIO_ANDROID_STUB = false → b.Q_OS_UNIX = false →
      (forkSlaves b env (-1)).fork = (env.envForkSlaves || !env.sessionBusInterface)) ∧
    (b.KIO_FORK_SLAVES = true →
      bForkSlavesInit b = 1 ∧
      forkSlaves b env (bForkSlavesInit b) = { fork := true, bForkSlaves := 1, probes := [] }) ∧
    (b.KIO_FORK_SLAVES = false → bForkSlavesInit b = -1) := by
  refine ⟨?_, ?_, ?_, ?_, ?_⟩
  · intro hs hu
    rw [forkSlaves_undecided]
    simp [hs, hu]
  · intro hs
    rw [forkSlaves_undecided]
    simp [hs]
  · intro hs hu
    rw [forkSlaves_undecided]
    simp [hs, hu]
  · intro hk
    simp [bForkSlavesInit, hk, forkSlaves]
  · intro hk
    simp [bForkSlavesInit, hk]

/-- C17 as amended, at a concrete call: in a Unix release build the launcher
owned by another user makes the undecided `forkSlaves()` return true. -/
theorem C17_forkSlaves_decision_witness :
    (forkSlaves exampleBuild foreignLauncherEnv (-1)).fork = true :=
  ((C17_forkSlaves_decision exampleBuild foreignLauncherEnv).1 rfl rfl).mpr
    (Or.inr (Or.inr (Or.inr ⟨0, rfl, by decide⟩)))

theorem forkSlaves_decided (b : Build) (env : LaunchEnv) (memo : Int) (h : memo ≠ -1) :
    forkSlaves b env memo = { fork := decide (memo = 1), bForkSlaves := memo, probes := [] } := by
  simp [forkSlaves, h]

/-- After any call the launch mode is decided, and the value returned is the
one the sentinel records. -/
theorem forkSlaves_settles (b : Build) (env : LaunchEnv) (memo : Int) :
    (forkSlaves b env memo).bForkSlaves ≠ -1 ∧
    (forkSlaves b env memo).fork = decide ((forkSlaves b env memo).bForkSlaves = 1) := by
  unfold forkSlaves
  split
  · have hne : ∀ c : Bool, (if c = true then (1 : Int) else 0) ≠ -1 := by
      intro c
      cases c <;> decide
    exact ⟨hne _, rfl⟩
  · rename_i h
    exact ⟨h, rfl⟩

theorem forkSlavesCalls_decided (b : Build) (envs : List LaunchEnv) :
    ∀ memo : Int, memo ≠ -1 → ∀ d ∈ forkSlavesCalls b envs memo,
      d = { fork := decide (memo = 1), bForkSlaves := memo, probes := [] } := by
  induction envs with
  | nil => intro memo _ d hd; simp [forkSlavesCalls] at hd
  | cons env envs ih =>
    intro memo hm d hd
    simp only [forkSlavesCalls, forkSlaves_decided b env memo hm, List.mem_cons] at hd
    rcases hd with hd | hd
    · exact hd
    · exact ih memo hm d hd

/-- C18: the launch mode is chosen once.  After the first call of
`forkSlaves()` has returned, every later call in the same process, whatever
the state of `KDE_FORK_SLAVES`, of the session bus and of the launcher's owner
at that moment, returns the value the first call returned, leaves the sentinel
as the first call left it, and makes no probe. -/
theorem C18_launch_mode_chosen_once (b : Build) (env : LaunchEnv) (memo : Int)
    (later : List LaunchEnv) :
    ∀ d ∈ forkSlavesCalls b later (forkSlaves b env memo).bForkSlaves,
      d.fork = (forkSlaves b env memo).fork ∧ d.probes = [] ∧
      d.bForkSlaves = (forkSlaves b env memo).bForkSlaves := by
  intro d hd
  have hs := forkSlaves_settles b env memo
  have h := forkSlavesCalls_decided b later _ hs.1 d hd
  rw [h]
  exact ⟨hs.2.symm, rfl, rfl⟩

/-- C18 at a concrete run: the first call, made without a session bus, decides
for direct spawn; a later call made with the bus and the launcher present, or
with `KDE_FORK_SLAVES` set, returns the same without probing, although a first
call made in that environment would have decided for the session launcher. -/
theorem C18_launch_mode_chosen_once_witness :
    ({ fork := true, bForkSlaves := 1, probes := [] } : ForkDecision) ∈
      forkSlavesCalls exampleBuild [launcherEnv, forkEnv]
        (forkSlaves exampleBuild noBusEnv (bForkSlavesInit exampleBuild)).bForkSlaves ∧
    ({ fork := true, bForkSlaves := 1, probes := [] } : ForkDecision).fork =
      (forkSlaves exampleBuild noBusEnv (bForkSlavesInit exampleBuild)).fork ∧
    (forkSlaves exampleBuild launcherEnv (bForkSlavesInit exampleBuild)).fork = false :=
  ⟨by decide,
   (C18_launch_mode_chosen_once exampleBuild noBusEnv (bForkSlavesInit exampleBuild)
      [launcherEnv, forkEnv] { fork := true, bForkSlaves := 1, probes := [] } (by decide)).1,
   by decide⟩

/-! ## Opening a file through the helper (C19) -/

/-- C19: `tryOpen`, called with the error code of a failed `open` (not 0), sets
up its descriptor receiver first; it submits the OPEN request to
`execWithElevatedPrivilege` only when the receiver is listening, with the
arguments path, flags, mode and, fourth, the freshly generated socket path; if
the receiver is not listening it returns `failure(errcode)` and submits
nothing; it returns success exactly when the receiver listens, the delegated
call returned success, the received descriptor is at least 3 and the file
adopted it; and when the delegated call returned success but the descriptor is
below 3 or is not adopted, it returns `failure(errcode)`. -/
theorem C19_tryOpen_listens_before_submitting (k : ErrorCodes) (env : FileEnv) (sys : OpenSys)
    (path : String) (flags : Nat) (mode : Int) (errcode : Int) (h0 : errcode ≠ 0) :
    (FileProtocol.tryOpen k env sys path flags mode errcode).2.head?
      = some (OpEvent.fdReceiver sys.sockPath) ∧
    (∀ a args c,
      OpEvent.elevate a args c ∈ (FileProtocol.tryOpen k env sys path flags mode errcode).2 →
      sys.listening = true ∧ a = ActionType.OPEN ∧ c = errcode ∧
      args = [QVariant.str path, QVariant.int flags, QVariant.int mode,
              QVariant.str sys.sockPath]) ∧
    (sys.listening = false →
      FileProtocol.tryOpen k env sys path flags mode errcode =
        (PrivilegeOperationReturnValue.failure errcode, [OpEvent.fdReceiver sys.sockPath])) ∧
    ((FileProtocol.tryOpen k env sys path flags mode errcode).1
        = PrivilegeOperationReturnValue.success ↔
      (sys.listening = true ∧
        (execWithElevatedPrivilege k env ActionType.OPEN
          [QVariant.str path, QVariant.int flags, QVariant.int mode, QVariant.str sys.sockPath]
          errcode).value = PrivilegeOperationReturnValue.success ∧
        3 ≤ sys.fileDescriptor ∧
        sys.fileOpen sys.fileDescriptor (FileProtocol.openMode flags) = true)) ∧
    (sys.listening = true →
      (execWithElevatedPrivilege k env ActionType.OPEN
        [QVariant.str path, QVariant.int flags, QVariant.int mode, QVariant.str sys.sockPath]
        errcode).value = PrivilegeOperationReturnValue.success →
      (sys.fileDescriptor < 3 ∨
        sys.fileOpen sys.fileDescriptor (FileProtocol.openMode flags) = false) →
      (FileProtocol.tryOpen k env sys path flags mode errcode).1
        = PrivilegeOperationReturnValue.failure errcode) := by
  have hv := execWithElevatedPrivilege_value k env ActionType.OPEN
    [QVariant.str path, QVariant.int flags, QVariant.int mode, QVariant.str sys.sockPath] errcode
  unfold FileProtocol.tryOpen FileProtocol.tryOpenWith callElevation
  simp only [hv]
  cases hl : sys.listening <;> cases hu : (privilegeOperationUnitTestMode env).1 <;>
    by_cases hfd : sys.fileDescriptor < 3 <;>
    cases ho : sys.fileOpen sys.fileDescriptor (FileProtocol.openMode flags) <;>
    simp [PrivilegeOperationReturnValue.isError, PrivilegeOperationReturnValue.code, h0, hfd, ho]
  all_goals first
    | omega
    | (intro a args c ha hargs hc
       exact ⟨ha, hc, hargs⟩)
    | (refine ⟨?_, ?_⟩
       · intro a args c ha hargs hc
         exact ⟨ha, hc, hargs⟩
       · omega)

/-- C19 at a concrete call: in unit-test mode, with a listening receiver that
got descriptor 7, `tryOpen` submits the request with the socket path as fourth
argument and returns success. -/
theorem C19_tryOpen_listens_before_submitting_witness :
    (FileProtocol.tryOpen exampleCodes unitTestEnv listeningReceiver "/etc/shadow" O_RDONLY 256
      EACCES).1 = PrivilegeOperationReturnValue.success ∧
    OpEvent.elevate ActionType.OPEN
      [QVariant.str "/etc/shadow", QVariant.int 0, QVariant.int 256,
       QVariant.str "/run/user/1000/filehelperAbCdEf4242"] EACCES ∈
      (FileProtocol.tryOpen exampleCodes unitTestEnv listeningReceiver "/etc/shadow" O_RDONLY 256
        EACCES).2 :=
  ⟨((C19_tryOpen_listens_before_submitting exampleCodes unitTestEnv listeningReceiver
      "/etc/shadow" O_RDONLY 256 EACCES (by decide)).2.2.2.1).mpr (by decide),
   by decide⟩

/-! ## The error reported after a failed elevation (C20) -/

theorem callElevation_of_failure (elevation : Elevation) (action : ActionType)
    (args : List QVariant) (e : Int) (t : List FileEvent)
    (h : elevation action args e
      = { value := PrivilegeOperationReturnValue.failure e, trace := t }) :
    callElevation elevation action args e =
      (PrivilegeOperationReturnValue.failure e, delegatedCall action args e t) := by
  simp [callElevation, delegatedCall, h]

/-- C20: when the system call of the operation fails with errno `e` (not 0)
and the delegated call returns a failure, not canceled, carrying `e`, the
operation reports one error after the delegated call, determined by `e`:
`rename` reports `ERR_WRITE_ACCESS_DENIED` on the destination for `EACCES` or
`EPERM`, `ERR_UNSUPPORTED_ACTION` for `EXDEV`, `ERR_CANNOT_DELETE` on the source
for `EROFS` and `ERR_CANNOT_RENAME` on the source otherwise; `del` of a file
reports `ERR_ACCESS_DENIED` for `EACCES` or `EPERM`, `ERR_IS_DIRECTORY` for
`EISDIR` and `ERR_CANNOT_DELETE` otherwise; `del` of a directory, when the
recursive deletion did not stop it, reports `ERR_ACCESS_DENIED` for `EACCES` or
`EPERM` and `ERR_CANNOT_RMDIR` otherwise;
`chown` reports `ERR_ACCESS_DENIED` for `EPERM` or `EACCES`, `ERR_DISK_FULL` for
`ENOSPC` and `ERR_CANNOT_CHOWN` otherwise.  Outside unit-test mode
`execWithElevatedPrivilege` returns exactly such a failure. -/
theorem C20_error_after_failed_elevation (k : FileErrorCodes) (elevation : Elevation) (e : Int)
    (t : List FileEvent) (he : e ≠ 0)
    (hel : ∀ action args,
      elevation action args e = { value := PrivilegeOperationReturnValue.failure e, trace := t }) :
    (∀ (sys : RenameSys) (src dest : String) (overwrite : Bool),
      sys.lstatSrc = none →
      (sys.lstatDest = none ∨
        ∃ d, sys.lstatDest = some d ∧ d.sameInode = false ∧ d.isDir = false ∧ overwrite = true) →
      sys.rename = some e →
      FileProtocol.renameWith k elevation sys src dest overwrite =
        delegatedCall ActionType.RENAME [QVariant.str src, QVariant.str dest] e t ++
          [if e = EACCES ∨ e = EPERM then OpEvent.error k.ERR_WRITE_ACCESS_DENIED dest
           else if e = EXDEV then OpEvent.error k.ERR_UNSUPPORTED_ACTION "rename"
           else if e = EROFS then OpEvent.error k.ERR_CANNOT_DELETE src
           else OpEvent.error k.ERR_CANNOT_RENAME src]) ∧
    (∀ (sys : DelSys) (recurse : Bool) (path : String),
      sys.unlink = some e →
      FileProtocol.delWith k elevation sys recurse path true =
        delegatedCall ActionType.DEL [QVariant.str path] e t ++
          [if e = EACCES ∨ e = EPERM then OpEvent.error k.ERR_ACCESS_DENIED path
           else if e = EISDIR then OpEvent.error k.ERR_IS_DIRECTORY path
           else OpEvent.error k.ERR_CANNOT_DELETE path]) ∧
    (∀ (sys : DelSys) (recurse : Bool) (path : String),
      (recurse = true → sys.deleteRecursive.1 = true) →
      sys.rmdir = some e →
      FileProtocol.delWith k elevation sys recurse path false =
        (if recurse then OpEvent.deleteRecursive path :: sys.deleteRecursive.2 else []) ++
          delegatedCall ActionType.RMDIR [QVariant.str path] e t ++
          [if e = EACCES ∨ e = EPERM then OpEvent.error k.ERR_ACCESS_DENIED path
           else OpEvent.error k.ERR_CANNOT_RMDIR path]) ∧
    (∀ (sys : ChownSys) (path owner group : String) (uid gid : Int),
      sys.getpwnam = some uid → sys.getgrnam = some gid → sys.chown = some e →
      FileProtocol.chownWith k elevation sys path owner group =
        delegatedCall ActionType.CHOWN
            [QVariant.str path, QVariant.int uid, QVariant.int gid] e t ++
          [if e = EPERM ∨ e = EACCES then OpEvent.error k.ERR_ACCESS_DENIED path
           else if e = ENOSPC then OpEvent.error k.ERR_DISK_FULL path
           else OpEvent.error k.ERR_CANNOT_CHOWN path]) ∧
    (∀ (env : FileEnv) (action : ActionType) (args : List QVariant),
      env.metaData "UnitTesting" ≠ "true" →
      execWithElevatedPrivilege k.toErrorCodes env action args e =
        { value := PrivilegeOperationReturnValue.failure e, trace := [] }) := by
  have hc : ∀ a as, callElevation elevation a as e =
      (PrivilegeOperationReturnValue.failure e, delegatedCall a as e t) :=
    fun a as => callElevation_of_failure elevation a as e t (hel a as)
  refine ⟨?_, ?_, ?_, ?_, ?_⟩
  · intro sys src dest overwrite hsrc hdest hren
    have hcall : FileProtocol.renameCall k elevation sys src dest =
        delegatedCall ActionType.RENAME [QVariant.str src, QVariant.str dest] e t ++
          [if e = EACCES ∨ e = EPERM then OpEvent.error k.ERR_WRITE_ACCESS_DENIED dest
           else if e = EXDEV then OpEvent.error k.ERR_UNSUPPORTED_ACTION "rename"
           else if e = EROFS then OpEvent.error k.ERR_CANNOT_DELETE src
           else OpEvent.error k.ERR_CANNOT_RENAME src] := by
      simp only [FileProtocol.renameCall, hren, hc, PrivilegeOperationReturnValue.isError,
        PrivilegeOperationReturnValue.code, PrivilegeOperationReturnValue.wasCanceled]
      simp only [he, ne_eq, not_false_eq_true, decide_True, if_true, Bool.not_false]
      repeat' split
      all_goals rfl
    rcases hdest with hd | ⟨d, hd, h1, h2, h3⟩
    · simp only [FileProtocol.renameWith, hsrc, hd]
      exact hcall
    · simp only [FileProtocol.renameWith, hsrc, hd, h1, h2, h3]
      simpa using hcall
  · intro sys recurse path hun
    simp only [FileProtocol.delWith, if_true, hun, hc, PrivilegeOperationReturnValue.isError,
      PrivilegeOperationReturnValue.code, PrivilegeOperationReturnValue.wasCanceled]
    simp only [he, ne_eq, not_false_eq_true, decide_True, if_true, Bool.not_false]
    repeat' split
    all_goals rfl
  · intro sys recurse path hrec hrm
    have hstop : ¬ (recurse = true ∧ sys.deleteRecursive.1 = false) := by
      intro h
      have := hrec h.1
      simp [h.2] at this
    simp only [FileProtocol.delWith, Bool.false_eq_true, if_false, hstop, hrm, hc,
      PrivilegeOperationReturnValue.isError, PrivilegeOperationReturnValue.code,
      PrivilegeOperationReturnValue.wasCanceled]
    simp only [he, ne_eq, not_false_eq_true, decide_True, if_true, Bool.not_false]
    repeat' split
    all_goals simp
  · intro sys path owner group uid gid hu hg hch
    simp only [FileProtocol.chownWith, hu, hg, hch, hc, PrivilegeOperationReturnValue.isError,
      PrivilegeOperationReturnValue.code, PrivilegeOperationReturnValue.wasCanceled]
    simp only [he, ne_eq, not_false_eq_true, decide_True, if_true, Bool.not_false]
    repeat' split
    all_goals rfl
  · intro env action args hm
    exact execWithElevatedPrivilege_of_no_metadata k.toErrorCodes env action args e hm

/-- C20 at concrete calls: outside unit-test mode a rename across devices
reports `ERR_UNSUPPORTED_ACTION`, and a change of owner on a full disk reports
`ERR_DISK_FULL`. -/
theorem C20_error_after_failed_elevation_witness :
    FileProtocol.rename exampleFileCodes ownerEnv
        { lstatSrc := none, lstatDest := none, rename := some EXDEV } "/mnt/a/f" "/mnt/b/f" false
      = [OpEvent.elevate ActionType.RENAME [QVariant.str "/mnt/a/f", QVariant.str "/mnt/b/f"]
           EXDEV,
         OpEvent.error exampleFileCodes.ERR_UNSUPPORTED_ACTION "rename"] ∧
    FileProtocol.chown exampleFileCodes ownerEnv
        { getpwnam := some 1000, getgrnam := some 1000, chown := some ENOSPC }
        "/srv/data" "alice" "staff"
      = [OpEvent.elevate ActionType.CHOWN
           [QVariant.str "/srv/data", QVariant.int 1000, QVariant.int 1000] ENOSPC,
         OpEvent.error exampleFileCodes.ERR_DISK_FULL "/srv/data"] :=
  have hx := C20_error_after_failed_elevation exampleFileCodes
    (execWithElevatedPrivilege exampleCodes ownerEnv) EXDEV [] (by decide)
    (fun a as => execWithElevatedPrivilege_of_no_metadata exampleCodes ownerEnv a as EXDEV
      (by decide))
  have hn := C20_error_after_failed_elevation exampleFileCodes
    (execWithElevatedPrivilege exampleCodes ownerEnv) ENOSPC [] (by decide)
    (fun a as => execWithElevatedPrivilege_of_no_metadata exampleCodes ownerEnv a as ENOSPC
      (by decide))
  ⟨hx.1 { lstatSrc := none, lstatDest := none, rename := some EXDEV } "/mnt/a/f" "/mnt/b/f"
      false rfl (Or.inl rfl) rfl,
   hn.2.2.2.1 { getpwnam := some 1000, getgrnam := some 1000, chown := some ENOSPC }
      "/srv/data" "alice" "staff" 1000 1000 rfl rfl rfl⟩

/-! ## Accesses after the closing `deref()` (C21) -/

theorem Slave.hold_eq_holdNotifying (b : Build) (url : String) (s : Slave) :
    Slave.hold b url s = Slave.holdNotifying b id url s := rfl

theorem addedEvents_of_trace (s t : Slave) (l : List Event) (h : t.trace = s.trace ++ l) :
    addedEvents s t = l := by
  simp [addedEvents, h]

theorem afterRelease_closing_deref (pre : List Event) (c : Int) (post : List Event)
    (hpost : Event.deref ∉ post) :
    afterRelease (pre ++ Event.deref :: (teardownEvents c ++ post)) =
      post.filter (fun x => !x.isTeardown) := by
  have hnot : Event.deref ∉ teardownEvents c ++ post := by
    unfold teardownEvents
    split <;> simp [hpost]
  have hfil : (teardownEvents c ++ post).filter (fun x => !x.isTeardown) =
      post.filter (fun x => !x.isTeardown) := by
    unfold teardownEvents
    split <;> simp [Event.isTeardown]
  induction pre with
  | nil => simp [afterRelease, hnot, hfil]
  | cons e es ih =>
    have hin : Event.deref ∈ es ++ Event.deref :: (teardownEvents c ++ post) := by simp
    show afterRelease (e :: (es ++ Event.deref :: (teardownEvents c ++ post))) = _
    rw [afterRelease, if_neg (fun h => h.2 hin)]
    exact ih

/-- In `timeout()` nothing is done with the handle after the closing
`deref()`. -/
theorem Slave.timeout_afterRelease (b : Build) (now : Nat) (alive : Int → Bool) (s : Slave) :
    afterRelease (addedEvents s (Slave.timeout b now alive s)) = [] := by
  rcases Slave.timeout_cases b now alive s with h | h | h
  · rw [h]; simp [addedEvents, afterRelease]
  · rw [h]
    have : (Slave.singleShot now (1000 * s_slaveConnectionTimeoutMin) s).trace =
        s.trace ++ [Event.singleShot (1000 * s_slaveConnectionTimeoutMin)] := rfl
    rw [addedEvents_of_trace s _ _ this]
    simp [afterRelease]
  · rw [h, addedEvents_of_trace s _ _ (by
      rw [Slave.timeoutGiveUp_trace, List.append_assoc])]
    have := afterRelease_closing_deref
      [Event.connectionClose, Event.setDead, Event.ref,
        Event.emitError b.ERR_SLAVE_DIED (Slave.diedArg s), Event.emitSlaveDied]
      s.m_refCount [] (by simp)
    simpa using this

/-- In `gotInput()` nothing is done with the handle after the closing
`deref()`. -/
theorem Slave.gotInput_afterRelease (b : Build) (ok : Bool) (s : Slave) :
    afterRelease (addedEvents s (Slave.gotInput b ok s)) = [] := by
  cases hd : s.dead with
  | true => rw [Slave.gotInput_of_dead b ok s hd]; simp [addedEvents, afterRelease]
  | false =>
    cases ok with
    | false =>
      rw [addedEvents_of_trace s _ _ (by
        rw [Slave.gotInput_failed_trace b s hd, List.append_assoc])]
      have := afterRelease_closing_deref
        [Event.ref, Event.dispatch false, Event.connectionClose, Event.setDead,
          Event.emitError b.ERR_SLAVE_DIED (Slave.diedArg s), Event.emitSlaveDied]
        s.m_refCount [] (by simp)
      simpa using this
    | true =>
      have ht : (Slave.gotInput b true s).trace =
          s.trace ++ ([Event.ref, Event.dispatch true] ++
            Event.deref :: (teardownEvents s.m_refCount ++ [])) := by
        unfold Slave.gotInput
        simp only [hd, Bool.false_eq_true, if_false, Bool.not_true]
        rw [Slave.deref_trace_teardown]
        simp [Slave.log, Slave.ref]
      rw [addedEvents_of_trace s _ _ ht]
      have := afterRelease_closing_deref [Event.ref, Event.dispatch true] s.m_refCount []
        (by simp)
      simpa using this

/-- In `hold()`, unless `KIO_ANDROID_STUB` is defined, `d->m_pid` is read
for `waitForSlave` after the closing `deref()`. -/
theorem Slave.hold_afterRelease (b : Build) (url : String) (s : Slave) :
    afterRelease (addedEvents s (Slave.hold b url s)) =
      if b.KIO_ANDROID_STUB then [] else [Event.waitForSlave s.m_pid] := by
  have ht : (Slave.hold b url s).trace =
      s.trace ++ ([Event.ref, Event.connectionSend b.CMD_SLAVE_HOLD [StreamItem.url url],
        Event.connectionClose, Event.setDead, Event.emitSlaveDied] ++
        Event.deref :: (teardownEvents s.m_refCount ++
          (if b.KIO_ANDROID_STUB then [] else [Event.waitForSlave s.m_pid]))) := by
    rw [Slave.hold_trace]
    simp
  rw [addedEvents_of_trace s _ _ ht, afterRelease_closing_deref]
  · split <;> simp [Event.isTeardown]
  · split <;> simp

/-- C21 evaluated at a failing input.  On a handle with process id 4242,
`hold()` in a build without `KIO_ANDROID_STUB` reads `d->m_pid` for
`waitForSlave` after its closing `deref()`.  When the slot connected to
`slaveDied` releases the owner's reference, that `deref()` brings the count to
zero and destroys the handle, and the read of `m_pid` follows `delete this`.
`timeout()` and `gotInput()` on the same handle do nothing after their closing
`deref()`. -/
theorem C21_hold_reads_pid_after_deref :
    addedEvents waitingHandle (Slave.hold exampleBuild "file:///tmp" waitingHandle) =
      [Event.ref, Event.connectionSend exampleBuild.CMD_SLAVE_HOLD [StreamItem.url "file:///tmp"],
       Event.connectionClose, Event.setDead, Event.emitSlaveDied, Event.deref,
       Event.waitForSlave 4242] ∧
    afterRelease (addedEvents waitingHandle
      (Slave.hold exampleBuild "file:///tmp" waitingHandle)) = [Event.waitForSlave 4242] ∧
    waitingHandle.m_refCount = 1 ∧
    (Slave.holdNotifying exampleBuild Slave.deref "file:///tmp" waitingHandle).deleted = true ∧
    (Slave.holdNotifying exampleBuild Slave.deref "file:///tmp" waitingHandle).trace =
      [Event.ref, Event.connectionSend exampleBuild.CMD_SLAVE_HOLD [StreamItem.url "file:///tmp"],
       Event.connectionClose, Event.setDead, Event.emitSlaveDied, Event.deref, Event.deref,
       Event.connectionDisconnect, Event.disconnectAll, Event.deleteThis,
       Event.waitForSlave 4242] ∧
    afterRelease (addedEvents waitingHandle
      (Slave.timeout exampleBuild 20000 (fun _ => true) waitingHandle)) = [] ∧
    afterRelease (addedEvents waitingHandle
      (Slave.gotInput exampleBuild false waitingHandle)) = [] := by
  decide

/-! ## One shape for every worker death (C22) -/

theorem Slave.timeoutGiveUp_fields (b : Build) (s : Slave) :
    (Slave.timeoutGiveUp b s).dead = true ∧
    (Slave.timeoutGiveUp b s).connection.connected = false ∧
    (Slave.timeoutGiveUp b s).m_refCount = s.m_refCount := by
  unfold Slave.timeoutGiveUp
  simp only []
  rw [Slave.deref_dead, Slave.deref_connection, Slave.deref_refCount]
  simp [Slave.log, Slave.ref, Slave.setDead, Slave.connectionClose]

theorem Slave.gotInput_failed_fields (b : Build) (s : Slave) (hd : s.dead = false) :
    (Slave.gotInput b false s).dead = true ∧
    (Slave.gotInput b false s).connection.connected = false ∧
    (Slave.gotInput b false s).m_refCount = s.m_refCount := by
  unfold Slave.gotInput
  simp only [hd, Bool.false_eq_true, if_false, Bool.not_false, if_true]
  rw [Slave.deref_dead, Slave.deref_connection, Slave.deref_refCount]
  simp [Slave.log, Slave.ref, Slave.setDead, Slave.connectionClose]

theorem deathSignals_teardownEvents (c : Int) : deathSignals (teardownEvents c) = [] := by
  unfold teardownEvents deathSignals
  split <;> simp [Event.isDeathSignal]

theorem Slave.diedArg_eq_spec (s : Slave) :
    Slave.diedArg s = if s.m_host = "" then s.m_protocol else s.m_protocol ++ "://" ++ s.m_host := by
  unfold Slave.diedArg
  by_cases h : s.m_host = ""
  · simp [h]
  · simp [h, String.append_assoc]

theorem Slave.timeout_eq_timeoutNotifying (b : Build) (now : Nat) (alive : Int → Bool)
    (s : Slave) : Slave.timeout b now alive s = Slave.timeoutNotifying b now alive noSlots s := rfl

theorem Slave.gotInput_eq_gotInputNotifying (b : Build) (ok : Bool) (s : Slave) :
    Slave.gotInput b ok s = Slave.gotInputNotifying b ok noSlots s := rfl

theorem netCount_nil (c : Int) : netCount c [] = c := by
  simp [netCount]

theorem netCount_append (c : Int) (l1 l2 : List RefOp) :
    netCount (netCount c l1) l2 = netCount c (l1 ++ l2) := by
  simp only [netCount, List.count_append]
  push_cast
  omega

/-- What calls of the reference-counting interface do to a handle: nothing a
worker death shows to the outside, and the count moves by the references taken
minus those released. -/
theorem runRefOps_facts (ops : List RefOp) :
    ∀ s : Slave, ∃ l, (runRefOps ops s).trace = s.trace ++ l ∧ deathSignals l = [] ∧
      (runRefOps ops s).dead = s.dead ∧ (runRefOps ops s).connection = s.connection ∧
      (runRefOps ops s).m_refCount = netCount s.m_refCount ops := by
  induction ops with
  | nil => intro s; exact ⟨[], by simp [runRefOps], rfl, rfl, rfl, (netCount_nil _).symm⟩
  | cons op ops ih =>
    intro s
    obtain ⟨l, h1, h2, h3, h4, h5⟩ := ih (op.run s)
    have hrun : runRefOps (op :: ops) s = runRefOps ops (op.run s) := rfl
    rw [hrun]
    cases op with
    | ref =>
      refine ⟨Event.ref :: l, ?_, ?_, h3, h4, ?_⟩
      · rw [h1]; simp [RefOp.run, Slave.ref, Slave.log]
      · simpa [deathSignals, Event.isDeathSignal] using h2
      · rw [h5, netCount_cons_ref]; rfl
    | deref =>
      refine ⟨Event.deref :: (teardownEvents (s.m_refCount - 1) ++ l), ?_, ?_, ?_, ?_, ?_⟩
      · rw [h1]
        simp only [RefOp.run]
        rw [Slave.deref_trace_teardown]
        simp
      · have ht := deathSignals_teardownEvents (s.m_refCount - 1)
        unfold deathSignals at ht h2 ⊢
        rw [List.filter_cons, List.filter_append, ht, h2]
        simp [Event.isDeathSignal]
      · rw [h3]; exact Slave.deref_dead s
      · rw [h4]; exact Slave.deref_connection s
      · rw [h5, netCount_cons_deref]
        simp only [RefOp.run]
        rw [Slave.deref_refCount]

theorem deathSignals_append (l1 l2 : List Event) :
    deathSignals (l1 ++ l2) = deathSignals l1 ++ deathSignals l2 := by
  simp [deathSignals]

/-- From the first emission to the closing `deref()`, when the slots only take
and release references: the one thing shown to the outside is `slaveDied`, and
the count moves by what the slots did and by the closing `deref()`. -/
theorem emissions_with_refSlots (e d : List RefOp) (s0 : Slave) :
    ∃ l, (Slave.deref (runRefOps d (Slave.log Event.emitSlaveDied (runRefOps e s0)))).trace
        = s0.trace ++ l ∧
      deathSignals l = [Event.emitSlaveDied] ∧
      (Slave.deref (runRefOps d (Slave.log Event.emitSlaveDied (runRefOps e s0)))).dead
        = s0.dead ∧
      (Slave.deref (runRefOps d (Slave.log Event.emitSlaveDied (runRefOps e s0)))).connection
        = s0.connection ∧
      (Slave.deref (runRefOps d (Slave.log Event.emitSlaveDied (runRefOps e s0)))).m_refCount
        = netCount s0.m_refCount (e ++ d) - 1 := by
  obtain ⟨l1, a1, a2, a3, a4, a5⟩ := runRefOps_facts e s0
  generalize runRefOps e s0 = s1 at a1 a3 a4 a5 ⊢
  have hlog : (Slave.log Event.emitSlaveDied s1).trace = s1.trace ++ [Event.emitSlaveDied] := rfl
  have hlogd : (Slave.log Event.emitSlaveDied s1).dead = s1.dead := rfl
  have hlogc : (Slave.log Event.emitSlaveDied s1).connection = s1.connection := rfl
  have hlogr : (Slave.log Event.emitSlaveDied s1).m_refCount = s1.m_refCount := rfl
  obtain ⟨l2, b1, b2, b3, b4, b5⟩ := runRefOps_facts d (Slave.log Event.emitSlaveDied s1)
  generalize runRefOps d (Slave.log Event.emitSlaveDied s1) = s2 at b1 b3 b4 b5 ⊢
  refine ⟨l1 ++ [Event.emitSlaveDied] ++ l2 ++ Event.deref :: teardownEvents (s2.m_refCount - 1),
    ?_, ?_, ?_, ?_, ?_⟩
  · rw [Slave.deref_trace_teardown, b1, hlog, a1]
    simp
  · have ht := deathSignals_teardownEvents (s2.m_refCount - 1)
    have hc : deathSignals (Event.deref :: teardownEvents (s2.m_refCount - 1)) = [] := by
      unfold deathSignals at ht ⊢
      rw [List.filter_cons, ht]
      simp [Event.isDeathSignal]
    rw [deathSignals_append, deathSignals_append, deathSignals_append, a2, b2, hc]
    simp [deathSignals, Event.isDeathSignal]
  · rw [Slave.deref_dead, b3, hlogd, a3]
  · rw [Slave.deref_connection, b4, hlogc, a4]
  · rw [Slave.deref_refCount, b5, hlogr, a5, netCount_append]

/-- The give-up branch of `timeout()` when the slots only take and release
references. -/
theorem Slave.timeoutGiveUpNotifying_facts (b : Build) (e d : List RefOp) (s : Slave) :
    deathSignals (addedEvents s (Slave.timeoutGiveUpNotifying b (refSlots e d) s))
      = workerDeath_spec b s.m_protocol s.m_host ∧
    (Slave.timeoutGiveUpNotifying b (refSlots e d) s).dead = true ∧
    (Slave.timeoutGiveUpNotifying b (refSlots e d) s).connection.connected = false ∧
    (Slave.timeoutGiveUpNotifying b (refSlots e d) s).m_refCount
      = netCount s.m_refCount (e ++ d) := by
  have hdef : Slave.timeoutGiveUpNotifying b (refSlots e d) s =
      Slave.deref (runRefOps d (Slave.log Event.emitSlaveDied (runRefOps e
        (Slave.log (Event.emitError b.ERR_SLAVE_DIED (Slave.diedArg s))
          (Slave.ref (Slave.setDead (Slave.connectionClose s))))))) := by
    simp [Slave.timeoutGiveUpNotifying, refSlots, Slave.diedArg, Slave.ref, Slave.setDead,
      Slave.connectionClose, Slave.log]
  obtain ⟨l, h1, h2, h3, h4, h5⟩ := emissions_with_refSlots e d
    (Slave.log (Event.emitError b.ERR_SLAVE_DIED (Slave.diedArg s))
      (Slave.ref (Slave.setDead (Slave.connectionClose s))))
  rw [hdef]
  have htr : (Slave.log (Event.emitError b.ERR_SLAVE_DIED (Slave.diedArg s))
      (Slave.ref (Slave.setDead (Slave.connectionClose s)))).trace =
      s.trace ++ [Event.connectionClose, Event.setDead, Event.ref,
        Event.emitError b.ERR_SLAVE_DIED (Slave.diedArg s)] := by
    simp [Slave.log, Slave.ref, Slave.setDead, Slave.connectionClose]
  refine ⟨?_, ?_, ?_, ?_⟩
  · rw [addedEvents_of_trace s _ _ (by rw [h1, htr, List.append_assoc]),
      deathSignals_append, h2, Slave.diedArg_eq_spec]
    simp [deathSignals, Event.isDeathSignal, workerDeath_spec]
  · rw [h3]; simp [Slave.log, Slave.ref, Slave.setDead, Slave.connectionClose]
  · rw [h4]; simp [Slave.log, Slave.ref, Slave.setDead, Slave.connectionClose]
  · rw [h5]
    have hc : (Slave.log (Event.emitError b.ERR_SLAVE_DIED (Slave.diedArg s))
        (Slave.ref (Slave.setDead (Slave.connectionClose s)))).m_refCount = s.m_refCount + 1 := by
      simp [Slave.log, Slave.ref, Slave.setDead, Slave.connectionClose]
    rw [hc]
    simp only [netCount]
    omega

/-- A failed `gotInput()` when the slots only take and release references. -/
theorem Slave.gotInputNotifying_facts (b : Build) (e d : List RefOp) (s : Slave)
    (hd : s.dead = false) :
    deathSignals (addedEvents s (Slave.gotInputNotifying b false (refSlots e d) s))
      = workerDeath_spec b s.m_protocol s.m_host ∧
    (Slave.gotInputNotifying b false (refSlots e d) s).dead = true ∧
    (Slave.gotInputNotifying b false (refSlots e d) s).connection.connected = false ∧
    (Slave.gotInputNotifying b false (refSlots e d) s).m_refCount
      = netCount s.m_refCount (e ++ d) := by
  have hdef : Slave.gotInputNotifying b false (refSlots e d) s =
      Slave.deref (runRefOps d (Slave.log Event.emitSlaveDied (runRefOps e
        (Slave.log (Event.emitError b.ERR_SLAVE_DIED (Slave.diedArg s))
          (Slave.setDead (Slave.connectionClose
            (Slave.log (Event.dispatch false) (Slave.ref s)))))))) := by
    simp [Slave.gotInputNotifying, hd, refSlots, Slave.diedArg, Slave.ref, Slave.setDead,
      Slave.connectionClose, Slave.log]
  obtain ⟨l, h1, h2, h3, h4, h5⟩ := emissions_with_refSlots e d
    (Slave.log (Event.emitError b.ERR_SLAVE_DIED (Slave.diedArg s))
      (Slave.setDead (Slave.connectionClose (Slave.log (Event.dispatch false) (Slave.ref s)))))
  rw [hdef]
  have htr : (Slave.log (Event.emitError b.ERR_SLAVE_DIED (Slave.diedArg s))
      (Slave.setDead (Slave.connectionClose
        (Slave.log (Event.dispatch false) (Slave.ref s))))).trace =
      s.trace ++ [Event.ref, Event.dispatch false, Event.connectionClose, Event.setDead,
        Event.emitError b.ERR_SLAVE_DIED (Slave.diedArg s)] := by
    simp [Slave.log, Slave.ref, Slave.setDead, Slave.connectionClose]
  refine ⟨?_, ?_, ?_, ?_⟩
  · rw [addedEvents_of_trace s _ _ (by rw [h1, htr, List.append_assoc]),
      deathSignals_append, h2, Slave.diedArg_eq_spec]
    simp [deathSignals, Event.isDeathSignal, workerDeath_spec]
  · rw [h3]; simp [Slave.log, Slave.ref, Slave.setDead, Slave.connectionClose]
  · rw [h4]; simp [Slave.log, Slave.ref, Slave.setDead, Slave.connectionClose]
  · rw [h5]
    have hc : (Slave.log (Event.emitError b.ERR_SLAVE_DIED (Slave.diedArg s))
        (Slave.setDead (Slave.connectionClose
          (Slave.log (Event.dispatch false) (Slave.ref s))))).m_refCount = s.m_refCount + 1 := by
      simp [Slave.log, Slave.ref, Slave.setDead, Slave.connectionClose]
    rw [hc]
    simp only [netCount]
    omega

theorem Slave.timeoutNotifying_gives_up (b : Build) (now : Nat) (alive : Int → Bool)
    (slots : Slots) (s : Slave) (hd : s.dead = false) (hc : s.connection.connected = false)
    (hg : s.m_pid = 0 ∨ alive s.m_pid = false ∨
      ¬ Slave.delta_t now s < s_slaveConnectionTimeoutMax b) :
    Slave.timeoutNotifying b now alive slots s = Slave.timeoutGiveUpNotifying b slots s := by
  rcases hg with h | h | h <;> simp [Slave.timeoutNotifying, hd, hc, h]

/-- C22 refuted at concrete handles.  The slot connected to `slaveDied`
releases the owner's reference, as the comments `After the above signal we're
dead!!` and `Here we might be dead!!` expect.  A give-up `timeout()` and a
failed `gotInput()` each enter with the count 1 and leave with the count 0 and
the handle destroyed: the count on exit is not the count on entry. -/
theorem C22_count_on_exit_is_lower_when_slot_releases :
    ftpWaiting.m_refCount = 1 ∧
    (Slave.timeoutNotifying exampleBuild 2000 (fun _ => false) (refSlots [] [RefOp.deref])
      ftpWaiting).m_refCount = 0 ∧
    (Slave.timeoutNotifying exampleBuild 2000 (fun _ => false) (refSlots [] [RefOp.deref])
      ftpWaiting).deleted = true ∧
    addedEvents ftpWaiting
        (Slave.timeoutNotifying exampleBuild 2000 (fun _ => false) (refSlots [] [RefOp.deref])
          ftpWaiting)
      = [Event.connectionClose, Event.setDead, Event.ref,
         Event.emitError exampleBuild.ERR_SLAVE_DIED "ftp://ftp.example.org",
         Event.emitSlaveDied, Event.deref, Event.deref, Event.connectionDisconnect,
         Event.disconnectAll, Event.deleteThis] ∧
    ftpConnected.m_refCount = 1 ∧
    (Slave.gotInputNotifying exampleBuild false (refSlots [] [RefOp.deref])
      ftpConnected).m_refCount = 0 ∧
    (Slave.gotInputNotifying exampleBuild false (refSlots [] [RefOp.deref])
      ftpConnected).deleted = true := by
  decide

/-- C22 as amended.  A handshake-timeout death (the give-up branch of
`timeout()`: the handle is not dead, its transport not connected, and its
process is not there or the time limit is reached) and a post-connection death
(`gotInput()` with `dispatch()` failing on a handle that is not dead), on
handles with the same protocol and host, show the same to the outside, namely
what the specification words: transport closed, dead flag set, then
`error(ERR_SLAVE_DIED, arg)` followed by `slaveDied`, with `arg` the protocol
alone when the host is empty and protocol, `://`, host otherwise.  Each leaves
its handle dead and its connection closed.  The `ref()` and `deref()` of the
operation cancel out, so the reference count on exit is the count on entry plus
the references the connected slots took and minus those they released during
the two emissions: it equals the count on entry when the slots leave the count
alone, and not otherwise. -/
theorem C22_timeout_death_like_gotInput_death (b : Build) (s1 s2 : Slave) (now : Nat)
    (alive : Int → Bool) (e1 d1 e2 d2 : List RefOp)
    (hp : s1.m_protocol = s2.m_protocol) (hh : s1.m_host = s2.m_host)
    (hd1 : s1.dead = false) (hc1 : s1.connection.connected = false)
    (hg : s1.m_pid = 0 ∨ alive s1.m_pid = false ∨
      ¬ Slave.delta_t now s1 < s_slaveConnectionTimeoutMax b)
    (hd2 : s2.dead = false) :
    deathSignals (addedEvents s1 (Slave.timeoutNotifying b now alive (refSlots e1 d1) s1))
      = workerDeath_spec b s1.m_protocol s1.m_host ∧
    deathSignals (addedEvents s2 (Slave.gotInputNotifying b false (refSlots e2 d2) s2))
      = workerDeath_spec b s1.m_protocol s1.m_host ∧
    deathSignals (addedEvents s1 (Slave.timeoutNotifying b now alive (refSlots e1 d1) s1))
      = deathSignals (addedEvents s2 (Slave.gotInputNotifying b false (refSlots e2 d2) s2)) ∧
    ((Slave.timeoutNotifying b now alive (refSlots e1 d1) s1).dead = true ∧
      (Slave.timeoutNotifying b now alive (refSlots e1 d1) s1).connection.connected = false ∧
      (Slave.timeoutNotifying b now alive (refSlots e1 d1) s1).m_refCount
        = netCount s1.m_refCount (e1 ++ d1)) ∧
    ((Slave.gotInputNotifying b false (refSlots e2 d2) s2).dead = true ∧
      (Slave.gotInputNotifying b false (refSlots e2 d2) s2).connection.connected = false ∧
      (Slave.gotInputNotifying b false (refSlots e2 d2) s2).m_refCount
        = netCount s2.m_refCount (e2 ++ d2)) ∧
    ((Slave.timeoutNotifying b now alive (refSlots e1 d1) s1).m_refCount = s1.m_refCount ↔
      (e1 ++ d1).count RefOp.ref = (e1 ++ d1).count RefOp.deref) ∧
    ((Slave.gotInputNotifying b false (refSlots e2 d2) s2).m_refCount = s2.m_refCount ↔
      (e2 ++ d2).count RefOp.ref = (e2 ++ d2).count RefOp.deref) ∧
    (Slave.timeout b now alive s1).m_refCount = s1.m_refCount ∧
    (Slave.gotInput b false s2).m_refCount = s2.m_refCount := by
  have ht := Slave.timeoutNotifying_gives_up b now alive (refSlots e1 d1) s1 hd1 hc1 hg
  have h1 := Slave.timeoutGiveUpNotifying_facts b e1 d1 s1
  have h2 := Slave.gotInputNotifying_facts b e2 d2 s2 hd2
  rw [← ht] at h1
  rw [← hp, ← hh] at h2
  have ht0 : Slave.timeout b now alive s1 = Slave.timeoutGiveUp b s1 := by
    rcases hg with h | h | h
    · exact Slave.timeout_process_gone b now alive s1 hd1 hc1 (Or.inl h)
    · exact Slave.timeout_process_gone b now alive s1 hd1 hc1 (Or.inr h)
    · exact Slave.timeout_over_limit b now alive s1 hd1 hc1 h
  refine ⟨h1.1, h2.1, h1.1.trans h2.1.symm, h1.2, h2.2, ?_, ?_, ?_,
    (Slave.gotInput_failed_fields b s2 hd2).2.2⟩
  · rw [h1.2.2.2]
    simp only [netCount]
    omega
  · rw [h2.2.2.2]
    simp only [netCount]
    omega
  · rw [ht0]
    exact (Slave.timeoutGiveUp_fields b s1).2.2

/-- C22 as amended, at concrete handles for protocol `ftp` and host
`ftp.example.org`: one never contacted and without process, one whose worker
had connected, with slots that take a reference at `error` and release it at
`slaveDied`. -/
theorem C22_timeout_death_like_gotInput_death_witness :
    deathSignals (addedEvents ftpWaiting
        (Slave.timeoutNotifying exampleBuild 2000 (fun _ => false)
          (refSlots [RefOp.ref] [RefOp.deref]) ftpWaiting))
      = [Event.connectionClose, Event.setDead,
         Event.emitError exampleBuild.ERR_SLAVE_DIED "ftp://ftp.example.org",
         Event.emitSlaveDied] ∧
    (Slave.gotInputNotifying exampleBuild false (refSlots [] [RefOp.deref])
      ftpConnected).m_refCount = 0 :=
  have h := C22_timeout_death_like_gotInput_death exampleBuild ftpWaiting ftpConnected 2000
    (fun _ => false) [RefOp.ref] [RefOp.deref] [] [RefOp.deref] (by decide) (by decide)
    (by decide) (by decide) (Or.inl (by decide)) (by decide)
  ⟨h.1.trans (by decide), h.2.2.2.2.1.2.2.trans (by decide)⟩

/-! ## Host, credentials and configuration (C23, C24) -/

/-- C23 refuted at a concrete handle.  After `setHost` with the password
`secret`, `resetHost()` leaves `passwd()` at `secret`; user and port stay as
well, and only the host changes, to `<reset>`. -/
theorem C23_password_survives_resetHost :
    (Slave.resetHost ftpWaiting).passwd = "secret" ∧
    (Slave.resetHost ftpWaiting).passwd ≠ "" ∧
    (Slave.resetHost ftpWaiting).user = "alice" ∧
    (Slave.resetHost ftpWaiting).port = 21 ∧
    (Slave.resetHost ftpWaiting).host = "<reset>" := by
  decide

theorem Slave.deref_passwd (s : Slave) : (Slave.deref s).m_passwd = s.m_passwd := by
  unfold Slave.deref
  simp only []
  split <;> rfl

/-- A method other than `setHost` leaves the password as it is. -/
theorem Op.run_passwd (b : Build) (op : Op) (s : Slave) (h : op.isSetHost = false) :
    (op.run b s).m_passwd = s.m_passwd := by
  cases op with
  | timeout now alive =>
    simp only [Op.run]
    rcases Slave.timeout_cases b now alive s with e | e | e
    · rw [e]
    · rw [e]; rfl
    · rw [e]
      unfold Slave.timeoutGiveUp
      simp only []
      rw [Slave.deref_passwd]
      simp [Slave.log, Slave.ref, Slave.setDead, Slave.connectionClose]
  | gotInput ok =>
    simp only [Op.run]
    unfold Slave.gotInput
    split
    · rfl
    · simp only []
      rw [Slave.deref_passwd]
      cases ok <;> simp [Slave.log, Slave.ref, Slave.setDead, Slave.connectionClose]
  | hold url =>
    have hd : (Slave.deref (Slave.log Event.emitSlaveDied (Slave.setDead (Slave.connectionClose
        (Slave.log (Event.connectionSend b.CMD_SLAVE_HOLD [StreamItem.url url])
          (Slave.ref s)))))).m_passwd = s.m_passwd := by
      rw [Slave.deref_passwd]
      simp [Slave.log, Slave.ref, Slave.setDead, Slave.connectionClose]
    simp only [Op.run]
    unfold Slave.hold
    simp only []
    split
    · exact hd
    · exact hd
  | kill =>
    simp only [Op.run]
    unfold Slave.kill
    simp only []
    split <;> rfl
  | accept =>
    simp only [Op.run]
    unfold Slave.accept
    split <;> rfl
  | setProtocol p => rfl
  | setConnected c => rfl
  | setHost host port user passwd => simp [Op.isSetHost] at h
  | resetHost => rfl
  | setConfig config => rfl
  | setJob job =>
    simp only [Op.run]
    unfold Slave.setJob
    simp only []
    split <;> rfl
  | setPID pid => rfl
  | setIdle now => rfl
  | suspend => rfl
  | resume => rfl
  | send cmd arr => rfl
  | ref => rfl
  | deref => exact Slave.deref_passwd s

theorem runOps_passwd (b : Build) (ops : List Op) :
    ∀ s : Slave, (∀ op ∈ ops, op.isSetHost = false) →
      (runOps b ops s).m_passwd = s.m_passwd := by
  induction ops with
  | nil => intro s _; rfl
  | cons op ops ih =>
    intro s h
    simp only [runOps, List.foldl_cons]
    have := ih (op.run b s) (fun o ho => h o (List.mem_cons_of_mem _ ho))
    simp only [runOps] at this
    rw [this]
    exact Op.run_passwd b op s (h op (List.mem_cons_self _ _))

/-- C23 as amended.  `resetHost()` does not touch the password: for every
prior state of the handle, `passwd()` returns after `resetHost()` what it
returned before, and so the empty string exactly when it was empty before.
`resetHost()` sets the host to `<reset>` and clears the SSL metadata; user,
port, the other fields and the trace stay as they were.  The password changes
only in `setHost`, which stores the one it is given: every other method, and
every sequence of calls without `setHost`, leaves `passwd()` as it was. -/
theorem C23_resetHost_keeps_password (b : Build) (s : Slave) (host : String) (port : Nat)
    (user passwd : String) :
    (Slave.resetHost s).passwd = s.passwd ∧
    ((Slave.resetHost s).passwd = "" ↔ s.passwd = "") ∧
    (Slave.resetHost (Slave.setHost b host port user passwd s)).passwd = passwd ∧
    (Slave.resetHost s).host = "<reset>" ∧
    (Slave.resetHost s).sslMetaData = [] ∧
    (Slave.resetHost s).user = s.user ∧
    (Slave.resetHost s).port = s.port ∧
    Slave.resetHost s = { s with m_host := "<reset>", sslMetaData := [] } ∧
    (Slave.setHost b host port user passwd s).passwd = passwd ∧
    (∀ op : Op, op.isSetHost = false → (op.run b s).passwd = s.passwd) ∧
    (∀ ops : List Op, (∀ op ∈ ops, op.isSetHost = false) →
      (runOps b ops s).passwd = s.passwd) :=
  ⟨rfl, Iff.rfl, rfl, rfl, rfl, rfl, rfl, rfl, rfl,
   fun op h => Op.run_passwd b op s h, fun ops h => runOps_passwd b ops s h⟩

/-- C23 as amended, at a concrete run: after `setHost` with the password
`secret`, a host reset, arriving input, a configuration and a hold leave
`passwd()` at `secret`. -/
theorem C23_resetHost_keeps_password_witness :
    (runOps exampleBuild
      [Op.resetHost, Op.gotInput true, Op.setConfig [], Op.resetHost, Op.hold "file:///tmp"]
      ftpWaiting).passwd = "secret" :=
  (C23_resetHost_keeps_password exampleBuild ftpWaiting "" 0 "" "").2.2.2.2.2.2.2.2.2.2
    [Op.resetHost, Op.gotInput true, Op.setConfig [], Op.resetHost, Op.hold "file:///tmp"]
    (by decide)

/-- C24: for every host, port, user and password, `setHost(h, p, u, pw)` stores
the four values, so that `host()`, `port()`, `user()` and `passwd()` return
them, and hands exactly one frame to the connection: `CMD_HOST` with the
serialisation of `h`, `p`, `u`, `pw` in that order.  A `setConfig(c)` that
follows hands over exactly one `CMD_CONFIG` frame, after the first, and changes
none of the four values. -/
theorem C24_setHost_then_setConfig (b : Build) (s : Slave) (h : String) (p : Nat)
    (u pw : String) (c : List (String × String)) :
    (Slave.setHost b h p u pw s).host = h ∧
    (Slave.setHost b h p u pw s).port = p ∧
    (Slave.setHost b h p u pw s).user = u ∧
    (Slave.setHost b h p u pw s).passwd = pw ∧
    addedEvents s (Slave.setHost b h p u pw s) =
      [Event.connectionSend b.CMD_HOST
        [StreamItem.str h, StreamItem.u16 p, StreamItem.str u, StreamItem.str pw]] ∧
    addedEvents (Slave.setHost b h p u pw s) (Slave.setConfig b c (Slave.setHost b h p u pw s)) =
      [Event.connectionSend b.CMD_CONFIG [StreamItem.metaData c]] ∧
    (Slave.setConfig b c (Slave.setHost b h p u pw s)).trace =
      s.trace ++
        [Event.connectionSend b.CMD_HOST
          [StreamItem.str h, StreamItem.u16 p, StreamItem.str u, StreamItem.str pw],
         Event.connectionSend b.CMD_CONFIG [StreamItem.metaData c]] ∧
    ((Slave.setConfig b c (Slave.setHost b h p u pw s)).host = h ∧
      (Slave.setConfig b c (Slave.setHost b h p u pw s)).port = p ∧
      (Slave.setConfig b c (Slave.setHost b h p u pw s)).user = u ∧
      (Slave.setConfig b c (Slave.setHost b h p u pw s)).passwd = pw) := by
  refine ⟨rfl, rfl, rfl, rfl, ?_, ?_, ?_, rfl, rfl, rfl, rfl⟩
  · exact addedEvents_of_trace s _ _ rfl
  · exact addedEvents_of_trace _ _ _ rfl
  · simp [Slave.setConfig, Slave.setHost, Slave.log]

/-! ## The listener after `accept()` (C25) -/

theorem Slave.deref_no_listener (s : Slave)
    (h : s.slaveconnserver = false ∧ s.listening = false) :
    (Slave.deref s).slaveconnserver = false ∧ (Slave.deref s).listening = false := by
  unfold Slave.deref
  simp only []
  split
  · exact ⟨rfl, rfl⟩
  · exact h

/-- No method of the handle brings a listener back. -/
theorem Op.run_no_listener (b : Build) (op : Op) (s : Slave)
    (h : s.slaveconnserver = false ∧ s.listening = false) :
    (op.run b s).slaveconnserver = false ∧ (op.run b s).listening = false := by
  cases op with
  | timeout now alive =>
    simp only [Op.run]
    rcases Slave.timeout_cases b now alive s with e | e | e
    · rw [e]; exact h
    · rw [e]; exact h
    · rw [e]
      unfold Slave.timeoutGiveUp
      simp only []
      apply Slave.deref_no_listener
      simpa [Slave.log, Slave.ref, Slave.setDead, Slave.connectionClose] using h
  | gotInput ok =>
    simp only [Op.run]
    unfold Slave.gotInput
    split
    · exact h
    · simp only []
      apply Slave.deref_no_listener
      cases ok <;>
        simpa [Slave.log, Slave.ref, Slave.setDead, Slave.connectionClose] using h
  | hold url =>
    have hd : (Slave.deref (Slave.log Event.emitSlaveDied (Slave.setDead (Slave.connectionClose
        (Slave.log (Event.connectionSend b.CMD_SLAVE_HOLD [StreamItem.url url])
          (Slave.ref s)))))).slaveconnserver = false ∧
        (Slave.deref (Slave.log Event.emitSlaveDied (Slave.setDead (Slave.connectionClose
        (Slave.log (Event.connectionSend b.CMD_SLAVE_HOLD [StreamItem.url url])
          (Slave.ref s)))))).listening = false := by
      apply Slave.deref_no_listener
      simpa [Slave.log, Slave.ref, Slave.setDead, Slave.connectionClose] using h
    simp only [Op.run]
    unfold Slave.hold
    simp only []
    split
    · exact hd
    · exact hd
  | kill =>
    simp only [Op.run]
    unfold Slave.kill
    simp only []
    split <;> exact h
  | accept =>
    simp only [Op.run]
    unfold Slave.accept
    split
    · exact ⟨rfl, rfl⟩
    · exact h
  | setProtocol p => exact h
  | setConnected c => exact h
  | setHost host port user passwd => exact h
  | resetHost => exact h
  | setConfig config => exact h
  | setJob job =>
    simp only [Op.run]
    unfold Slave.setJob
    simp only []
    split <;> exact h
  | setPID pid => exact h
  | setIdle now => exact h
  | suspend => exact h
  | resume => exact h
  | send cmd arr => exact h
  | ref => exact h
  | deref => exact Slave.deref_no_listener s h

theorem runOps_no_listener (b : Build) (ops : List Op) :
    ∀ s : Slave, s.slaveconnserver = false ∧ s.listening = false →
      (runOps b ops s).slaveconnserver = false ∧ (runOps b ops s).listening = false := by
  induction ops with
  | nil => intro s h; exact h
  | cons op ops ih =>
    intro s h
    simp only [runOps, List.foldl_cons]
    exact ih _ (Op.run_no_listener b op s h)

theorem acceptedPeers_deref (s : Slave) :
    acceptedPeers (Slave.deref s).trace = acceptedPeers s.trace := by
  rw [Slave.deref_trace]
  unfold acceptedPeers
  split <;> simp [List.count_append, List.count_cons]

/-- A method other than `accept()` attaches no peer, and `accept()` attaches
none on a handle whose listener pointer is null. -/
theorem Op.run_acceptedPeers (b : Build) (op : Op) (s : Slave)
    (h : op.isAccept = false ∨ s.slaveconnserver = false) :
    acceptedPeers (op.run b s).trace = acceptedPeers s.trace := by
  cases op with
  | timeout now alive =>
    simp only [Op.run]
    rcases Slave.timeout_cases b now alive s with e | e | e
    · rw [e]
    · rw [e]; simp [Slave.singleShot, Slave.log, acceptedPeers, List.count_append]
    · rw [e, Slave.timeoutGiveUp_trace]
      unfold acceptedPeers teardownEvents
      split <;> simp [List.count_append, List.count_cons]
  | gotInput ok =>
    simp only [Op.run]
    cases hd : s.dead with
    | true => rw [Slave.gotInput_of_dead b ok s hd]
    | false =>
      cases ok with
      | false =>
        rw [Slave.gotInput_failed_trace b s hd]
        unfold acceptedPeers teardownEvents
        split <;> simp [List.count_append, List.count_cons]
      | true =>
        unfold Slave.gotInput
        simp only [hd, Bool.false_eq_true, if_false, Bool.not_true]
        rw [acceptedPeers_deref]
        simp [Slave.log, Slave.ref, acceptedPeers, List.count_append]
  | hold url =>
    simp only [Op.run]
    rw [Slave.hold_trace]
    unfold acceptedPeers teardownEvents
    split <;> split <;> simp [List.count_append, List.count_cons]
  | kill =>
    simp only [Op.run]
    unfold Slave.kill
    simp only []
    split <;> simp [Slave.setDead, Slave.log, acceptedPeers, List.count_append]
  | accept =>
    rcases h with h | h
    · simp [Op.isAccept] at h
    · simp [Op.run, Slave.accept, h, Slave.log, acceptedPeers, List.count_append]
  | setProtocol p => rfl
  | setConnected c => rfl
  | setHost host port user passwd =>
    simp [Op.run, Slave.setHost, Slave.log, acceptedPeers, List.count_append]
  | resetHost => rfl
  | setConfig config =>
    simp [Op.run, Slave.setConfig, Slave.log, acceptedPeers, List.count_append]
  | setJob job =>
    simp only [Op.run]
    unfold Slave.setJob
    simp only []
    split <;> simp [Slave.log, acceptedPeers, List.count_append]
  | setPID pid => rfl
  | setIdle now => rfl
  | suspend => simp [Op.run, Slave.suspend, Slave.log, acceptedPeers, List.count_append]
  | resume => simp [Op.run, Slave.resume, Slave.log, acceptedPeers, List.count_append]
  | send cmd arr => simp [Op.run, Slave.send, Slave.log, acceptedPeers, List.count_append]
  | ref => simp [Op.run, Slave.ref, Slave.log, acceptedPeers, List.count_append]
  | deref => exact acceptedPeers_deref s

theorem Slave.accept_of_no_listener (s : Slave) (h : s.slaveconnserver = false) :
    Slave.accept s = Slave.log Event.nullPointerCall s := by
  simp [Slave.accept, h]

/-- On a handle without listener no sequence of calls, `accept()` included,
attaches a peer. -/
theorem runOps_acceptedPeers (b : Build) (ops : List Op) :
    ∀ s : Slave, s.slaveconnserver = false ∧ s.listening = false →
      acceptedPeers (runOps b ops s).trace = acceptedPeers s.trace := by
  induction ops with
  | nil => intro s _; rfl
  | cons op ops ih =>
    intro s h
    simp only [runOps, List.foldl_cons]
    have := ih (op.run b s) (Op.run_no_listener b op s h)
    simp only [runOps] at this
    rw [this]
    exact Op.run_acceptedPeers b op s (Or.inr h.1)

/-- C25: on a handle that has its listener, `accept()` attaches the pending
peer to the connection of the handle, schedules the listener for deletion and
clears the pointer to it, so the handle has no listening endpoint afterwards.
No sequence of later calls on the handle, further calls of `accept()` included,
brings a listener back or attaches a second peer: exactly one peer more than
before the first `accept()` has been attached, whatever is called afterwards.
A later `accept()` finds the pointer cleared: it is a call through a null
pointer, which attaches nothing. -/
theorem C25_listener_gone_after_accept (b : Build) (s : Slave) (ops : List Op)
    (hs : s.slaveconnserver = true) :
    addedEvents s (Slave.accept s) =
      [Event.setNextPendingConnection, Event.listenerDeleteLater, Event.connectReadyRead] ∧
    (Slave.accept s).slaveconnserver = false ∧
    (Slave.accept s).listening = false ∧
    (Slave.accept s).connection.connected = true ∧
    (runOps b ops (Slave.accept s)).slaveconnserver = false ∧
    (runOps b ops (Slave.accept s)).listening = false ∧
    acceptedPeers (runOps b ops (Slave.accept s)).trace = acceptedPeers s.trace + 1 ∧
    addedEvents (runOps b ops (Slave.accept s))
      (Slave.accept (runOps b ops (Slave.accept s))) = [Event.nullPointerCall] := by
  have h1 : (Slave.accept s).slaveconnserver = false ∧ (Slave.accept s).listening = false := by
    simp [Slave.accept, hs, Slave.log]
  have h2 := runOps_no_listener b ops _ h1
  refine ⟨addedEvents_of_trace s _ _ (by simp [Slave.accept, hs, Slave.log]), h1.1, h1.2,
    by simp [Slave.accept, hs, Slave.log], h2.1, h2.2, ?_, ?_⟩
  · rw [runOps_acceptedPeers b ops _ h1]
    simp [Slave.accept, hs, Slave.log, acceptedPeers, List.count_append]
  · exact addedEvents_of_trace _ _ _ (by
      rw [Slave.accept_of_no_listener _ h2.1]
      rfl)

/-- C25 at a concrete run: after `accept()`, a host is set, input arrives,
`accept()` is called again, the connection is suspended and resumed and the
handle is put on hold; no listener comes back and one peer was attached. -/
theorem C25_listener_gone_after_accept_witness :
    (runOps exampleBuild
      [Op.setHost "localhost" 0 "" "", Op.gotInput true, Op.accept, Op.suspend, Op.resume,
       Op.hold "file:///tmp"] (Slave.accept waitingHandle)).listening = false ∧
    acceptedPeers (runOps exampleBuild
      [Op.setHost "localhost" 0 "" "", Op.gotInput true, Op.accept, Op.suspend, Op.resume,
       Op.hold "file:///tmp"] (Slave.accept waitingHandle)).trace = 1 :=
  have h := C25_listener_gone_after_accept exampleBuild waitingHandle
    [Op.setHost "localhost" 0 "" "", Op.gotInput true, Op.accept, Op.suspend, Op.resume,
     Op.hold "file:///tmp"] (by decide)
  ⟨h.2.2.2.2.2.1, h.2.2.2.2.2.2.1.trans (by decide)⟩

/-! ## Parked workers in direct-spawn mode (C26) -/

/-- C26: whenever `forkSlaves()` returns true, `holdSlave(protocol, url)`
returns no handle and `checkForHeldSlave(url)` returns false, for every
protocol and url; neither constructs a handle nor asks the launcher.
`holdSlave` returns no handle for the protocol `data` in either mode, before
`forkSlaves()` is called. -/
theorem C26_no_parked_workers_when_forking (b : Build) (env : LaunchEnv) (memo : Int)
    (protocol : String) (url : Url) (hf : (forkSlaves b env memo).fork = true) :
    (holdSlave b env memo protocol url).result = none ∧
    (holdSlave b env memo protocol url).deletedSlave = none ∧
    (holdSlave b env memo protocol url).holdRequest = none ∧
    checkForHeldSlave b env memo url =
      { value := false, asked := none, decision := forkSlaves b env memo } ∧
    (∀ (b1 : Build) (env1 : LaunchEnv) (memo1 : Int),
      holdSlave b1 env1 memo1 "data" url =
        { result := none, deletedSlave := none, holdRequest := none, decision := none }) := by
  refine ⟨?_, ?_, ?_, ?_, ?_⟩
  · unfold holdSlave
    split
    · rfl
    · simp [hf]
  · unfold holdSlave
    split
    · rfl
    · simp [hf]
  · unfold holdSlave
    split
    · rfl
    · simp [hf]
  · simp [checkForHeldSlave, hf]
  · intro b1 env1 memo1
    simp [holdSlave]

/-- C26 at concrete calls: with `KDE_FORK_SLAVES` set no parked worker is
looked for, although the launcher of that environment would report one. -/
theorem C26_no_parked_workers_when_forking_witness :
    (holdSlave exampleBuild parkedForkEnv (-1) "file" tmpUrl).result = none ∧
    (checkForHeldSlave exampleBuild parkedForkEnv (-1) tmpUrl).value = false ∧
    (checkForHeldSlave exampleBuild parkedForkEnv (-1) tmpUrl).asked = none ∧
    (checkForHeldSlave exampleBuild { parkedForkEnv with envForkSlaves := false } (-1)
      tmpUrl).value = true :=
  have h := C26_no_parked_workers_when_forking exampleBuild parkedForkEnv (-1) "file" tmpUrl
    (by decide)
  ⟨h.1, by rw [h.2.2.2.1], by rw [h.2.2.2.1], by decide⟩

/-! ## Delegated execution is disabled (C27) -/

/-- C27 refuted at a concrete execution.  The `UnitTesting` metadata is `true`
and every confirmation request is answered "canceled", so
`privilegeOperationUnitTestMode()` is false; `execWithElevatedPrivilege` returns
`failure(EACCES)`, and a confirmation request, `Test Call`, was made during the
call. -/
theorem C27_probe_is_requested_when_test_call_is_refused :
    (privilegeOperationUnitTestMode refusedTestEnv).1 = false ∧
    execWithElevatedPrivilege exampleCodes refusedTestEnv ActionType.DEL
        [QVariant.str "/etc/motd"] EACCES
      = { value := PrivilegeOperationReturnValue.failure EACCES,
          trace := [FileEvent.requestPrivilegeOperation "Test Call"] } ∧
    (FileEvent.requestPrivilegeOperation "Test Call").isPrompt = true := by
  decide

/-- C27 as amended.  Whenever `privilegeOperationUnitTestMode()` is false, for
every action kind, argument list and error code (`EACCES` and `EPERM`
included), `execWithElevatedPrivilege` returns the failure carrying exactly the
given error code; it makes no confirmation request with the details of the
action, inspects no ownership, submits nothing to the privileged helper,
records no temporary authorization and reports no error.  The only request it
can make is the probe `Test Call` of `privilegeOperationUnitTestMode()`
itself, made exactly when the `UnitTesting` metadata is `true`; otherwise it
does nothing at all. -/
theorem C27_delegated_execution_is_disabled (k : ErrorCodes) (env : FileEnv)
    (action : ActionType) (args : List QVariant) (errcode : Int)
    (hu : (privilegeOperationUnitTestMode env).1 = false) :
    (execWithElevatedPrivilege k env action args errcode).value
      = PrivilegeOperationReturnValue.failure errcode ∧
    (execWithElevatedPrivilege k env action args errcode).trace =
      (if env.metaData "UnitTesting" = "true" then
        [FileEvent.requestPrivilegeOperation "Test Call"]
      else []) ∧
    FileEvent.requestPrivilegeOperation (actionDetails action args) ∉
      (execWithElevatedPrivilege k env action args errcode).trace ∧
    (∀ path, FileEvent.ownerId path ∉
      (execWithElevatedPrivilege k env action args errcode).trace) ∧
    (∀ a as, FileEvent.helperExecute a as ∉
      (execWithElevatedPrivilege k env action args errcode).trace) ∧
    (∀ actionId, FileEvent.addTemporaryAuthorization actionId ∉
      (execWithElevatedPrivilege k env action args errcode).trace) ∧
    (∀ code text, FileEvent.error code text ∉
      (execWithElevatedPrivilege k env action args errcode).trace) := by
  have hv := execWithElevatedPrivilege_value k env action args errcode
  have ht := execWithElevatedPrivilege_trace k env action args errcode
  refine ⟨by rw [hv]; simp [hu], ht, ?_, ?_, ?_, ?_, ?_⟩
  · rw [ht]
    split
    · simp only [List.mem_singleton]
      intro h
      injection h with h
      exact actionDetails_ne_testCall action args h
    · simp
  · intro path
    rw [ht]
    split <;> simp
  · intro a as
    rw [ht]
    split <;> simp
  · intro actionId
    rw [ht]
    split <;> simp
  · intro code text
    rw [ht]
    split <;> simp

/-- C27 as amended, at a concrete call: outside unit-test mode a delete
denied with `EACCES`, asked by a user whose requests would all be allowed,
returns the failure and does nothing. -/
theorem C27_delegated_execution_is_disabled_witness :
    (execWithElevatedPrivilege exampleCodes ownerEnv ActionType.DEL [QVariant.str "/etc/motd"]
      EACCES).value = PrivilegeOperationReturnValue.failure EACCES ∧
    (execWithElevatedPrivilege exampleCodes ownerEnv ActionType.DEL [QVariant.str "/etc/motd"]
      EACCES).trace = [] :=
  have h := C27_delegated_execution_is_disabled exampleCodes ownerEnv ActionType.DEL
    [QVariant.str "/etc/motd"] EACCES (by decide)
  ⟨h.1, h.2.1.trans (by decide)⟩

/-! ## Termination of `symlink` (C28) -/

/-- An execution of the body that does not end in the retry returns. -/
theorem symlinkWith_settles (k : SymlinkErrorCodes) (elevation : Elevation)
    (sys : Nat → SymlinkAttempt) (target dest : String) (overwrite : Bool) (fuel n : Nat)
    (h : FileProtocol.symlinkRetries elevation sys dest overwrite n = false) :
    (FileProtocol.symlinkWith k elevation sys target dest overwrite (fuel + 1) n).isSome = true := by
  unfold FileProtocol.symlinkRetries at h
  unfold FileProtocol.symlinkWith
  cases hs : (sys n).symlink with
  | none => simp
  | some errno =>
    simp only [hs] at h
    by_cases he : errno = EEXIST
    · cases overwrite with
      | false => simp only [he, if_true, Bool.false_eq_true, if_false]; split <;> rfl
      | true =>
        cases hu : (sys n).unlink with
        | none => simp [he, hu] at h
        | some errno2 =>
          simp only [he, hu, decide_True, Bool.and_self, Bool.true_and, Bool.not_eq_false'] at h
          simp only [he, if_true, h]
          split <;> rfl
    · simp only [he, if_false]
      split
      · split <;> rfl
      · rfl

/-- An execution of the body that ends in the retry returns exactly when the
nested call does. -/
theorem symlinkWith_retry (k : SymlinkErrorCodes) (elevation : Elevation)
    (sys : Nat → SymlinkAttempt) (target dest : String) (overwrite : Bool) (fuel n : Nat)
    (h : FileProtocol.symlinkRetries elevation sys dest overwrite n = true) :
    (FileProtocol.symlinkWith k elevation sys target dest overwrite (fuel + 1) n).isSome =
      (FileProtocol.symlinkWith k elevation sys target dest overwrite fuel (n + 1)).isSome := by
  unfold FileProtocol.symlinkRetries at h
  rw [FileProtocol.symlinkWith]
  cases hs : (sys n).symlink with
  | none => simp [hs] at h
  | some errno =>
    simp only [hs, Bool.and_eq_true, decide_eq_true_eq] at h
    obtain ⟨⟨he, ho⟩, hu⟩ := h
    cases hu2 : (sys n).unlink with
    | none => simp [he, ho]
    | some errno2 =>
      simp only [hu2, Bool.not_eq_true'] at hu
      simp [he, ho, hu]

/-- `symlink` returns as soon as one execution of its body does not end in the
retry: enough fuel gives the result. -/
theorem symlinkWith_returns (k : SymlinkErrorCodes) (elevation : Elevation)
    (sys : Nat → SymlinkAttempt) (target dest : String) (overwrite : Bool) :
    ∀ (m n : Nat), FileProtocol.symlinkRetries elevation sys dest overwrite (n + m) = false →
      (∀ j, j < m → FileProtocol.symlinkRetries elevation sys dest overwrite (n + j) = true) →
      ∀ fuel, m < fuel →
        (FileProtocol.symlinkWith k elevation sys target dest overwrite fuel n).isSome = true := by
  intro m
  induction m with
  | zero =>
    intro n h _ fuel hf
    obtain ⟨f, rfl⟩ : ∃ f, fuel = f + 1 := ⟨fuel - 1, by omega⟩
    exact symlinkWith_settles k elevation sys target dest overwrite f n h
  | succ m ih =>
    intro n h hall fuel hf
    obtain ⟨f, rfl⟩ : ∃ f, fuel = f + 1 := ⟨fuel - 1, by omega⟩
    rw [symlinkWith_retry k elevation sys target dest overwrite f n (hall 0 (by omega))]
    apply ih (n + 1)
    · rw [show n + 1 + m = n + (m + 1) by omega]; exact h
    · intro j hj
      rw [show n + 1 + j = n + (j + 1) by omega]
      exact hall (j + 1) (by omega)
    · omega

/-- When every execution of the body ends in the retry, `symlink` never
returns: no fuel is enough. -/
theorem symlinkWith_never_returns (k : SymlinkErrorCodes) (elevation : Elevation)
    (sys : Nat → SymlinkAttempt) (target dest : String) (overwrite : Bool)
    (h : ∀ n, FileProtocol.symlinkRetries elevation sys dest overwrite n = true) :
    ∀ fuel n, FileProtocol.symlinkWith k elevation sys target dest overwrite fuel n = none := by
  intro fuel
  induction fuel with
  | zero => intro n; rfl
  | succ f ih =>
    intro n
    have := symlinkWith_retry k elevation sys target dest overwrite f n (h n)
    rw [ih (n + 1)] at this
    simpa using this

/-- C28 evaluated at a failing input.  The destination exists in a directory
the user may not write (`::symlink` fails with `EEXIST`, `unlink` with
`EACCES`, at every depth) and `Overwrite` is set.  In unit-test mode the
delegated delete returns success without deleting anything, `symlink` calls
itself, and the nested call meets the same answers: the call never returns,
whatever depth is allowed.  Outside unit-test mode the same call returns with
`ERR_CANNOT_DELETE`; and when `unlink` does succeed the retry returns with
`finished()`. -/
theorem C28_symlink_retries_forever_in_unit_test_mode :
    (∀ fuel, FileProtocol.symlink exampleSymlinkCodes unitTestEnv protectedDest
        "/srv/target" "/srv/locked/link" true fuel = none) ∧
    (∀ n, FileProtocol.symlinkRetries (execWithElevatedPrivilege exampleCodes unitTestEnv)
        protectedDest "/srv/locked/link" true n = true) ∧
    execWithElevatedPrivilege exampleCodes unitTestEnv ActionType.DEL
        [QVariant.str "/srv/locked/link"] EACCES
      = { value := PrivilegeOperationReturnValue.success,
          trace := [FileEvent.requestPrivilegeOperation "Test Call"] } ∧
    FileProtocol.symlink exampleSymlinkCodes ownerEnv protectedDest
        "/srv/target" "/srv/locked/link" true 1
      = some [OpEvent.elevate ActionType.DEL [QVariant.str "/srv/locked/link"] EACCES,
              OpEvent.error exampleSymlinkCodes.ERR_CANNOT_DELETE "/srv/locked/link"] ∧
    FileProtocol.symlink exampleSymlinkCodes ownerEnv replaceableDest
        "/srv/target" "/srv/link" true 2 = some [OpEvent.finished] := by
  have hr : ∀ n, FileProtocol.symlinkRetries (execWithElevatedPrivilege exampleCodes unitTestEnv)
      protectedDest "/srv/locked/link" true n = true := by
    intro n
    rfl
  refine ⟨?_, hr, by decide, by decide, by decide⟩
  intro fuel
  exact symlinkWith_never_returns exampleSymlinkCodes
    (execWithElevatedPrivilege exampleCodes unitTestEnv) protectedDest
    "/srv/target" "/srv/locked/link" true hr fuel 0

/-! ## The open mode derived from the `open` flags (C29) -/

/-- What `tryOpen` derives from each flag: `O_RDONLY` is 0, so the test
`flags & O_RDONLY` never holds and contributes nothing; the `ReadOnly` bit comes
with `ReadWrite` only, that is when `O_RDWR` is set.  `WriteOnly` is there
whenever `O_WRONLY` or `O_CREAT` is set, `ReadWrite` whenever `O_RDWR` is set,
`Truncate` exactly when `O_TRUNC` is set and `Append` exactly when `O_APPEND`
is set. -/
theorem openMode_bits (flags : Nat) :
    (FileProtocol.openMode flags &&& QIODevice.ReadOnly ≠ 0 ↔ flags &&& O_RDWR ≠ 0) ∧
    ((flags &&& O_WRONLY ≠ 0 ∨ flags &&& O_CREAT ≠ 0) →
      FileProtocol.openMode flags &&& QIODevice.WriteOnly ≠ 0) ∧
    (flags &&& O_RDWR ≠ 0 →
      FileProtocol.openMode flags &&& QIODevice.ReadWrite = QIODevice.ReadWrite) ∧
    (FileProtocol.openMode flags &&& QIODevice.Truncate ≠ 0 ↔ flags &&& O_TRUNC ≠ 0) ∧
    (FileProtocol.openMode flags &&& QIODevice.Append ≠ 0 ↔ flags &&& O_APPEND ≠ 0) := by
  unfold FileProtocol.openMode
  simp only [O_RDONLY, Nat.and_zero, ne_eq, not_true_eq_false, if_false]
  by_cases h1 : flags &&& O_WRONLY ≠ 0 ∨ flags &&& O_CREAT ≠ 0 <;>
    by_cases h2 : flags &&& O_RDWR ≠ 0 <;>
    by_cases h3 : flags &&& O_TRUNC ≠ 0 <;>
    by_cases h4 : flags &&& O_APPEND ≠ 0 <;>
    simp only [ne_eq] at h1 h2 h3 h4 <;>
    simp only [h1, h2, h3, h4, if_true, if_false, not_true_eq_false, not_false_eq_true,
      ne_eq, iff_true, iff_false, true_implies, false_implies, and_true, true_and] <;>
    decide

/-- C29 evaluated at a failing input.  For the flags `O_RDONLY`, which `copy()`
passes for its source file, `tryOpen` derives the open mode 0: it does not hold
`ReadOnly`.  In unit-test mode, with a listening receiver that got descriptor 7,
the file is asked to adopt the descriptor with mode 0, and `tryOpen` returns
`failure(errcode)` when the file refuses a mode without access.  The modes for
`O_WRONLY | O_TRUNC | O_CREAT` and for `O_RDWR` are as expected. -/
theorem C29_read_only_flags_give_no_read_access :
    FileProtocol.openMode O_RDONLY = 0 ∧
    FileProtocol.openMode O_RDONLY &&& QIODevice.ReadOnly = 0 ∧
    FileProtocol.tryOpen exampleCodes unitTestEnv accessCheckingReceiver "/etc/shadow" O_RDONLY
        256 EACCES
      = (PrivilegeOperationReturnValue.failure EACCES,
         [OpEvent.fdReceiver "/run/user/1000/filehelperAbCdEf4242",
          OpEvent.elevate ActionType.OPEN
            [QVariant.str "/etc/shadow", QVariant.int 0, QVariant.int 256,
             QVariant.str "/run/user/1000/filehelperAbCdEf4242"] EACCES,
          OpEvent.delegated (FileEvent.requestPrivilegeOperation "Test Call"),
          OpEvent.fileOpen 7 0]) ∧
    FileProtocol.openMode (O_WRONLY ||| O_TRUNC ||| O_CREAT)
      = QIODevice.WriteOnly ||| QIODevice.Truncate ∧
    FileProtocol.openMode O_RDWR = QIODevice.ReadWrite ∧
    (FileProtocol.tryOpen exampleCodes unitTestEnv accessCheckingReceiver "/etc/shadow" O_RDWR
      256 EACCES).1 = PrivilegeOperationReturnValue.success := by
  decide

/-! ## The hidden bit of the NTFS attribute (C30) -/

theorem and_two_eq (x : Nat) : x &&& 2 = (x % 4) &&& 2 := by
  have h : x &&& 2 = (x &&& (2 ^ 2 - 1)) &&& 2 := by
    rw [Nat.and_assoc]
    rfl
  rw [h, Nat.and_pow_two_sub_one_eq_mod]

theorem hidden_bit_iff (x : Nat) : x &&& 2 ≠ 0 ↔ 2 ≤ x % 4 := by
  rw [and_two_eq]
  have h : x % 4 < 4 := Nat.mod_lt _ (by decide)
  generalize x % 4 = r at h
  interval_cases r <;> decide

theorem digitValue_digits :
    ∀ d, d < 16 → strtol.digitValue (isNtfsHidden.digits.getD d 0) = some d := by
  decide

theorem byte_digits (c : Nat) (h : c < 256) :
    (c % 256) >>> 4 = c / 16 ∧ (c % 256) &&& 0x0F = c % 16 ∧ c / 16 < 16 ∧ c % 16 < 16 := by
  have h1 : c % 256 = c := Nat.mod_eq_of_lt h
  have h2 : c &&& 0x0F = c % 16 := Nat.and_pow_two_sub_one_eq_mod c 4
  rw [h1, Nat.shiftRight_eq_div_pow]
  exact ⟨rfl, h2, by omega, by omega⟩

theorem digitsValue_cons (base c : Nat) (cs : List Nat) (acc d : Nat)
    (h : strtol.digitValue c = some d) (hlt : d < base) :
    strtol.digitsValue base (c :: cs) acc = strtol.digitsValue base cs (acc * base + d) := by
  simp [strtol.digitsValue, h, hlt]

theorem digitsValue_hex (bytes : List Nat) :
    (∀ b ∈ bytes, b < 256) →
    ∀ acc, strtol.digitsValue 16
        (bytes.flatMap (fun c =>
          [isNtfsHidden.digits.getD ((c % 256) >>> 4) 0,
           isNtfsHidden.digits.getD ((c % 256) &&& 0x0F) 0])) acc =
      bytes.foldl (fun a b => a * 256 + b) acc := by
  induction bytes with
  | nil => intro _ acc; rfl
  | cons c cs ih =>
    intro hb acc
    obtain ⟨h1, h2, h3, h4⟩ := byte_digits c (hb c (List.mem_cons_self _ _))
    rw [List.flatMap_cons, List.cons_append, List.cons_append, List.nil_append, h1, h2,
      digitsValue_cons 16 _ _ _ _ (digitValue_digits _ h3) h3,
      digitsValue_cons 16 _ _ _ _ (digitValue_digits _ h4) h4,
      ih (fun b hb2 => hb b (List.mem_cons_of_mem _ hb2)), List.foldl_cons]
    congr 1
    omega

theorem bigEndianValue_append (init : List Nat) (last : Nat) :
    bigEndianValue (init ++ [last]) = bigEndianValue init * 256 + last := by
  simp [bigEndianValue, List.foldl_append]

/-- What `strtol` makes of the hexadecimal string of `isNtfsHidden`: the
big-endian value of the bytes, or `LONG_MAX` when that value is larger. -/
theorem strtol_hexAttr (longBits : Nat) (bytes : List Nat) (hne : bytes ≠ [])
    (hb : ∀ b ∈ bytes, b < 256) :
    strtol longBits (isNtfsHidden.hexAttr bytes bytes.length) 16 =
      if bigEndianValue bytes > LONG_MAX longBits then (LONG_MAX longBits : Int)
      else (bigEndianValue bytes : Int) := by
  cases bytes with
  | nil => exact absurd rfl hne
  | cons c cs =>
    obtain ⟨h1, h2, h3, h4⟩ := byte_digits c (hb c (List.mem_cons_self _ _))
    have hd := digitsValue_hex (c :: cs) hb 0
    rw [List.flatMap_cons, List.cons_append, List.cons_append, List.nil_append, h1, h2] at hd
    have hsp : isspace 48 = false := by decide
    unfold strtol isNtfsHidden.hexAttr
    rw [List.take_length, List.flatMap_cons, List.cons_append, List.cons_append,
      List.nil_append, h1, h2]
    simp only [List.dropWhile_cons, hsp, Bool.false_eq_true, if_false]
    simp only [digitValue_digits _ h3, Option.any_some, h3, decide_True, true_or, and_self,
      if_true]
    rw [hd]
    rfl

theorem toUInt_natCast (v : Nat) : toUInt (v : Int) = v % 4294967296 := by
  unfold toUInt
  omega

theorem bigEndianValue_lt (bytes : List Nat) :
    (∀ b ∈ bytes, b < 256) →
    ∀ acc, bytes.foldl (fun a b => a * 256 + b) acc < (acc + 1) * 256 ^ bytes.length := by
  induction bytes with
  | nil => intro _ acc; simp
  | cons c cs ih =>
    intro hb acc
    have hc : c < 256 := hb c (List.mem_cons_self _ _)
    have h1 := ih (fun b hb2 => hb b (List.mem_cons_of_mem _ hb2)) (acc * 256 + c)
    have h2 : (acc * 256 + c + 1) * 256 ^ cs.length ≤ ((acc + 1) * 256) * 256 ^ cs.length :=
      Nat.mul_le_mul_right _ (by omega)
    rw [List.foldl_cons, List.length_cons, Nat.pow_succ]
    calc List.foldl (fun a b => a * 256 + b) (acc * 256 + c) cs
        < (acc * 256 + c + 1) * 256 ^ cs.length := h1
      _ ≤ ((acc + 1) * 256) * 256 ^ cs.length := h2
      _ = (acc + 1) * (256 ^ cs.length * 256) := by ring

theorem LONG_MAX_mod_four (longBits : Nat) (hl : 32 ≤ longBits) : LONG_MAX longBits % 4 = 3 := by
  unfold LONG_MAX
  have h : 2 ^ (longBits - 1) = 2 ^ (longBits - 3) * 4 := by
    rw [show longBits - 1 = longBits - 3 + 2 by omega, Nat.pow_add]
  have hpos : 0 < 2 ^ (longBits - 3) := Nat.two_pow_pos _
  rw [h]
  omega

theorem bigEndianValue_fits (longBits : Nat) (bytes : List Nat) (hb : ∀ b ∈ bytes, b < 256)
    (h : 8 * bytes.length < longBits) : bigEndianValue bytes ≤ LONG_MAX longBits := by
  have h1 := bigEndianValue_lt bytes hb 0
  have h2 : (256 : Nat) ^ bytes.length = 2 ^ (8 * bytes.length) := by
    rw [Nat.pow_mul]
  have h3 : 2 ^ (8 * bytes.length) ≤ 2 ^ (longBits - 1) :=
    Nat.pow_le_pow_right (by decide) (by omega)
  unfold bigEndianValue LONG_MAX
  rw [h2] at h1
  omega

/-- The value `isNtfsHidden` returns for an attribute of at least one byte
that fits the buffer: whether bit 1 is set in the big-endian value of the
bytes, or in `LONG_MAX` when that value is larger. -/
theorem isNtfsHidden_value (longBits : Nat) (bytes : List Nat) (hne : bytes ≠ [])
    (hsize : bytes.length ≤ xattr_size) (hb : ∀ b ∈ bytes, b < 256) :
    isNtfsHidden longBits (xattrOf bytes) =
      decide (2 ≤ (if bigEndianValue bytes > LONG_MAX longBits then LONG_MAX longBits
                   else bigEndianValue bytes) % 4) := by
  have hlen : 0 < bytes.length := List.length_pos.mpr hne
  have hp : ¬ ((bytes.length : Int) ≤ 0) := by omega
  unfold isNtfsHidden xattrOf
  simp only [hsize, if_true, hp, if_false, Int.toNat_ofNat, FILE_ATTRIBUTE_HIDDEN]
  rw [decide_eq_decide, strtol_hexAttr longBits bytes hne hb, hidden_bit_iff]
  split
  · rw [toUInt_natCast]
    omega
  · rw [toUInt_natCast]
    omega

/-- An attribute that is empty, or does not fit the buffer, is not hidden. -/
theorem isNtfsHidden_out_of_size (longBits : Nat) (bytes : List Nat)
    (h : bytes = [] ∨ xattr_size < bytes.length) :
    isNtfsHidden longBits (xattrOf bytes) = false := by
  rcases h with h | h
  · subst h
    rfl
  · have hn : ¬ bytes.length ≤ xattr_size := by omega
    unfold isNtfsHidden xattrOf
    simp only [hn, if_false]
    split
    · rfl
    · rfl

/-- C30 refuted at a concrete value.  On a platform whose `long` has 64 bits,
the eight bytes `80 00 00 00 00 00 00 00` spell 2^63, which is above
`LONG_MAX`: `strtol` returns `LONG_MAX`, and `isNtfsHidden` returns true
although bit 1 of the last byte, and of the integer, is clear.  Where `long` has
32 bits the four bytes `80 00 00 00` do the same.  For four-byte values within
range the result follows bit 1 of the last byte. -/
theorem C30_value_above_LONG_MAX_reads_as_hidden :
    isNtfsHidden 64 (xattrOf [128, 0, 0, 0, 0, 0, 0, 0]) = true ∧
    bigEndianValue [128, 0, 0, 0, 0, 0, 0, 0] &&& FILE_ATTRIBUTE_HIDDEN = 0 ∧
    bigEndianValue [128, 0, 0, 0, 0, 0, 0, 0] = 2 ^ 63 ∧
    strtol 64 (isNtfsHidden.hexAttr [128, 0, 0, 0, 0, 0, 0, 0] 8) 16 = 2 ^ 63 - 1 ∧
    isNtfsHidden 32 (xattrOf [128, 0, 0, 0]) = true ∧
    isNtfsHidden 64 (xattrOf [128, 0, 0, 0]) = false ∧
    isNtfsHidden 64 (xattrOf [0, 0, 0, 34]) = true ∧
    isNtfsHidden 64 (xattrOf [0, 0, 0, 32]) = false := by
  decide

/-- C30 as amended.  For every value of the attribute of n bytes with
1 <= n <= 1024, where `long` has at least 32 bits: when the big-endian unsigned
integer spelled by the bytes does not exceed `LONG_MAX`, `isNtfsHidden` returns
true exactly when bit 1 (`FILE_ATTRIBUTE_HIDDEN`, 0x2) of the last byte is set,
which is bit 1 of that integer; the hexadecimal encoding, the parsing and the
truncation to `unsigned int` do not change that bit.  When the integer exceeds
`LONG_MAX`, `strtol` returns `LONG_MAX` and `isNtfsHidden` returns true
whatever the bytes are.  The integer does not exceed `LONG_MAX` when eight
times the number of bytes is below the number of bits of `long`: up to 7 bytes
for 64 bits, up to 3 bytes for 32 bits. -/
theorem C30_hidden_bit_of_value_within_long (longBits : Nat) (init : List Nat) (last : Nat)
    (hl : 32 ≤ longBits) (hsize : (init ++ [last]).length ≤ 1024)
    (hb : ∀ b ∈ init ++ [last], b < 256) :
    (bigEndianValue (init ++ [last]) ≤ LONG_MAX longBits →
      (isNtfsHidden longBits (xattrOf (init ++ [last])) = true ↔
        last &&& FILE_ATTRIBUTE_HIDDEN ≠ 0)) ∧
    (bigEndianValue (init ++ [last]) &&& FILE_ATTRIBUTE_HIDDEN ≠ 0 ↔
      last &&& FILE_ATTRIBUTE_HIDDEN ≠ 0) ∧
    (LONG_MAX longBits < bigEndianValue (init ++ [last]) →
      isNtfsHidden longBits (xattrOf (init ++ [last])) = true) ∧
    (8 * (init.length + 1) < longBits →
      bigEndianValue (init ++ [last]) ≤ LONG_MAX longBits) := by
  have hne : init ++ [last] ≠ [] := by simp
  have hv := isNtfsHidden_value longBits (init ++ [last]) hne hsize hb
  have ha := bigEndianValue_append init last
  refine ⟨?_, ?_, ?_, ?_⟩
  · intro hfit
    rw [hv, if_neg (by omega), ha]
    simp only [FILE_ATTRIBUTE_HIDDEN, hidden_bit_iff, decide_eq_true_eq]
    omega
  · rw [ha]
    simp only [FILE_ATTRIBUTE_HIDDEN, hidden_bit_iff]
    omega
  · intro hover
    rw [hv, if_pos hover, LONG_MAX_mod_four longBits hl]
    decide
  · intro hlen
    apply bigEndianValue_fits longBits (init ++ [last]) hb
    simpa using hlen

/-- C30 as amended, at a concrete value: the four bytes `00 00 00 22` (hidden
and archive) on a platform whose `long` has 64 bits. -/
theorem C30_hidden_bit_of_value_within_long_witness :
    isNtfsHidden 64 (xattrOf ([0, 0, 0] ++ [34])) = true :=
  have h := C30_hidden_bit_of_value_within_long 64 [0, 0, 0] 34 (by decide) (by decide)
    (by decide)
  (h.1 (h.2.2.2 (by decide))).mpr (by decide)
